import Mathlib

/-!
BansheeEngine: folder monitor (Win32) and stack allocator.

A shallow embedding of `BsWin32FolderMonitor.cpp` and `BsMemStack.h`.

Conventions of the embedding:

* machine integers are `Nat`; a `UINT32`/`DWORD` operation that can wrap is written with
  an explicit `% 2 ^ 32`;
* a C++ pointer that may be null is an `Option` or, for a Win32 `HANDLE`, a `Nat` with the
  distinguished values `nullptr` and `INVALID_HANDLE_VALUE`;
* everything the code asks of the outside world (the disk, `Path`, the Win32 calls) is an
  explicit argument: a snapshot of the answers at the moment of the call;
* callbacks are recorded as a list of `Call`s in the order in which they are made.
-/

namespace BansheeEngine

/-! ## Strings, paths and Win32 constants -/

/-- Wide string (`WString`). -/
abbrev WString := String

/-- Banshee `Path`; `Path(const wchar_t*)` and `Path::toWString` are the identity here. -/
abbrev Path := String

/-- Win32 handle value. -/
abbrev HANDLE := Nat

/-- Null pointer and null handle. -/
def nullptr : Nat := 0

/-- Value `(HANDLE)-1` of the Win32 headers. -/
def INVALID_HANDLE_VALUE : HANDLE := 2 ^ 64 - 1

/-- Value of `ERROR_SUCCESS` in the Win32 headers. -/
def ERROR_SUCCESS : Nat := 0

/-- Value of `FILE_ATTRIBUTE_HIDDEN` in the Win32 headers. -/
def FILE_ATTRIBUTE_HIDDEN : Nat := 0x2

/-- Value `(DWORD)-1` of the Win32 headers: what `GetFileAttributesW` returns when the
query fails, in particular for a file that does not exist. -/
def INVALID_FILE_ATTRIBUTES : Nat := 0xFFFFFFFF

/-- Value of `FILE_ACTION_ADDED` in the Win32 headers. -/
def FILE_ACTION_ADDED : Nat := 1
/-- Value of `FILE_ACTION_REMOVED` in the Win32 headers. -/
def FILE_ACTION_REMOVED : Nat := 2
/-- Value of `FILE_ACTION_MODIFIED` in the Win32 headers. -/
def FILE_ACTION_MODIFIED : Nat := 3
/-- Value of `FILE_ACTION_RENAMED_OLD_NAME` in the Win32 headers. -/
def FILE_ACTION_RENAMED_OLD_NAME : Nat := 4
/-- Value of `FILE_ACTION_RENAMED_NEW_NAME` in the Win32 headers. -/
def FILE_ACTION_RENAMED_NEW_NAME : Nat := 5

/-- Answers of the code outside these sources that the monitor queries
(`Path::append`, `FileSystem::*`, `GetFileAttributesW`), as they are at one moment. -/
structure Host where
  /-- The wide string of `Path(rootPath).append(fileName)`. -/
  append : Path → WString → WString
  /-- Result of `GetFileAttributesW`, a `DWORD`. -/
  GetFileAttributesW : WString → Nat
  /-- Result of `FileSystem::exists`. -/
  fileExists : WString → Bool
  /-- Result of `FileSystem::getFileSize`, a `UINT64`. -/
  getFileSize : WString → Nat
  /-- Result of `FileSystem::isDirectory`. -/
  isDirectory : Path → Bool

/-! ## The notification parser: `FileNotifyInfo` -/

/-- One `FILE_NOTIFY_INFORMATION` record as the accessors read it: the two `DWORD` fields
and the file name `getFileName` decodes from `FileName`/`FileNameLength`. -/
structure FILE_NOTIFY_INFORMATION where
  NextEntryOffset : Nat
  Action : Nat
  FileName : WString

/-- Class `FileNotifyInfo`. `mBuffer off` is the record that a `PFILE_NOTIFY_INFORMATION`
pointing `off` bytes into the buffer reads; `mCurrentRecord` is the byte offset of the
current record from `mBuffer` (the buffer is never null in this code, so neither is the
current record). For a memory of bytes `mem` the view is `readRecord mem`, in which
records at overlapping offsets share their bytes. -/
structure FileNotifyInfo where
  mBuffer : Nat → FILE_NOTIFY_INFORMATION
  mBufferSize : Nat
  mCurrentRecord : Nat

/-- Constructor `FileNotifyInfo(notifyBuffer, bufferSize)`. -/
def FileNotifyInfo.new (notifyBuffer : Nat → FILE_NOTIFY_INFORMATION) (bufferSize : Nat) :
    FileNotifyInfo :=
  { mBuffer := notifyBuffer, mBufferSize := bufferSize, mCurrentRecord := 0 }

/-- Method `FileNotifyInfo::getNext`: the returned flag and the iterator afterwards. The
`(DWORD)` cast of the pointer difference is the `% 2 ^ 32`. -/
def FileNotifyInfo.getNext (info : FileNotifyInfo) : Bool × FileNotifyInfo :=
  if (info.mBuffer info.mCurrentRecord).NextEntryOffset != 0 then
    let oldRecord := info.mCurrentRecord
    let advanced := oldRecord + (info.mBuffer oldRecord).NextEntryOffset
    let mCurrentRecord :=
      if advanced % 2 ^ 32 > info.mBufferSize then oldRecord else advanced
    (mCurrentRecord != oldRecord, { info with mCurrentRecord := mCurrentRecord })
  else
    (false, info)

/-- Method `FileNotifyInfo::getAction`. -/
def FileNotifyInfo.getAction (info : FileNotifyInfo) : Nat :=
  (info.mBuffer info.mCurrentRecord).Action

/-- Method `FileNotifyInfo::getFileName`. -/
def FileNotifyInfo.getFileName (info : FileNotifyInfo) : WString :=
  (info.mBuffer info.mCurrentRecord).FileName

/-- Method `FileNotifyInfo::getFileNameWithPath`. -/
def FileNotifyInfo.getFileNameWithPath (host : Host) (info : FileNotifyInfo)
    (rootPath : Path) : WString :=
  host.append rootPath info.getFileName

/-- The `DWORD` that a little-endian target, as every Windows target is, reads at byte
offset `off` of a memory of bytes. -/
def readDWORD (mem : Nat → Nat) (off : Nat) : Nat :=
  mem off % 256 + 256 * (mem (off + 1) % 256) + 65536 * (mem (off + 2) % 256) +
    16777216 * (mem (off + 3) % 256)

/-- The `wchar_t` at index `i` of `fileNameBuffer` in `getFileName`, after the `memcpy` of
`n` bytes from byte offset `src` into the zeroed buffer. -/
def copiedChar (mem : Nat → Nat) (src n i : Nat) : Nat :=
  (if 2 * i < n then mem (src + 2 * i) % 256 else 0) +
    256 * (if 2 * i + 1 < n then mem (src + 2 * i + 1) % 256 else 0)

/-- The record that a `PFILE_NOTIFY_INFORMATION` pointing at byte offset `off` reads from
a memory of bytes: `NextEntryOffset`, `Action` and `FileNameLength` are the `DWORD`s at
`off`, `off + 4` and `off + 8`, and the name is what `getFileName` makes of the bytes from
`off + 12`: at most `32768 * sizeof(wchar_t)` of them, up to the first zero `wchar_t`.
Records read at overlapping offsets share their bytes. -/
def readRecord (mem : Nat → Nat) (off : Nat) : FILE_NOTIFY_INFORMATION :=
  let n := min (32768 * 2) (readDWORD mem (off + 8))
  { NextEntryOffset := readDWORD mem off,
    Action := readDWORD mem (off + 4),
    FileName := String.mk
      ((((List.range ((n + 1) / 2)).map (copiedChar mem (off + 12) n)).takeWhile
        (fun c => c != 0)).map Char.ofNat) }

/-! ## File actions -/

/-- Enum `FileActionType`. -/
inductive FileActionType where
  | Added
  | Removed
  | Modified
  | Renamed
  deriving DecidableEq, Repr

/-- Struct `FileAction`; `oldName` is `none` for the null pointer. -/
structure FileAction where
  oldName : Option WString
  newName : WString
  type : FileActionType
  lastSize : Nat
  checkForWriteStarted : Bool
  deriving DecidableEq, Repr

/-- Factory `FileAction::createAdded`. -/
def FileAction.createAdded (fileName : WString) : FileAction :=
  { oldName := none, newName := fileName, type := FileActionType.Added,
    lastSize := 0, checkForWriteStarted := false }

/-- Factory `FileAction::createRemoved`. -/
def FileAction.createRemoved (fileName : WString) : FileAction :=
  { oldName := none, newName := fileName, type := FileActionType.Removed,
    lastSize := 0, checkForWriteStarted := false }

/-- Factory `FileAction::createModified`. -/
def FileAction.createModified (fileName : WString) : FileAction :=
  { oldName := none, newName := fileName, type := FileActionType.Modified,
    lastSize := 0, checkForWriteStarted := false }

/-- Factory `FileAction::createRenamed`; the source assigns `FileActionType::Modified`
to `type`. -/
def FileAction.createRenamed (oldFilename newfileName : WString) : FileAction :=
  { oldName := some oldFilename, newName := newfileName, type := FileActionType.Modified,
    lastSize := 0, checkForWriteStarted := false }

/-! ## Watch entries and the monitor -/

/-- Enum `MonitorState`. -/
inductive MonitorState where
  | Inactive
  | Starting
  | Monitoring
  | Shutdown
  | Shutdown2
  deriving DecidableEq, Repr

/-- Struct `FolderMonitor::FolderWatchInfo`; the mutex, the signal and `mOverlapped` carry
no data of their own. -/
structure FolderWatchInfo where
  mFolderToMonitor : Path
  mDirHandle : HANDLE
  mState : MonitorState
  mBuffer : Nat → FILE_NOTIFY_INFORMATION
  mBufferSize : Nat
  mMonitorSubdirectories : Bool
  mMonitorFlags : Nat
  mReadError : Nat
  mCachedOldFileName : WString

/-- Constant `FolderWatchInfo::READ_BUFFER_SIZE`. -/
def FolderWatchInfo.READ_BUFFER_SIZE : Nat := 65536

/-- Struct `FolderMonitor::Pimpl`. `mFoldersToWatch` holds the addresses of the
`FolderWatchInfo` objects, `mFileActions` is the queue (front first), `mWorkerThread` is
`none` for the null pointer. -/
structure Pimpl where
  mFoldersToWatch : List Nat
  mCompPortHandle : HANDLE
  mFileActions : List FileAction
  mActiveFileActions : List FileAction
  mWorkerThread : Option Nat

/-- A callback invocation made by `_update`. -/
inductive Call where
  | onAdded (path : Path)
  | onRemoved (path : Path)
  | onModified (path : Path)
  | onRenamed (oldPath newPath : Path)
  deriving DecidableEq, Repr

/-- Which of the four events of the monitor have a subscriber, that is the value of
`!onAdded.empty()` and its three siblings. -/
structure Callbacks where
  onAdded : Bool
  onRemoved : Bool
  onModified : Bool
  onRenamed : Bool
  deriving DecidableEq, Repr

/-! ## `handleNotifications` -/

/-- Body of the `do ... while(notifyInfo.getNext())` loop of `handleNotifications` for
the current record: the entry and the local vector `mActions` afterwards. A record whose
attributes have the hidden bit set is skipped by `continue`. -/
def handleRecord (host : Host) (notifyInfo : FileNotifyInfo) (watchInfo : FolderWatchInfo)
    (mActions : List FileAction) : FolderWatchInfo × List FileAction :=
  let fullPath := notifyInfo.getFileNameWithPath host watchInfo.mFolderToMonitor
  if (host.GetFileAttributesW fullPath) &&& FILE_ATTRIBUTE_HIDDEN != 0 then
    (watchInfo, mActions)
  else if notifyInfo.getAction = FILE_ACTION_ADDED then
    (watchInfo, mActions ++ [FileAction.createAdded fullPath])
  else if notifyInfo.getAction = FILE_ACTION_REMOVED then
    (watchInfo, mActions ++ [FileAction.createRemoved fullPath])
  else if notifyInfo.getAction = FILE_ACTION_MODIFIED then
    (watchInfo, mActions ++ [FileAction.createModified fullPath])
  else if notifyInfo.getAction = FILE_ACTION_RENAMED_OLD_NAME then
    ({ watchInfo with mCachedOldFileName := fullPath }, mActions)
  else if notifyInfo.getAction = FILE_ACTION_RENAMED_NEW_NAME then
    (watchInfo, mActions ++ [FileAction.createRenamed watchInfo.mCachedOldFileName fullPath])
  else
    (watchInfo, mActions)

/-- The `do ... while(notifyInfo.getNext())` loop of `handleNotifications`; `fuel` bounds
the number of records visited, `none` when it runs out. -/
def handleLoop (host : Host) : Nat → FileNotifyInfo → FolderWatchInfo → List FileAction →
    Option (FolderWatchInfo × List FileAction)
  | 0, _, _, _ => none
  | fuel + 1, notifyInfo, watchInfo, mActions =>
    let r := handleRecord host notifyInfo watchInfo mActions
    let n := notifyInfo.getNext
    if n.1 then handleLoop host fuel n.2 r.1 r.2 else some r

/-- Method `FolderMonitor::handleNotifications`: the entry and the monitor afterwards. -/
def handleNotifications (host : Host) (fuel : Nat) (notifyInfo : FileNotifyInfo)
    (watchInfo : FolderWatchInfo) (mPimpl : Pimpl) : Option (FolderWatchInfo × Pimpl) :=
  match handleLoop host fuel notifyInfo watchInfo [] with
  | none => none
  | some r => some (r.1, { mPimpl with mFileActions := mPimpl.mFileActions ++ r.2 })

/-! ## `_update` -/

/-- The `switch (action->type)` of `_update`: the callback invoked for an emitted action,
none when the event has no subscriber. -/
def dispatch (cb : Callbacks) (action : FileAction) : List Call :=
  match action.type with
  | FileActionType.Added =>
    if cb.onAdded then [Call.onAdded action.newName] else []
  | FileActionType.Removed =>
    if cb.onRemoved then [Call.onRemoved action.newName] else []
  | FileActionType.Modified =>
    if cb.onModified then [Call.onModified action.newName] else []
  | FileActionType.Renamed =>
    if cb.onRenamed then [Call.onRenamed (action.oldName.getD "") action.newName] else []

/-- The `for` loop of `_update` over `mActiveFileActions`: the list afterwards and the
callbacks invoked, in order. -/
def updateLoop (host : Host) (cb : Callbacks) : List FileAction → List FileAction × List Call
  | [] => ([], [])
  | action :: rest =>
    let r := updateLoop host cb rest
    if host.fileExists action.newName then
      let size := host.getFileSize action.newName
      if !action.checkForWriteStarted then
        ({ action with checkForWriteStarted := true, lastSize := size } :: r.1, r.2)
      else if action.lastSize != size then
        ({ action with lastSize := size } :: r.1, r.2)
      else
        (r.1, dispatch cb action ++ r.2)
    else
      (r.1, dispatch cb action ++ r.2)

/-- Method `FolderMonitor::_update`: the monitor afterwards and the callbacks invoked. -/
def _update (host : Host) (cb : Callbacks) (mPimpl : Pimpl) : Pimpl × List Call :=
  let active := mPimpl.mActiveFileActions ++ mPimpl.mFileActions
  let r := updateLoop host cb active
  ({ mPimpl with mFileActions := [], mActiveFileActions := r.1 }, r.2)

/-! ## The monitor with its threads and the operating system

The two threads are put in sequence: the worker thread handles completion packets while
the calling thread waits on an entry's condition, or joins the worker. A call therefore
ends in one of several ways, see `Outcome`. The operating system is the record `Win32`:
the handles opened and closed so far, the packets queued on the completion port, and the
directory handles on which a `ReadDirectoryChangesW` request is outstanding. Closing such
a handle completes the request, which queues a packet with the handle's completion key. -/

/-- Operating-system side of the monitor. -/
structure Win32 where
  /-- Handles returned by `CreateFileW`, in order. -/
  opened : List HANDLE
  /-- Handles passed to `CloseHandle`, in order. -/
  closed : List HANDLE
  /-- Completion keys of the packets queued on the completion port, oldest first. -/
  packets : List Nat
  /-- Directory handles with an outstanding read request, with their completion key. -/
  reading : List (HANDLE × Nat)

/-- The `FolderMonitor` object, the `FolderWatchInfo` objects it allocated (by address;
`bs_new` returns `nextAddr`, a fresh address), and the operating system. -/
structure World where
  mPimpl : Pimpl
  watchInfos : Nat → FolderWatchInfo
  nextAddr : Nat
  os : Win32

/-- Enumerator values of `BansheeEngine::FolderChange`, declared in the header of the
monitor. -/
structure FolderChange where
  FileName : Nat
  DirName : Nat
  Attributes : Nat
  Size : Nat
  LastWrite : Nat
  LastAccess : Nat
  Creation : Nat
  Security : Nat

/-- Answers of the outside world during one call of the monitor's interface. -/
structure Env where
  host : Host
  folderChange : FolderChange
  /-- Result of `CreateFileW`: a handle, or `INVALID_HANDLE_VALUE`. -/
  CreateFileW : HANDLE
  /-- Result of `CreateIoCompletionPort`: the port, or `nullptr`. -/
  CreateIoCompletionPort : HANDLE
  /-- Result of `bs_new<Thread>`: the thread object, or `none` for a null pointer. -/
  newThread : Option Nat
  /-- Whether `ReadDirectoryChangesW` succeeds. -/
  ReadDirectoryChangesW : Bool
  /-- Result of `GetLastError` after a failed call. -/
  GetLastError : Nat
  /-- Bound on the number of records `handleNotifications` visits in one batch. -/
  records : Nat

/-- How a call ends: it returns, it raises an exception (`BS_EXCEPT`), the calling thread
waits forever (nothing is left that could wake it), the bound on the number of steps ran
out, or the code left the behaviour this embedding describes (a worker waiting on a null
completion port). -/
inductive Outcome where
  | returned
  | raised
  | blocked
  | outOfFuel
  | undefined
  deriving DecidableEq, Repr

/-- Value of `FILE_NOTIFY_CHANGE_FILE_NAME` in the Win32 headers. -/
def FILE_NOTIFY_CHANGE_FILE_NAME : Nat := 0x1
/-- Value of `FILE_NOTIFY_CHANGE_DIR_NAME` in the Win32 headers. -/
def FILE_NOTIFY_CHANGE_DIR_NAME : Nat := 0x2
/-- Value of `FILE_NOTIFY_CHANGE_ATTRIBUTES` in the Win32 headers. -/
def FILE_NOTIFY_CHANGE_ATTRIBUTES : Nat := 0x4
/-- Value of `FILE_NOTIFY_CHANGE_SIZE` in the Win32 headers. -/
def FILE_NOTIFY_CHANGE_SIZE : Nat := 0x8
/-- Value of `FILE_NOTIFY_CHANGE_LAST_WRITE` in the Win32 headers. -/
def FILE_NOTIFY_CHANGE_LAST_WRITE : Nat := 0x10
/-- Value of `FILE_NOTIFY_CHANGE_LAST_ACCESS` in the Win32 headers. -/
def FILE_NOTIFY_CHANGE_LAST_ACCESS : Nat := 0x20
/-- Value of `FILE_NOTIFY_CHANGE_CREATION` in the Win32 headers. -/
def FILE_NOTIFY_CHANGE_CREATION : Nat := 0x40
/-- Value of `FILE_NOTIFY_CHANGE_SECURITY` in the Win32 headers. -/
def FILE_NOTIFY_CHANGE_SECURITY : Nat := 0x100

/-- The computation of `filterFlags` in `FolderMonitor::startMonitor`. -/
def filterFlags (fc : FolderChange) (changeFilter : Nat) : Nat :=
  let f0 := 0
  let f1 := if changeFilter &&& fc.FileName != 0 then f0 ||| FILE_NOTIFY_CHANGE_FILE_NAME else f0
  let f2 := if changeFilter &&& fc.DirName != 0 then f1 ||| FILE_NOTIFY_CHANGE_DIR_NAME else f1
  let f3 :=
    if changeFilter &&& fc.Attributes != 0 then f2 ||| FILE_NOTIFY_CHANGE_ATTRIBUTES else f2
  let f4 := if changeFilter &&& fc.Size != 0 then f3 ||| FILE_NOTIFY_CHANGE_SIZE else f3
  let f5 :=
    if changeFilter &&& fc.LastWrite != 0 then f4 ||| FILE_NOTIFY_CHANGE_LAST_WRITE else f4
  let f6 :=
    if changeFilter &&& fc.LastAccess != 0 then f5 ||| FILE_NOTIFY_CHANGE_LAST_ACCESS else f5
  let f7 := if changeFilter &&& fc.Creation != 0 then f6 ||| FILE_NOTIFY_CHANGE_CREATION else f6
  if changeFilter &&& fc.Security != 0 then f7 ||| FILE_NOTIFY_CHANGE_SECURITY else f7

/-- Win32 `CloseHandle` on a directory handle: the call is logged, and a read request
outstanding on the handle completes, which queues a packet with its completion key. -/
def Win32.CloseHandle (os : Win32) (h : HANDLE) : Win32 :=
  { os with
    closed := os.closed ++ [h],
    packets := os.packets ++ (os.reading.filter (fun r => r.1 = h)).map (fun r => r.2),
    reading := os.reading.filter (fun r => r.1 ≠ h) }

/-- Win32 `CloseHandle` on the completion port: the call is logged and the packets still
queued on the port go with it. -/
def Win32.closePort (os : Win32) (port : HANDLE) : Win32 :=
  { os with closed := os.closed ++ [port], packets := [] }

/-- Win32 `PostQueuedCompletionStatus` with completion key `key`; it fails, queueing
nothing, on a null port. -/
def Win32.PostQueuedCompletionStatus (os : Win32) (compPortHandle : HANDLE) (key : Nat) :
    Win32 :=
  if compPortHandle = nullptr then os else { os with packets := os.packets ++ [key] }

/-- A successful `ReadDirectoryChangesW` on `h`: a request is now outstanding on it. -/
def Win32.startRead (os : Win32) (h : HANDLE) (key : Nat) : Win32 :=
  if (h, key) ∈ os.reading then os else { os with reading := os.reading ++ [(h, key)] }

/-- Assignment through a `FolderWatchInfo` pointer. -/
def World.store (w : World) (p : Nat) (info : FolderWatchInfo) : World :=
  { w with watchInfos := fun a => if a = p then info else w.watchInfos a }

/-- Constructor `FolderWatchInfo(folderToMonitor, dirHandle, monitorSubdirectories,
monitorFlags)`. The constructor does not initialise `mBuffer`, whose content is
indeterminate until a read completes; zero bytes stand for it here. -/
def FolderWatchInfo.new (folderToMonitor : Path) (dirHandle : HANDLE)
    (monitorSubdirectories : Bool) (monitorFlags : Nat) : FolderWatchInfo :=
  { mFolderToMonitor := folderToMonitor, mDirHandle := dirHandle,
    mState := MonitorState.Inactive,
    mBuffer := fun _ => { NextEntryOffset := 0, Action := 0, FileName := "" },
    mBufferSize := 0, mMonitorSubdirectories := monitorSubdirectories,
    mMonitorFlags := monitorFlags, mReadError := 0, mCachedOldFileName := "" }

/-- Constructor `FolderMonitor()`, on a system that has seen no call yet. -/
def World.init : World :=
  { mPimpl := { mFoldersToWatch := [], mCompPortHandle := nullptr, mFileActions := [],
                mActiveFileActions := [], mWorkerThread := none },
    watchInfos := fun _ => FolderWatchInfo.new "" INVALID_HANDLE_VALUE false 0,
    nextAddr := 1,
    os := { opened := [], closed := [], packets := [], reading := [] } }

/-- One pass of the `do ... while` loop of `workerThreadMain` after
`GetQueuedCompletionStatus` returned the non-null completion key `p`: the `switch` on the
state of the entry at `p`. The result is the world afterwards; `none` when
`handleNotifications` ran out of fuel. -/
def workerDispatch (env : Env) (p : Nat) (w : World) : Option World :=
  let watchInfo := w.watchInfos p
  match watchInfo.mState with
  | MonitorState.Starting =>
    if !env.ReadDirectoryChangesW then
      some (w.store p { watchInfo with mReadError := env.GetLastError })
    else
      some ({ w with os := w.os.startRead watchInfo.mDirHandle p }.store p
        { watchInfo with mReadError := ERROR_SUCCESS, mState := MonitorState.Monitoring })
  | MonitorState.Monitoring =>
    match handleNotifications env.host env.records
        (FileNotifyInfo.new watchInfo.mBuffer FolderWatchInfo.READ_BUFFER_SIZE)
        watchInfo w.mPimpl with
    | none => none
    | some r =>
      if !env.ReadDirectoryChangesW then
        some ({ w with mPimpl := r.2 }.store p { r.1 with mReadError := env.GetLastError })
      else
        some ({ w with mPimpl := r.2, os := w.os.startRead watchInfo.mDirHandle p }.store p
          { r.1 with mReadError := ERROR_SUCCESS })
  | MonitorState.Shutdown =>
    if watchInfo.mDirHandle ≠ INVALID_HANDLE_VALUE then
      some ({ w with os := w.os.CloseHandle watchInfo.mDirHandle }.store p
        { watchInfo with mDirHandle := INVALID_HANDLE_VALUE,
                         mState := MonitorState.Shutdown2 })
    else
      some (w.store p { watchInfo with mState := MonitorState.Inactive })
  | MonitorState.Shutdown2 =>
    if watchInfo.mDirHandle ≠ INVALID_HANDLE_VALUE then
      some ({ w with os := w.os.CloseHandle watchInfo.mDirHandle }.store p
        { watchInfo with mDirHandle := INVALID_HANDLE_VALUE })
    else
      some (w.store p { watchInfo with mState := MonitorState.Inactive })
  | MonitorState.Inactive => some w

/-- The wait loop `while(mState != target) mStartStopEvent.wait(lock)` on the entry at
`p`. While the caller waits, the worker thread takes packets off the completion port and
dispatches them. The caller is blocked for good when the state is not `target` and there
is no worker thread, no packet left, or the worker has left its loop on a null key. -/
def await (env : Env) (p : Nat) (target : MonitorState) : Nat → World → Outcome × World
  | 0, w => (Outcome.outOfFuel, w)
  | fuel + 1, w =>
    if (w.watchInfos p).mState = target then (Outcome.returned, w)
    else
      match w.mPimpl.mWorkerThread with
      | none => (Outcome.blocked, w)
      | some _ =>
        if w.mPimpl.mCompPortHandle = nullptr then (Outcome.undefined, w)
        else
          match w.os.packets with
          | [] => (Outcome.blocked, w)
          | key :: rest =>
            let w1 : World := { w with os := { w.os with packets := rest } }
            if key = nullptr then (Outcome.blocked, w1)
            else
              match workerDispatch env key w1 with
              | none => (Outcome.outOfFuel, w1)
              | some w2 => await env p target fuel w2

/-- Call `mWorkerThread->join()`: the worker handles the queued packets until it takes
one with a null key and leaves its loop. -/
def joinWorker (env : Env) : Nat → World → Outcome × World
  | 0, w => (Outcome.outOfFuel, w)
  | fuel + 1, w =>
    if w.mPimpl.mCompPortHandle = nullptr then (Outcome.undefined, w)
    else
      match w.os.packets with
      | [] => (Outcome.blocked, w)
      | key :: rest =>
        let w1 : World := { w with os := { w.os with packets := rest } }
        if key = nullptr then (Outcome.returned, w1)
        else
          match workerDispatch env key w1 with
          | none => (Outcome.outOfFuel, w1)
          | some w2 => joinWorker env fuel w2

/-- Sequencing of two steps of a call: the second step runs in the world the first one
left, provided the first one returned; any other outcome ends the call there. -/
def andThen (r : Outcome × World) (next : World → Outcome × World) : Outcome × World :=
  match r.1 with
  | Outcome.returned => next r.2
  | o => (o, r.2)

/-- Method `FolderWatchInfo::startMonitor(compPortHandle)` of the entry at `p`. -/
def FolderWatchInfo.startMonitor (env : Env) (fuel : Nat) (p : Nat) (compPortHandle : HANDLE)
    (w : World) : Outcome × World :=
  if (w.watchInfos p).mState ≠ MonitorState.Inactive then (Outcome.returned, w)
  else
    let w1 := w.store p { w.watchInfos p with mState := MonitorState.Starting }
    let w2 : World := { w1 with os := w1.os.PostQueuedCompletionStatus compPortHandle p }
    andThen (await env p MonitorState.Monitoring fuel w2) fun w3 =>
      if (w3.watchInfos p).mReadError ≠ ERROR_SUCCESS then
        (Outcome.raised, w3.store p { w3.watchInfos p with mState := MonitorState.Inactive })
      else (Outcome.returned, w3)

/-- Method `FolderWatchInfo::stopMonitor(compPortHandle)` of the entry at `p`. -/
def FolderWatchInfo.stopMonitor (env : Env) (fuel : Nat) (p : Nat) (compPortHandle : HANDLE)
    (w : World) : Outcome × World :=
  andThen
    (if (w.watchInfos p).mState ≠ MonitorState.Inactive then
      let w1 := w.store p { w.watchInfos p with mState := MonitorState.Shutdown }
      let w2 : World := { w1 with os := w1.os.PostQueuedCompletionStatus compPortHandle p }
      await env p MonitorState.Inactive fuel w2
    else (Outcome.returned, w))
    fun w3 =>
      if (w3.watchInfos p).mDirHandle ≠ INVALID_HANDLE_VALUE then
        (Outcome.returned,
          { w3 with os := w3.os.CloseHandle (w3.watchInfos p).mDirHandle }.store p
            { w3.watchInfos p with mDirHandle := INVALID_HANDLE_VALUE })
      else (Outcome.returned, w3)

/-- Destructor `~FolderWatchInfo` of the entry at `p`, as run by `bs_delete`: after the
assertion it calls `stopMonitor(0)`. -/
def FolderWatchInfo.destructor (env : Env) (fuel : Nat) (p : Nat) (w : World) :
    Outcome × World :=
  FolderWatchInfo.stopMonitor env fuel p nullptr w

/-- The rollback of `FolderMonitor::startMonitor`: erase the last entry of
`mFoldersToWatch`, `bs_delete(watchInfo)`, `BS_EXCEPT`. -/
def rollbackStart (env : Env) (fuel : Nat) (watchInfo : Nat) (w : World) : Outcome × World :=
  let w1 : World :=
    { w with mPimpl := { w.mPimpl with mFoldersToWatch := w.mPimpl.mFoldersToWatch.dropLast } }
  andThen (FolderWatchInfo.destructor env fuel watchInfo w1) fun w2 => (Outcome.raised, w2)

/-- The statement `mFoldersToWatch.push_back(bs_new<FolderWatchInfo>(...))` of
`FolderMonitor::startMonitor`: the new object gets the address `nextAddr`. -/
def World.pushWatch (w : World) (info : FolderWatchInfo) : World :=
  { w with
    nextAddr := w.nextAddr + 1,
    watchInfos := fun a => if a = w.nextAddr then info else w.watchInfos a,
    mPimpl := { w.mPimpl with mFoldersToWatch := w.mPimpl.mFoldersToWatch ++ [w.nextAddr] } }

/-- The part of `FolderMonitor::startMonitor` that follows the assignment of
`mCompPortHandle`, for the new entry at `watchInfo`: the test of the port, the creation of
the worker thread, and the start of the entry. -/
def startRegistered (env : Env) (fuel : Nat) (watchInfo : Nat) (w : World) :
    Outcome × World :=
  if w.mPimpl.mCompPortHandle = nullptr then rollbackStart env fuel watchInfo w
  else
    let created : Option World :=
      match w.mPimpl.mWorkerThread with
      | none =>
        match env.newThread with
        | none => none
        | some t => some { w with mPimpl := { w.mPimpl with mWorkerThread := some t } }
      | some _ => some w
    match created with
    | none => rollbackStart env fuel watchInfo w
    | some w1 =>
      match w1.mPimpl.mWorkerThread with
      | some _ => FolderWatchInfo.startMonitor env fuel watchInfo w1.mPimpl.mCompPortHandle w1
      | none => rollbackStart env fuel watchInfo w1

/-- Method `FolderMonitor::startMonitor(folderPath, subdirectories, changeFilter)`. -/
def startMonitor (env : Env) (fuel : Nat) (folderPath : Path) (subdirectories : Bool)
    (changeFilter : Nat) (w : World) : Outcome × World :=
  if !env.host.isDirectory folderPath then (Outcome.returned, w)
  else
    let dirHandle := env.CreateFileW
    if dirHandle = INVALID_HANDLE_VALUE then (Outcome.raised, w)
    else
      let flags := filterFlags env.folderChange changeFilter
      let w1 : World := { w with os := { w.os with opened := w.os.opened ++ [dirHandle] } }
      let w2 := w1.pushWatch (FolderWatchInfo.new folderPath dirHandle subdirectories flags)
      let watchInfo := w.nextAddr
      let w3 : World :=
        { w2 with mPimpl := { w2.mPimpl with mCompPortHandle := env.CreateIoCompletionPort } }
      startRegistered env fuel watchInfo w3

/-- The loop of `stopMonitorAll` over the entries of `mFoldersToWatch`. -/
def stopEach (env : Env) (fuel : Nat) : List Nat → World → Outcome × World
  | [], w => (Outcome.returned, w)
  | watchInfo :: rest, w =>
    andThen (FolderWatchInfo.stopMonitor env fuel watchInfo w.mPimpl.mCompPortHandle w)
      fun w1 =>
        andThen (FolderWatchInfo.destructor env fuel watchInfo w1) fun w2 =>
          stopEach env fuel rest w2

/-- Method `FolderMonitor::stopMonitorAll`. -/
def stopMonitorAll (env : Env) (fuel : Nat) (w : World) : Outcome × World :=
  andThen (stopEach env fuel w.mPimpl.mFoldersToWatch w) fun w0 =>
    let w1 : World := { w0 with mPimpl := { w0.mPimpl with mFoldersToWatch := [] } }
    andThen
      (match w1.mPimpl.mWorkerThread with
        | some _ =>
          let w2 : World :=
            { w1 with
              os := w1.os.PostQueuedCompletionStatus w1.mPimpl.mCompPortHandle nullptr }
          andThen (joinWorker env fuel w2) fun w3 =>
            (Outcome.returned, { w3 with mPimpl := { w3.mPimpl with mWorkerThread := none } })
        | none => (Outcome.returned, w1))
      fun w4 =>
        if w4.mPimpl.mCompPortHandle ≠ nullptr then
          (Outcome.returned,
            { w4 with os := w4.os.closePort w4.mPimpl.mCompPortHandle,
                      mPimpl := { w4.mPimpl with mCompPortHandle := nullptr } })
        else (Outcome.returned, w4)

/-- The `std::find_if` of `FolderMonitor::stopMonitor`: position of the first entry of
the list whose `mFolderToMonitor` equals `folderPath`. -/
def findWatch (watchInfos : Nat → FolderWatchInfo) (folderPath : Path) :
    List Nat → Option Nat
  | [] => none
  | p :: rest =>
    if (watchInfos p).mFolderToMonitor = folderPath then some 0
    else (findWatch watchInfos folderPath rest).map (fun i => i + 1)

/-- Method `FolderMonitor::stopMonitor(folderPath)`. -/
def stopMonitor (env : Env) (fuel : Nat) (folderPath : Path) (w : World) : Outcome × World :=
  andThen
    (match findWatch w.watchInfos folderPath w.mPimpl.mFoldersToWatch with
      | some findIter =>
        let watchInfo := w.mPimpl.mFoldersToWatch.getD findIter 0
        andThen (FolderWatchInfo.stopMonitor env fuel watchInfo w.mPimpl.mCompPortHandle w)
          fun w1 =>
            andThen (FolderWatchInfo.destructor env fuel watchInfo w1) fun w2 =>
              (Outcome.returned,
                { w2 with mPimpl := { w2.mPimpl with
                    mFoldersToWatch := w2.mPimpl.mFoldersToWatch.eraseIdx findIter } })
      | none => (Outcome.returned, w))
    fun w3 =>
      if w3.mPimpl.mFoldersToWatch.length = 0 then stopMonitorAll env fuel w3
      else (Outcome.returned, w3)

/-! ## Registry views and reachable states -/

/-- The directory paths of the entries of the registry, in registry order. -/
def World.paths (w : World) : List Path :=
  w.mPimpl.mFoldersToWatch.map (fun p => (w.watchInfos p).mFolderToMonitor)

/-- The registry part of `v` is that of `w`: same vector of entries, same allocation
counter, and every `FolderWatchInfo` object still has its directory path. -/
def World.SameRegistry (w v : World) : Prop :=
  v.mPimpl.mFoldersToWatch = w.mPimpl.mFoldersToWatch ∧ v.nextAddr = w.nextAddr ∧
  ∀ a, (v.watchInfos a).mFolderToMonitor = (w.watchInfos a).mFolderToMonitor

/-- The registry of `v` is what is left of that of `w` after erasing entries: its vector
is a sublist, the allocation counter is the same, and every `FolderWatchInfo` object
still has its directory path. -/
def World.SubRegistry (w v : World) : Prop :=
  v.mPimpl.mFoldersToWatch.Sublist w.mPimpl.mFoldersToWatch ∧ v.nextAddr = w.nextAddr ∧
  ∀ a, (v.watchInfos a).mFolderToMonitor = (w.watchInfos a).mFolderToMonitor

/-- States of the monitor reachable from the constructor through `startMonitor`,
`stopMonitor` and `stopMonitorAll` calls that hand control back to the caller (by
returning or by raising), where `startMonitor` is only ever called with a path that is
not in the registry at that moment. -/
inductive ReachableFresh : World → Prop where
  | init : ReachableFresh World.init
  | start (env : Env) (fuel : Nat) (folderPath : Path) (subdirectories : Bool)
      (changeFilter : Nat) (w : World) :
      ReachableFresh w → folderPath ∉ w.paths →
      (startMonitor env fuel folderPath subdirectories changeFilter w).1 = Outcome.returned ∨
        (startMonitor env fuel folderPath subdirectories changeFilter w).1 = Outcome.raised →
      ReachableFresh (startMonitor env fuel folderPath subdirectories changeFilter w).2
  | stop (env : Env) (fuel : Nat) (folderPath : Path) (w : World) :
      ReachableFresh w →
      (stopMonitor env fuel folderPath w).1 = Outcome.returned →
      ReachableFresh (stopMonitor env fuel folderPath w).2
  | stopAll (env : Env) (fuel : Nat) (w : World) :
      ReachableFresh w →
      (stopMonitorAll env fuel w).1 = Outcome.returned →
      ReachableFresh (stopMonitorAll env fuel w).2

/-! ## The stack allocator: `MemStackInternal`

Blocks live in a heap indexed by block address. A pointer into the data area of a block
is the pair of the block address and the byte offset from `mData`, so two pointers are
equal exactly when both components are. `bs_alloc` hands out a fresh address on every
call; `bs_free` marks the block as no longer alive and leaves its bytes as they are. -/

/-- Class `MemStackInternal::MemBlock`. `mData off` is the `UINT32` stored at offset `off`
of the data area (the size headers written by `alloc`); headers are taken whole, which
is exact as long as two of them are at least four bytes apart. -/
structure MemBlock where
  mData : Nat → Nat
  mFreePtr : Nat
  mSize : Nat
  mNextBlock : Option Nat
  mPrevBlock : Option Nat

/-- A `UINT8*` into the data area of the block at address `block`. -/
structure DataPtr where
  block : Nat
  offset : Nat
  deriving DecidableEq, Repr

/-- Class `MemStackInternal<BlockCapacity>` together with the heap its blocks live in. -/
structure MemStackInternal where
  BlockCapacity : Nat
  heap : Nat → MemBlock
  alive : Nat → Bool
  nextAddr : Nat
  mFreeBlock : Option Nat

/-- Constructor `MemBlock(size)`. -/
def MemBlock.new (size : Nat) : MemBlock :=
  { mData := fun _ => 0, mFreePtr := 0, mSize := size, mNextBlock := none,
    mPrevBlock := none }

/-- Method `MemBlock::alloc`: the offset of the first free byte and the block afterwards
(`mFreePtr` is a `UINT32`). -/
def MemBlock.alloc (b : MemBlock) (amount : Nat) : Nat × MemBlock :=
  (b.mFreePtr, { b with mFreePtr := (b.mFreePtr + amount) % 2 ^ 32 })

/-- Method `MemBlock::dealloc` of the block at address `self`: the block afterwards and
whether the assertion `(&mData[mFreePtr]) == data` holds. -/
def MemBlock.dealloc (b : MemBlock) (self : Nat) (data : DataPtr) (amount : Nat) :
    MemBlock × Bool :=
  let mFreePtr := (b.mFreePtr + 2 ^ 32 - amount % 2 ^ 32) % 2 ^ 32
  ({ b with mFreePtr := mFreePtr },
   decide (({ block := self, offset := mFreePtr } : DataPtr) = data))

/-- Assignment through a block pointer: the heap with the block at `addr` replaced. -/
def MemStackInternal.store (s : MemStackInternal) (addr : Nat) (b : MemBlock) :
    MemStackInternal :=
  { s with heap := fun a => if a = addr then b else s.heap a }

/-- The `while (curBlock != nullptr)` search of `allocBlock`, started at `curBlock`: the
first block after it in the chain whose size is at least `blockSize`, `none` when the
chain ends first (`newBlock` stays null). `fuel` bounds the number of blocks visited. -/
def MemStackInternal.findBlock (heap : Nat → MemBlock) (blockSize : Nat) :
    Nat → Option Nat → Option Nat
  | 0, _ => none
  | _ + 1, none => none
  | fuel + 1, some curBlock =>
    match (heap curBlock).mNextBlock with
    | none => none
    | some nextBlock =>
      if (heap nextBlock).mSize ≥ blockSize then some nextBlock
      else MemStackInternal.findBlock heap blockSize fuel (some nextBlock)

/-- Method `MemStackInternal::allocBlock`. Every block of the chain has an address below
`nextAddr`, which bounds the search. -/
def MemStackInternal.allocBlock (s : MemStackInternal) (wantedSize : Nat) :
    MemStackInternal :=
  let blockSize := if wantedSize > s.BlockCapacity then wantedSize else s.BlockCapacity
  match MemStackInternal.findBlock s.heap blockSize (s.nextAddr + 1) s.mFreeBlock with
  | some newBlock => { s with mFreeBlock := some newBlock }
  | none =>
    let addr := s.nextAddr
    let newBlock : MemBlock := { MemBlock.new blockSize with mPrevBlock := s.mFreeBlock }
    let s1 : MemStackInternal :=
      { s with nextAddr := addr + 1, alive := fun a => if a = addr then true else s.alive a }
    match s.mFreeBlock with
    | none => { s1.store addr newBlock with mFreeBlock := some addr }
    | some free =>
      let s2 :=
        match (s1.heap free).mNextBlock with
        | some next => s1.store next { s1.heap next with mPrevBlock := some addr }
        | none => s1
      let s3 := s2.store addr { newBlock with mNextBlock := (s2.heap free).mNextBlock }
      let s4 := s3.store free { s3.heap free with mNextBlock := some addr }
      { s4 with mFreeBlock := some addr }

/-- Method `MemStackInternal::deallocBlock`. -/
def MemStackInternal.deallocBlock (s : MemStackInternal) (block : Nat) : MemStackInternal :=
  { s with alive := fun a => if a = block then false else s.alive a }

/-- Constructor `MemStackInternal()` for the template argument `BlockCapacity`. -/
def MemStackInternal.new (BlockCapacity : Nat) : MemStackInternal :=
  MemStackInternal.allocBlock
    { BlockCapacity := BlockCapacity, heap := fun _ => MemBlock.new 0, alive := fun _ => false,
      nextAddr := 0, mFreeBlock := none }
    BlockCapacity

/-- Method `MemStackInternal::alloc`: the stack afterwards and the returned pointer;
`none` when `mFreeBlock` is null. `amount` and `freeMem` are `UINT32`. -/
def MemStackInternal.alloc (s : MemStackInternal) (amount : Nat) :
    Option (MemStackInternal × DataPtr) :=
  let amount := (amount + 4) % 2 ^ 32
  match s.mFreeBlock with
  | none => none
  | some free =>
    let freeMem := ((s.heap free).mSize + 2 ^ 32 - (s.heap free).mFreePtr) % 2 ^ 32
    let s1 := if amount > freeMem then s.allocBlock amount else s
    match s1.mFreeBlock with
    | none => none
    | some cur =>
      let r := (s1.heap cur).alloc amount
      let data : DataPtr := { block := cur, offset := r.1 }
      let written : MemBlock :=
        { r.2 with mData := fun off => if off = data.offset then amount else r.2.mData off }
      some (s1.store cur written, { data with offset := data.offset + 4 })

/-- Method `MemStackInternal::dealloc`: the stack afterwards and whether the assertion of
`MemBlock::dealloc` held; `none` when `mFreeBlock` is null. -/
def MemStackInternal.dealloc (s : MemStackInternal) (data : DataPtr) :
    Option (MemStackInternal × Bool) :=
  let data : DataPtr := { data with offset := data.offset - 4 }
  let storedSize := (s.heap data.block).mData data.offset
  match s.mFreeBlock with
  | none => none
  | some free =>
    let r := (s.heap free).dealloc free data storedSize
    let s1 := s.store free r.1
    if (s1.heap free).mFreePtr = 0 then
      let emptyBlock := free
      let s2 : MemStackInternal :=
        match (s1.heap emptyBlock).mPrevBlock with
        | some prev => { s1 with mFreeBlock := some prev }
        | none => s1
      match (s2.heap emptyBlock).mNextBlock with
      | some next =>
        let totalSize := ((s2.heap emptyBlock).mSize + (s2.heap next).mSize) % 2 ^ 32
        let s3 : MemStackInternal :=
          match (s2.heap emptyBlock).mPrevBlock with
          | some prev => s2.store prev { s2.heap prev with mNextBlock := none }
          | none => { s2 with mFreeBlock := none }
        let s4 := (s3.deallocBlock next).deallocBlock emptyBlock
        some (s4.allocBlock totalSize, r.2)
      | none => some (s2, r.2)
    else
      some (s1, r.2)

/-- The assertion of the destructor `~MemStackInternal`: `mFreeBlock->mFreePtr == 0`. -/
def MemStackInternal.destructorAssert (s : MemStackInternal) : Bool :=
  match s.mFreeBlock with
  | none => false
  | some free => (s.heap free).mFreePtr == 0

/-- A run of `alloc` calls with the given amounts, in order: the stack afterwards and the
returned pointers, the most recent first. -/
def MemStackInternal.allocAll :
    MemStackInternal → List Nat → Option (MemStackInternal × List DataPtr)
  | s, [] => some (s, [])
  | s, amount :: rest =>
    match s.alloc amount with
    | none => none
    | some (s1, p) =>
      match MemStackInternal.allocAll s1 rest with
      | none => none
      | some (s2, ps) => some (s2, ps ++ [p])

/-- A run of `dealloc` calls on the given pointers, in order: the stack afterwards and,
for every call, the block that was current when it was made and whether its assertion
held. -/
def MemStackInternal.deallocAll :
    MemStackInternal → List DataPtr → Option (MemStackInternal × List (Option Nat × Bool))
  | s, [] => some (s, [])
  | s, p :: rest =>
    match s.dealloc p with
    | none => none
    | some (s1, ok) =>
      match MemStackInternal.deallocAll s1 rest with
      | none => none
      | some (s2, oks) => some (s2, (s.mFreeBlock, ok) :: oks)

/-! ## The life of a watch entry -/

/-- The values a `FolderWatchInfo` object takes in the course of its life, as the monitor
drives it. `FolderMonitor::startMonitor` constructs it with the handle it just opened and
calls `FolderWatchInfo::startMonitor` on it, which sets `Starting`; the worker dispatches
on it; `FolderWatchInfo::startMonitor` sets `Inactive` again when it finds a read error
after its wait; `FolderWatchInfo::stopMonitor` sets `Shutdown` on an entry that is not
`Inactive` and, once the entry is `Inactive`, closes a handle that is still valid. -/
inductive EntryLife : FolderWatchInfo → Prop where
  | constructed (folderToMonitor : Path) (dirHandle : HANDLE) (monitorSubdirectories : Bool)
      (monitorFlags : Nat) :
      dirHandle ≠ INVALID_HANDLE_VALUE →
      EntryLife (FolderWatchInfo.new folderToMonitor dirHandle monitorSubdirectories
        monitorFlags)
  | started (folderToMonitor : Path) (dirHandle : HANDLE) (monitorSubdirectories : Bool)
      (monitorFlags : Nat) :
      dirHandle ≠ INVALID_HANDLE_VALUE →
      EntryLife { FolderWatchInfo.new folderToMonitor dirHandle monitorSubdirectories
                    monitorFlags with mState := MonitorState.Starting }
  | dispatched (env : Env) (p : Nat) (w w1 : World) :
      EntryLife (w.watchInfos p) → workerDispatch env p w = some w1 →
      EntryLife (w1.watchInfos p)
  | startFailed (e : FolderWatchInfo) :
      EntryLife e → e.mState = MonitorState.Monitoring → e.mReadError ≠ ERROR_SUCCESS →
      EntryLife { e with mState := MonitorState.Inactive }
  | stopRequested (e : FolderWatchInfo) :
      EntryLife e → e.mState ≠ MonitorState.Inactive →
      EntryLife { e with mState := MonitorState.Shutdown }
  | handleClosed (e : FolderWatchInfo) :
      EntryLife e → e.mState = MonitorState.Inactive →
      e.mDirHandle ≠ INVALID_HANDLE_VALUE →
      EntryLife { e with mDirHandle := INVALID_HANDLE_VALUE }

/-! ## Views of the parser loop -/

/-- The iterator after `k` successive calls of `getNext` that all return true; `none`
when one of these calls returns false. -/
def FileNotifyInfo.advance : Nat → FileNotifyInfo → Option FileNotifyInfo
  | 0, info => some info
  | k + 1, info =>
    if info.getNext.1 then FileNotifyInfo.advance k info.getNext.2 else none

/-- Number of records the `do ... while(notifyInfo.getNext())` loop of
`handleNotifications` visits: the current record, then one for every true result of
`getNext`. `fuel` bounds the number of records, `none` when it runs out. -/
def visitedRecords : Nat → FileNotifyInfo → Option Nat
  | 0, _ => none
  | fuel + 1, info =>
    if info.getNext.1 then (visitedRecords fuel info.getNext.2).map (fun k => k + 1)
    else some 1

/-- Reading of the wording "the records of the chain starting at offset 0": the number of
records met by following `NextEntryOffset` from the record at `off` until a record with
`NextEntryOffset = 0`, whatever their offsets; `fuel` bounds the count. -/
def chainLength (mBuffer : Nat → FILE_NOTIFY_INFORMATION) : Nat → Nat → Nat
  | 0, _ => 0
  | fuel + 1, off =>
    if (mBuffer off).NextEntryOffset = 0 then 1
    else 1 + chainLength mBuffer fuel (off + (mBuffer off).NextEntryOffset)

/-- Reading of the wording "the records of the chain whose offsets stay within the buffer
bounds": the number of records of the chain from `off` met before the chain ends or
reaches an offset that is not below `bufferSize`. -/
def chainWithin (mBuffer : Nat → FILE_NOTIFY_INFORMATION) (bufferSize : Nat) :
    Nat → Nat → Nat
  | 0, _ => 0
  | fuel + 1, off =>
    if off < bufferSize then
      if (mBuffer off).NextEntryOffset = 0 then 1
      else 1 + chainWithin mBuffer bufferSize fuel (off + (mBuffer off).NextEntryOffset)
    else 0

/-! ## `AnimationClip`

The curve container, the name mapping and `float` are kept abstract. -/

/-- Struct `AnimationEvent`. -/
structure AnimationEvent (float : Type) where
  name : String
  time : float

/-- Data members of class `AnimationClip`; `mVersion` is a `UINT64`, `mSampleRate` a
`UINT32`. -/
structure AnimationClip (Curves Mapping float : Type) where
  mVersion : Nat
  mCurves : Curves
  mNameMapping : Mapping
  mEvents : List (AnimationEvent float)
  mIsAdditive : Bool
  mLength : float
  mSampleRate : Nat

/-- Method `AnimationClip::getEvents`. -/
def AnimationClip.getEvents {Curves Mapping float : Type}
    (clip : AnimationClip Curves Mapping float) : List (AnimationEvent float) :=
  clip.mEvents

/-- Method `AnimationClip::setEvents`: `{ mEvents = events; }`. -/
def AnimationClip.setEvents {Curves Mapping float : Type}
    (clip : AnimationClip Curves Mapping float) (events : List (AnimationEvent float)) :
    AnimationClip Curves Mapping float :=
  { clip with mEvents := events }

/-- Method `AnimationClip::getSampleRate`. -/
def AnimationClip.getSampleRate {Curves Mapping float : Type}
    (clip : AnimationClip Curves Mapping float) : Nat :=
  clip.mSampleRate

/-- Method `AnimationClip::setSampleRate`: `{ mSampleRate = sampleRate; }`. -/
def AnimationClip.setSampleRate {Curves Mapping float : Type}
    (clip : AnimationClip Curves Mapping float) (sampleRate : Nat) :
    AnimationClip Curves Mapping float :=
  { clip with mSampleRate := sampleRate }

/-- Method `AnimationClip::getVersion`. -/
def AnimationClip.getVersion {Curves Mapping float : Type}
    (clip : AnimationClip Curves Mapping float) : Nat :=
  clip.mVersion

/-! ## The chain of blocks of the stack allocator -/

/-- Block `b` comes after block `a` in the chain of `mNextBlock` pointers. -/
inductive MemStackInternal.After (heap : Nat → MemBlock) : Nat → Nat → Prop where
  | next (a b : Nat) : (heap a).mNextBlock = some b → MemStackInternal.After heap a b
  | step (a b c : Nat) : (heap a).mNextBlock = some b → MemStackInternal.After heap b c →
      MemStackInternal.After heap a c

/-! ## Runs of `alloc` calls -/

/-- A run of `alloc` calls with the given amounts and no `dealloc` in between, in call
order: the stack afterwards and, for every call, the returned pointer with the amount
asked for. -/
def MemStackInternal.allocRegions :
    MemStackInternal → List Nat → Option (MemStackInternal × List (DataPtr × Nat))
  | s, [] => some (s, [])
  | s, amount :: rest =>
    match s.alloc amount with
    | none => none
    | some (s1, p) =>
      match MemStackInternal.allocRegions s1 rest with
      | none => none
      | some (s2, rs) => some (s2, (p, amount) :: rs)

/-- Two returned regions `[start, start + amount)`, each with the 4-byte size header in
front of it, share no byte: they lie in different blocks, or one ends before the header
of the other starts. -/
def regionsDisjoint (r1 r2 : DataPtr × Nat) : Prop :=
  r1.1.block ≠ r2.1.block ∨ r1.1.offset + r1.2 + 4 ≤ r2.1.offset ∨
    r2.1.offset + r2.2 + 4 ≤ r1.1.offset

instance (r1 r2 : DataPtr × Nat) : Decidable (regionsDisjoint r1 r2) := by
  unfold regionsDisjoint
  infer_instance

/-- The shape of a stack on which only the constructor and `alloc` have run: the capacity
is a `UINT32` value, the current block exists, is live and is the last of the chain, and
in every block the free offset is within the size, a `UINT32` value. -/
def MemStackInternal.AllocOnly (s : MemStackInternal) : Prop :=
  s.BlockCapacity < 2 ^ 32 ∧
  (∃ cur, s.mFreeBlock = some cur ∧ cur < s.nextAddr ∧ s.alive cur = true ∧
    (s.heap cur).mNextBlock = none) ∧
  ∀ a, (s.heap a).mFreePtr ≤ (s.heap a).mSize ∧ (s.heap a).mSize < 2 ^ 32

/-! ## Sample inputs

Concrete disks, batches and monitors on which the theorems below are instantiated. -/

/-- A disk on which every path is a visible file of `size` bytes (attributes
`FILE_ATTRIBUTE_ARCHIVE`), with `Path::append` as concatenation. -/
def Host.uniform (size : Nat) : Host :=
  { append := fun rootPath fileName => rootPath ++ fileName,
    GetFileAttributesW := fun _ => 0x20,
    fileExists := fun _ => true,
    getFileSize := fun _ => size,
    isDirectory := fun _ => true }

/-- A disk on which no path exists: every query reports a missing file. -/
def Host.missing : Host :=
  { append := fun rootPath fileName => rootPath ++ fileName,
    GetFileAttributesW := fun _ => INVALID_FILE_ATTRIBUTES,
    fileExists := fun _ => false,
    getFileSize := fun _ => 0,
    isDirectory := fun _ => false }

/-- A receive buffer holding the single record `(action, fileName)`. -/
def sampleBatch (action : Nat) (fileName : WString) : Nat → FILE_NOTIFY_INFORMATION :=
  fun _ => { NextEntryOffset := 0, Action := action, FileName := fileName }

/-- A receive buffer holding a `RENAMED_OLD_NAME` record for `a.txt` at offset 0 and a
`RENAMED_NEW_NAME` record for `b.txt` at offset 24. -/
def sampleRenameBatch : Nat → FILE_NOTIFY_INFORMATION :=
  fun off =>
    if off = 0 then
      { NextEntryOffset := 24, Action := FILE_ACTION_RENAMED_OLD_NAME, FileName := "a.txt" }
    else
      { NextEntryOffset := 0, Action := FILE_ACTION_RENAMED_NEW_NAME, FileName := "b.txt" }

/-- A watch entry for `dir/` in state `Monitoring`. -/
def sampleEntry : FolderWatchInfo :=
  { mFolderToMonitor := "dir/", mDirHandle := 44,
    mState := MonitorState.Monitoring, mBuffer := sampleBatch 0 "", mBufferSize := 0,
    mMonitorSubdirectories := true, mMonitorFlags := 1, mReadError := 0,
    mCachedOldFileName := "" }

/-- A running monitor that watches `dir/` and has nothing queued or pending. -/
def sampleMonitor : Pimpl :=
  { mFoldersToWatch := [0], mCompPortHandle := 52, mFileActions := [],
    mActiveFileActions := [], mWorkerThread := some 1 }

/-- Enumerator values `1 << 0` to `1 << 7` for `FolderChange`. -/
def sampleFolderChange : FolderChange :=
  { FileName := 1, DirName := 2, Attributes := 4, Size := 8, LastWrite := 16,
    LastAccess := 32, Creation := 64, Security := 128 }

/-- A call during which every operating-system request succeeds: `CreateFileW` returns
`dirHandle`, the completion port is the handle 52 and the worker thread is the object 7. -/
def sampleEnv (dirHandle : HANDLE) : Env :=
  { host := Host.uniform 10, folderChange := sampleFolderChange, CreateFileW := dirHandle,
    CreateIoCompletionPort := 52, newThread := some 7, ReadDirectoryChangesW := true,
    GetLastError := 0, records := 16 }

/-- A call during which `ReadDirectoryChangesW` fails with error 5 and every other
request succeeds. -/
def sampleEnvReadFails : Env :=
  { sampleEnv 44 with ReadDirectoryChangesW := false, GetLastError := 5 }

/-- A call during which `CreateFileW` returns the handle 45 and `CreateIoCompletionPort`
fails. -/
def sampleEnvPortFails : Env :=
  { sampleEnv 45 with CreateIoCompletionPort := nullptr }

/-- The monitor inside `startMonitor("dir/")`, right before the new entry (at address 1,
state `Inactive`, directory handle 44) is started: the port is open and the worker runs. -/
def sampleRegistered : World :=
  { mPimpl := { mFoldersToWatch := [1], mCompPortHandle := 52, mFileActions := [],
                mActiveFileActions := [], mWorkerThread := some 7 },
    watchInfos := fun _ => FolderWatchInfo.new "dir/" 44 true 1,
    nextAddr := 2,
    os := { opened := [44], closed := [], packets := [], reading := [] } }

/-- The monitor after a successful `startMonitor("dir/")` on a new monitor. -/
def sampleWatching : World :=
  (startMonitor (sampleEnv 44) 2 "dir/" true 1 World.init).2

/-- Memory in which the record at offset 0 has `NextEntryOffset = 65536`, the size of the
receive buffer, and the record read at offset 65536 ends the chain. -/
def sampleEndBatch : Nat → FILE_NOTIFY_INFORMATION :=
  fun off =>
    if off = 0 then
      { NextEntryOffset := 65536, Action := FILE_ACTION_ADDED, FileName := "a.txt" }
    else
      { NextEntryOffset := 0, Action := FILE_ACTION_ADDED, FileName := "b.txt" }

/-- The bytes of a 32-bit address space by their distance from `mBuffer`, where address
arithmetic is modulo `2 ^ 32`. The buffer holds a record of 16 bytes at offset 0
(`NextEntryOffset = 16`, action `ADDED`, `FileNameLength = 2`, name `a`) and a record of
16 bytes at offset 16 (`NextEntryOffset = 0xFFFFFFF0`, action `ADDED`,
`FileNameLength = 2`, name `b`); every other byte is 0. -/
def sampleWrapBytes : Nat → Nat :=
  fun addr =>
    ([0x10, 0, 0, 0, 1, 0, 0, 0, 2, 0, 0, 0, 0x61, 0, 0, 0,
      0xF0, 0xFF, 0xFF, 0xFF, 1, 0, 0, 0, 2, 0, 0, 0, 0x62, 0, 0, 0] : List Nat).getD
      (addr % 2 ^ 32) 0

/-- The records read from the memory `sampleWrapBytes`. -/
def sampleWrapBatch : Nat → FILE_NOTIFY_INFORMATION :=
  readRecord sampleWrapBytes

/-- A call during which the worker thread cannot be created and every other request
succeeds. -/
def sampleEnvThreadFails : Env :=
  { sampleEnv 44 with newThread := none }

/-- The monitor after `startMonitor("dir/")` raised on a new monitor because the worker
thread could not be created: no entry, no worker thread, the port 52 still open. -/
def samplePortLeft : World :=
  (startMonitor sampleEnvThreadFails 2 "dir/" true 1 World.init).2

/-- A stack of block capacity 16 after `alloc(12)`, `alloc(12)` and the `dealloc` of the
second pointer: block 0 is current and full, block 1 comes after it and is empty. -/
def sampleStack : MemStackInternal :=
  match (MemStackInternal.new 16).alloc 12 with
  | none => MemStackInternal.new 16
  | some (s1, _) =>
    match s1.alloc 12 with
    | none => s1
    | some (s2, p2) =>
      match s2.dealloc p2 with
      | none => s2
      | some (s3, _) => s3

/-- The monitor after successful `startMonitor` calls for `dir/` (entry 1, handle 44) and
`other/` (entry 2, handle 45). -/
def sampleTwoWatches : World :=
  (startMonitor (sampleEnv 45) 2 "other/" true 1 sampleWatching).2

/-- The monitor `sampleWatching` once `FolderWatchInfo::stopMonitor` has set the state of
its entry to `Shutdown`. -/
def sampleStopping : World :=
  sampleWatching.store 1 { sampleWatching.watchInfos 1 with mState := MonitorState.Shutdown }

/-- The monitor `sampleRegistered` once `FolderWatchInfo::startMonitor` has set the state
of the new entry to `Starting`. -/
def sampleStarting : World :=
  sampleRegistered.store 1
    { sampleRegistered.watchInfos 1 with mState := MonitorState.Starting }

/-- The monitor `sampleStarting` after the worker's dispatch on the entry, the first read
succeeding. -/
def sampleStarted : World :=
  (workerDispatch (sampleEnv 44) 1 sampleStarting).getD sampleStarting

/-- The monitor `sampleTwoWatches` after the worker's dispatch on a completion tagged with
the entry of `dir/`, the receive buffer holding no change. -/
def sampleDispatched : World :=
  (workerDispatch (sampleEnv 44) 1 sampleTwoWatches).getD sampleTwoWatches

/-- A disk on which every path but `dir/gone.txt` is a visible file of 10 bytes. -/
def sampleDisk : Host :=
  { Host.uniform 10 with fileExists := fun path => path != "dir/gone.txt" }

/-- A monitor between two `_update` calls: the action for `dir/a.txt` was sampled before
with 10 bytes, the one for `dir/grow.txt` with 4 bytes, and the worker has queued a
removal of `dir/gone.txt`, a change of `dir/b.txt` and a rename to `dir/new.txt`. -/
def samplePending : Pimpl :=
  { mFoldersToWatch := [1], mCompPortHandle := 52,
    mFileActions :=
      [FileAction.createRemoved "dir/gone.txt", FileAction.createModified "dir/b.txt",
       { oldName := some "dir/old.txt", newName := "dir/new.txt",
         type := FileActionType.Renamed, lastSize := 10, checkForWriteStarted := true }],
    mActiveFileActions :=
      [{ oldName := none, newName := "dir/a.txt", type := FileActionType.Added,
         lastSize := 10, checkForWriteStarted := true },
       { oldName := none, newName := "dir/grow.txt", type := FileActionType.Modified,
         lastSize := 4, checkForWriteStarted := true }],
    mWorkerThread := some 7 }

/-- The monitor `sampleTwoWatches` after `stopMonitor("dir/")` and a new, successful
`startMonitor("dir/")` (entry 3, handle 46). -/
def sampleRestarted : World :=
  (startMonitor (sampleEnv 46) 2 "dir/" true 1
    (stopMonitor (sampleEnv 44) 4 "dir/" sampleTwoWatches).2).2

/-- All four events have a subscriber. -/
def Callbacks.all : Callbacks :=
  { onAdded := true, onRemoved := true, onModified := true, onRenamed := true }

/-! ## Theorems: the stabilization engine -/

/-- Shape of `updateLoop`: every action of the working list is handled on its own, by the
same test, in list order. -/
theorem updateLoop_eq (host : Host) (cb : Callbacks) (l : List FileAction) :
    updateLoop host cb l =
      (l.filterMap (fun a =>
          if host.fileExists a.newName = false ∨
              (a.checkForWriteStarted = true ∧ host.getFileSize a.newName = a.lastSize)
          then none
          else some { a with checkForWriteStarted := true,
                             lastSize := host.getFileSize a.newName }),
       l.flatMap (fun a =>
          if host.fileExists a.newName = false ∨
              (a.checkForWriteStarted = true ∧ host.getFileSize a.newName = a.lastSize)
          then dispatch cb a
          else [])) := by
  induction l with
  | nil => rfl
  | cons a rest ih =>
    rw [updateLoop, ih]
    cases hex : host.fileExists a.newName
    · simp [List.filterMap_cons, List.flatMap_cons, hex]
    · cases hst : a.checkForWriteStarted
      · simp [List.filterMap_cons, List.flatMap_cons, hex, hst]
      · by_cases hsz : a.lastSize = host.getFileSize a.newName
        · simp [List.filterMap_cons, List.flatMap_cons, hex, hst, hsz]
        · have hsz2 : ¬ host.getFileSize a.newName = a.lastSize := fun h => hsz h.symm
          have hrec : ({ a with lastSize := host.getFileSize a.newName } : FileAction) =
              { a with checkForWriteStarted := true,
                       lastSize := host.getFileSize a.newName } := by
            cases a
            simp only [FileAction.mk.injEq, true_and, and_true]
            exact hst
          simp [List.filterMap_cons, List.flatMap_cons, hex, hst, hsz, hsz2, hrec]

/-- A batch of one record: the loop of `handleNotifications` runs its body once. -/
theorem handleLoop_single (host : Host) (fuel : Nat) (notifyInfo : FileNotifyInfo)
    (watchInfo : FolderWatchInfo) (mActions : List FileAction)
    (hlast : (notifyInfo.mBuffer notifyInfo.mCurrentRecord).NextEntryOffset = 0) :
    handleLoop host (fuel + 1) notifyInfo watchInfo mActions =
      some (handleRecord host notifyInfo watchInfo mActions) := by
  simp [handleLoop, FileNotifyInfo.getNext, hlast]

/-- C2: in one `_update` call, with `L` the carried-over pending list followed by the
queue, an action of `L` is emitted exactly when its new path does not exist or its
first-sample flag was set and the size read now equals its last size. An emitted action
is removed from the pending list and its callback is made: `onAdded`, `onRemoved` or
`onModified` with its new path, or `onRenamed` with its old and new path, by its type,
when that event has a subscriber. Every other action stays pending, in place, with the
flag set and the last size equal to the size just read, and no callback is made for
it. -/
theorem update_emits_iff_stable (host : Host) (cb : Callbacks) (mPimpl : Pimpl) :
    (_update host cb mPimpl).1.mActiveFileActions =
      (mPimpl.mActiveFileActions ++ mPimpl.mFileActions).filterMap (fun a =>
        if host.fileExists a.newName = false ∨
            (a.checkForWriteStarted = true ∧ host.getFileSize a.newName = a.lastSize)
        then none
        else some { a with checkForWriteStarted := true,
                           lastSize := host.getFileSize a.newName }) ∧
    (_update host cb mPimpl).2 =
      (mPimpl.mActiveFileActions ++ mPimpl.mFileActions).flatMap (fun a =>
        if host.fileExists a.newName = false ∨
            (a.checkForWriteStarted = true ∧ host.getFileSize a.newName = a.lastSize)
        then
          match a.type with
          | FileActionType.Added => if cb.onAdded then [Call.onAdded a.newName] else []
          | FileActionType.Removed => if cb.onRemoved then [Call.onRemoved a.newName] else []
          | FileActionType.Modified =>
            if cb.onModified then [Call.onModified a.newName] else []
          | FileActionType.Renamed =>
            if cb.onRenamed then [Call.onRenamed (a.oldName.getD "") a.newName] else []
        else []) := by
  have hloop := updateLoop_eq host cb (mPimpl.mActiveFileActions ++ mPimpl.mFileActions)
  unfold _update
  constructor
  · exact congrArg Prod.fst hloop
  · refine (congrArg Prod.snd hloop).trans ?_
    refine congrArg (fun f => List.flatMap (mPimpl.mActiveFileActions ++ mPimpl.mFileActions) f)
      (funext fun a => ?_)
    by_cases hc : host.fileExists a.newName = false ∨
        (a.checkForWriteStarted = true ∧ host.getFileSize a.newName = a.lastSize)
    · rw [if_pos hc, if_pos hc]
      unfold dispatch
      cases a.type <;> rfl
    · rw [if_neg hc, if_neg hc]

/-- Witness of C2: one `_update` call on `samplePending` and `sampleDisk`. The actions for
`dir/a.txt` (size unchanged), `dir/gone.txt` (missing) and `dir/new.txt` (size unchanged)
are emitted with their callbacks; those for `dir/grow.txt` (size changed) and `dir/b.txt`
(first sample) stay pending with the size just read. -/
theorem update_emits_iff_stable_witness :
    (_update sampleDisk Callbacks.all samplePending).2 =
      [Call.onAdded "dir/a.txt", Call.onRemoved "dir/gone.txt",
       Call.onRenamed "dir/old.txt" "dir/new.txt"] ∧
    (_update sampleDisk Callbacks.all samplePending).1.mActiveFileActions =
      [{ oldName := none, newName := "dir/grow.txt", type := FileActionType.Modified,
         lastSize := 10, checkForWriteStarted := true },
       { oldName := none, newName := "dir/b.txt", type := FileActionType.Modified,
         lastSize := 10, checkForWriteStarted := true }] :=
  ⟨(update_emits_iff_stable sampleDisk Callbacks.all samplePending).2.trans (by decide),
   (update_emits_iff_stable sampleDisk Callbacks.all samplePending).1.trans (by decide)⟩

/-- C4: one raw ADDED record for the visible file `P`, then two `_update` calls that see
`P` with the same size: `handleNotifications` returns, the first `_update` makes no
callback, the second makes exactly the call `onAdded(P)` (the event having a subscriber),
and nothing is pending or queued afterwards. -/
theorem added_emitted_on_second_update (host0 host1 host2 : Host) (cb : Callbacks)
    (fuel : Nat) (notifyInfo : FileNotifyInfo) (watchInfo : FolderWatchInfo)
    (mPimpl : Pimpl) (P : WString)
    (hlast : (notifyInfo.mBuffer notifyInfo.mCurrentRecord).NextEntryOffset = 0)
    (hact : notifyInfo.getAction = FILE_ACTION_ADDED)
    (hpath : notifyInfo.getFileNameWithPath host0 watchInfo.mFolderToMonitor = P)
    (hvis : host0.GetFileAttributesW P &&& FILE_ATTRIBUTE_HIDDEN = 0)
    (hq : mPimpl.mFileActions = []) (ha : mPimpl.mActiveFileActions = [])
    (he1 : host1.fileExists P = true) (he2 : host2.fileExists P = true)
    (hsize : host1.getFileSize P = host2.getFileSize P)
    (hcb : cb.onAdded = true) :
    (handleNotifications host0 (fuel + 1) notifyInfo watchInfo mPimpl).isSome = true ∧
    ∀ w m0, handleNotifications host0 (fuel + 1) notifyInfo watchInfo mPimpl = some (w, m0) →
      (_update host1 cb m0).2 = [] ∧
      (_update host2 cb (_update host1 cb m0).1).2 = [Call.onAdded P] ∧
      (_update host2 cb (_update host1 cb m0).1).1.mActiveFileActions = [] ∧
      (_update host2 cb (_update host1 cb m0).1).1.mFileActions = [] := by
  rw [handleNotifications, handleLoop_single host0 fuel notifyInfo watchInfo [] hlast]
  refine ⟨rfl, ?_⟩
  intro w m0 h
  simp only [Option.some.injEq, Prod.mk.injEq] at h
  rw [← h.2]
  simp [handleRecord, hpath, hvis, hact, FILE_ACTION_ADDED, _update, updateLoop, hq, ha,
    FileAction.createAdded, he1, he2, hsize, dispatch, hcb]

/-- Witness of C4: an ADDED record for `dir/a.txt`, a file of 10 bytes at both calls. -/
theorem added_emitted_on_second_update_witness :
    (handleNotifications (Host.uniform 10) 1
        (FileNotifyInfo.new (sampleBatch FILE_ACTION_ADDED "a.txt") 65536)
        sampleEntry sampleMonitor).isSome = true ∧
    ∀ w m0, handleNotifications (Host.uniform 10) 1
        (FileNotifyInfo.new (sampleBatch FILE_ACTION_ADDED "a.txt") 65536)
        sampleEntry sampleMonitor = some (w, m0) →
      (_update (Host.uniform 10) Callbacks.all m0).2 = [] ∧
      (_update (Host.uniform 10) Callbacks.all
        (_update (Host.uniform 10) Callbacks.all m0).1).2 = [Call.onAdded "dir/a.txt"] ∧
      (_update (Host.uniform 10) Callbacks.all
        (_update (Host.uniform 10) Callbacks.all m0).1).1.mActiveFileActions = [] ∧
      (_update (Host.uniform 10) Callbacks.all
        (_update (Host.uniform 10) Callbacks.all m0).1).1.mFileActions = [] :=
  added_emitted_on_second_update (Host.uniform 10) (Host.uniform 10) (Host.uniform 10)
    Callbacks.all 0 (FileNotifyInfo.new (sampleBatch FILE_ACTION_ADDED "a.txt") 65536)
    sampleEntry sampleMonitor "dir/a.txt" rfl rfl (by decide) (by decide) rfl rfl rfl rfl
    rfl rfl

/-- C5: one raw MODIFIED record for the visible file `P`, then three `_update` calls that
see `P` with sizes `s1`, `s2`, `s2` where `s1 ≠ s2`: `handleNotifications` returns, the
first and the second `_update` make no callback, and the third makes exactly the call
`onModified(P)` (the event having a subscriber). -/
theorem modified_emitted_on_third_update (host0 host1 host2 host3 : Host) (cb : Callbacks)
    (fuel : Nat) (notifyInfo : FileNotifyInfo) (watchInfo : FolderWatchInfo)
    (mPimpl : Pimpl) (P : WString) (s1 s2 : Nat)
    (hlast : (notifyInfo.mBuffer notifyInfo.mCurrentRecord).NextEntryOffset = 0)
    (hact : notifyInfo.getAction = FILE_ACTION_MODIFIED)
    (hpath : notifyInfo.getFileNameWithPath host0 watchInfo.mFolderToMonitor = P)
    (hvis : host0.GetFileAttributesW P &&& FILE_ATTRIBUTE_HIDDEN = 0)
    (hq : mPimpl.mFileActions = []) (ha : mPimpl.mActiveFileActions = [])
    (he1 : host1.fileExists P = true) (he2 : host2.fileExists P = true)
    (he3 : host3.fileExists P = true)
    (hs1 : host1.getFileSize P = s1) (hs2 : host2.getFileSize P = s2)
    (hs3 : host3.getFileSize P = s2) (hne : s1 ≠ s2)
    (hcb : cb.onModified = true) :
    (handleNotifications host0 (fuel + 1) notifyInfo watchInfo mPimpl).isSome = true ∧
    ∀ w m0, handleNotifications host0 (fuel + 1) notifyInfo watchInfo mPimpl = some (w, m0) →
      (_update host1 cb m0).2 = [] ∧
      (_update host2 cb (_update host1 cb m0).1).2 = [] ∧
      (_update host3 cb (_update host2 cb (_update host1 cb m0).1).1).2 =
        [Call.onModified P] ∧
      (_update host3 cb (_update host2 cb (_update host1 cb m0).1).1).1.mActiveFileActions
        = [] := by
  rw [handleNotifications, handleLoop_single host0 fuel notifyInfo watchInfo [] hlast]
  refine ⟨rfl, ?_⟩
  intro w m0 h
  simp only [Option.some.injEq, Prod.mk.injEq] at h
  rw [← h.2]
  simp [handleRecord, hpath, hvis, hact, FILE_ACTION_MODIFIED, FILE_ACTION_ADDED,
    FILE_ACTION_REMOVED, _update, updateLoop, hq, ha,
    FileAction.createModified, he1, he2, he3, hs1, hs2, hs3, hne, dispatch, hcb]

/-- Witness of C5: a MODIFIED record for `dir/a.txt`, seen with 10, 20 and 20 bytes. -/
theorem modified_emitted_on_third_update_witness :
    (handleNotifications (Host.uniform 10) 1
        (FileNotifyInfo.new (sampleBatch FILE_ACTION_MODIFIED "a.txt") 65536)
        sampleEntry sampleMonitor).isSome = true ∧
    ∀ w m0, handleNotifications (Host.uniform 10) 1
        (FileNotifyInfo.new (sampleBatch FILE_ACTION_MODIFIED "a.txt") 65536)
        sampleEntry sampleMonitor = some (w, m0) →
      (_update (Host.uniform 10) Callbacks.all m0).2 = [] ∧
      (_update (Host.uniform 20) Callbacks.all
        (_update (Host.uniform 10) Callbacks.all m0).1).2 = [] ∧
      (_update (Host.uniform 20) Callbacks.all
        (_update (Host.uniform 20) Callbacks.all
          (_update (Host.uniform 10) Callbacks.all m0).1).1).2 =
        [Call.onModified "dir/a.txt"] ∧
      (_update (Host.uniform 20) Callbacks.all
        (_update (Host.uniform 20) Callbacks.all
          (_update (Host.uniform 10) Callbacks.all m0).1).1).1.mActiveFileActions = [] :=
  modified_emitted_on_third_update (Host.uniform 10) (Host.uniform 10) (Host.uniform 20)
    (Host.uniform 20) Callbacks.all 0
    (FileNotifyInfo.new (sampleBatch FILE_ACTION_MODIFIED "a.txt") 65536)
    sampleEntry sampleMonitor "dir/a.txt" 10 20 rfl rfl (by decide) (by decide) rfl rfl
    rfl rfl rfl rfl rfl rfl (by decide) rfl

/-- C1 (what the code does): a RENAMED_OLD_NAME record for the visible path `A` directly
followed by a RENAMED_NEW_NAME record for the visible file `B`, then two `_update` calls
that see `B` with the same size. `handleNotifications` returns; the first `_update` makes
no callback and the second calls `onModified(B)` when that event has a subscriber and
nothing otherwise: `onRenamed` is not called. -/
theorem rename_pair_reported_as_modified (host0 host1 host2 : Host) (cb : Callbacks)
    (fuel : Nat) (notifyInfo : FileNotifyInfo) (watchInfo : FolderWatchInfo)
    (mPimpl : Pimpl) (A B : WString) (k : Nat)
    (hk : (notifyInfo.mBuffer notifyInfo.mCurrentRecord).NextEntryOffset = k)
    (hk0 : k ≠ 0)
    (hin : (notifyInfo.mCurrentRecord + k) % 2 ^ 32 ≤ notifyInfo.mBufferSize)
    (hact1 : (notifyInfo.mBuffer notifyInfo.mCurrentRecord).Action =
      FILE_ACTION_RENAMED_OLD_NAME)
    (hA : host0.append watchInfo.mFolderToMonitor
      (notifyInfo.mBuffer notifyInfo.mCurrentRecord).FileName = A)
    (hlast : (notifyInfo.mBuffer (notifyInfo.mCurrentRecord + k)).NextEntryOffset = 0)
    (hact2 : (notifyInfo.mBuffer (notifyInfo.mCurrentRecord + k)).Action =
      FILE_ACTION_RENAMED_NEW_NAME)
    (hB : host0.append watchInfo.mFolderToMonitor
      (notifyInfo.mBuffer (notifyInfo.mCurrentRecord + k)).FileName = B)
    (hvisA : host0.GetFileAttributesW A &&& FILE_ATTRIBUTE_HIDDEN = 0)
    (hvisB : host0.GetFileAttributesW B &&& FILE_ATTRIBUTE_HIDDEN = 0)
    (hq : mPimpl.mFileActions = []) (ha : mPimpl.mActiveFileActions = [])
    (he1 : host1.fileExists B = true) (he2 : host2.fileExists B = true)
    (hsize : host1.getFileSize B = host2.getFileSize B) :
    (handleNotifications host0 (fuel + 2) notifyInfo watchInfo mPimpl).isSome = true ∧
    ∀ w m0, handleNotifications host0 (fuel + 2) notifyInfo watchInfo mPimpl = some (w, m0) →
      (_update host1 cb m0).2 = [] ∧
      (_update host2 cb (_update host1 cb m0).1).2 =
        (if cb.onModified = true then [Call.onModified B] else []) ∧
      (_update host2 cb (_update host1 cb m0).1).1.mActiveFileActions = [] := by
  have hnext : notifyInfo.getNext =
      (true, { notifyInfo with mCurrentRecord := notifyInfo.mCurrentRecord + k }) := by
    have hin2 : (notifyInfo.mCurrentRecord + k) % 4294967296 ≤ notifyInfo.mBufferSize := by
      simpa using hin
    simp [FileNotifyInfo.getNext, hk, hk0, hin2]
  have hloop : handleLoop host0 (fuel + 2) notifyInfo watchInfo [] =
      some ({ watchInfo with mCachedOldFileName := A }, [FileAction.createRenamed A B]) := by
    rw [handleLoop]
    simp only [hnext, if_true]
    rw [handleLoop_single _ _ _ _ _ hlast]
    simp [handleRecord, FileNotifyInfo.getFileNameWithPath, FileNotifyInfo.getFileName,
      FileNotifyInfo.getAction, hA, hB, hvisA, hvisB, hact1, hact2,
      FILE_ACTION_RENAMED_OLD_NAME, FILE_ACTION_RENAMED_NEW_NAME, FILE_ACTION_ADDED,
      FILE_ACTION_REMOVED, FILE_ACTION_MODIFIED]
  rw [handleNotifications, hloop]
  refine ⟨rfl, ?_⟩
  intro w m0 h
  simp only [Option.some.injEq, Prod.mk.injEq] at h
  rw [← h.2]
  simp [_update, updateLoop, hq, ha, FileAction.createRenamed, he1, he2, hsize, dispatch]

/-- Witness of C1: the batch `sampleRenameBatch` (`a.txt` renamed to `b.txt` in `dir/`)
on a disk where every file is visible and has 10 bytes; the only callback is
`onModified("dir/b.txt")`. -/
theorem rename_pair_reported_as_modified_witness :
    (handleNotifications (Host.uniform 10) 2 (FileNotifyInfo.new sampleRenameBatch 65536)
        sampleEntry sampleMonitor).isSome = true ∧
    ∀ w m0, handleNotifications (Host.uniform 10) 2
        (FileNotifyInfo.new sampleRenameBatch 65536) sampleEntry sampleMonitor
          = some (w, m0) →
      (_update (Host.uniform 10) Callbacks.all m0).2 = [] ∧
      (_update (Host.uniform 10) Callbacks.all
        (_update (Host.uniform 10) Callbacks.all m0).1).2 =
        (if Callbacks.all.onModified = true then [Call.onModified "dir/b.txt"] else []) ∧
      (_update (Host.uniform 10) Callbacks.all
        (_update (Host.uniform 10) Callbacks.all m0).1).1.mActiveFileActions = [] :=
  rename_pair_reported_as_modified (Host.uniform 10) (Host.uniform 10) (Host.uniform 10)
    Callbacks.all 0 (FileNotifyInfo.new sampleRenameBatch 65536) sampleEntry sampleMonitor
    "dir/a.txt" "dir/b.txt" 24 rfl (by decide) (by decide) rfl (by decide) rfl rfl
    (by decide) (by decide) (by decide) rfl rfl rfl rfl rfl

/-- C3 (what the code does): a single raw record, REMOVED or of any other kind, for a
path `P` whose attribute query reports a missing file (`INVALID_FILE_ATTRIBUTES`) is
skipped by the hidden-file test of `handleNotifications`: nothing is queued, the entry and
the monitor are as before, and the next `_update` makes no callback, `onRemoved(P)`
included. -/
theorem removed_record_of_missing_file_dropped (host0 host1 : Host) (cb : Callbacks)
    (fuel : Nat) (notifyInfo : FileNotifyInfo) (watchInfo : FolderWatchInfo)
    (mPimpl : Pimpl) (P : WString)
    (hlast : (notifyInfo.mBuffer notifyInfo.mCurrentRecord).NextEntryOffset = 0)
    (hpath : notifyInfo.getFileNameWithPath host0 watchInfo.mFolderToMonitor = P)
    (hattr : host0.GetFileAttributesW P = INVALID_FILE_ATTRIBUTES)
    (hq : mPimpl.mFileActions = []) (ha : mPimpl.mActiveFileActions = []) :
    handleNotifications host0 (fuel + 1) notifyInfo watchInfo mPimpl =
      some (watchInfo, mPimpl) ∧
    (_update host1 cb mPimpl).2 = [] := by
  have hhid : (INVALID_FILE_ATTRIBUTES &&& FILE_ATTRIBUTE_HIDDEN != 0) = true := by decide
  constructor
  · rw [handleNotifications, handleLoop_single host0 fuel notifyInfo watchInfo [] hlast]
    simp [handleRecord, hpath, hattr, hhid, hq]
    cases mPimpl
    simp_all
  · simp [_update, updateLoop, hq, ha]

/-- Witness of C3: a REMOVED record for `dir/a.txt` on a disk where no path exists. -/
theorem removed_record_of_missing_file_dropped_witness :
    handleNotifications Host.missing 1
        (FileNotifyInfo.new (sampleBatch FILE_ACTION_REMOVED "a.txt") 65536)
        sampleEntry sampleMonitor = some (sampleEntry, sampleMonitor) ∧
    (_update Host.missing Callbacks.all sampleMonitor).2 = [] :=
  removed_record_of_missing_file_dropped Host.missing Host.missing Callbacks.all 0
    (FileNotifyInfo.new (sampleBatch FILE_ACTION_REMOVED "a.txt") 65536)
    sampleEntry sampleMonitor "dir/a.txt" rfl (by decide) rfl rfl rfl

/-! ## Theorems: the registry and the lifecycle of an entry -/

theorem sameRegistry_refl (w : World) : w.SameRegistry w := ⟨rfl, rfl, fun _ => rfl⟩

theorem sameRegistry_trans {w v u : World} (h1 : w.SameRegistry v) (h2 : v.SameRegistry u) :
    w.SameRegistry u :=
  ⟨h2.1.trans h1.1, h2.2.1.trans h1.2.1, fun a => (h2.2.2 a).trans (h1.2.2 a)⟩

theorem handleRecord_folder (host : Host) (notifyInfo : FileNotifyInfo)
    (watchInfo : FolderWatchInfo) (mActions : List FileAction) :
    (handleRecord host notifyInfo watchInfo mActions).1.mFolderToMonitor =
      watchInfo.mFolderToMonitor := by
  unfold handleRecord
  simp only []
  split_ifs <;> rfl

theorem handleLoop_folder (host : Host) (fuel : Nat) :
    ∀ (notifyInfo : FileNotifyInfo) (watchInfo : FolderWatchInfo)
      (mActions : List FileAction) (r : FolderWatchInfo × List FileAction),
      handleLoop host fuel notifyInfo watchInfo mActions = some r →
      r.1.mFolderToMonitor = watchInfo.mFolderToMonitor := by
  induction fuel with
  | zero => intro _ _ _ r h; simp [handleLoop] at h
  | succ n ih =>
    intro notifyInfo watchInfo mActions r h
    rw [handleLoop] at h
    split_ifs at h with hn
    · rw [ih _ _ _ _ h, handleRecord_folder]
    · simp only [Option.some.injEq] at h
      rw [← h, handleRecord_folder]

theorem handleNotifications_frame (host : Host) (fuel : Nat) (notifyInfo : FileNotifyInfo)
    (watchInfo : FolderWatchInfo) (mPimpl : Pimpl) (r : FolderWatchInfo × Pimpl)
    (h : handleNotifications host fuel notifyInfo watchInfo mPimpl = some r) :
    r.1.mFolderToMonitor = watchInfo.mFolderToMonitor ∧
    r.2.mFoldersToWatch = mPimpl.mFoldersToWatch ∧
    r.2.mCompPortHandle = mPimpl.mCompPortHandle ∧
    r.2.mWorkerThread = mPimpl.mWorkerThread := by
  unfold handleNotifications at h
  cases hl : handleLoop host fuel notifyInfo watchInfo [] with
  | none => simp [hl] at h
  | some q =>
    simp only [hl, Option.some.injEq] at h
    rw [← h]
    exact ⟨handleLoop_folder host fuel _ _ _ _ hl, rfl, rfl, rfl⟩

theorem store_sameRegistry (w : World) (p : Nat) (info : FolderWatchInfo)
    (h : info.mFolderToMonitor = (w.watchInfos p).mFolderToMonitor) :
    w.SameRegistry (w.store p info) := by
  refine ⟨rfl, rfl, fun a => ?_⟩
  simp only [World.store]
  split_ifs with ha
  · rw [h, ha]
  · rfl

theorem workerDispatch_sameRegistry (env : Env) (p : Nat) (w v : World)
    (h : workerDispatch env p w = some v) : w.SameRegistry v := by
  unfold workerDispatch at h
  simp only [] at h
  split at h
  · split_ifs at h <;> simp only [Option.some.injEq] at h <;> rw [← h] <;>
      refine ⟨rfl, rfl, fun a => ?_⟩ <;> simp only [World.store] <;>
      split_ifs with ha <;> simp [ha]
  · split at h
    · simp at h
    · rename_i r hr
      have hf := handleNotifications_frame _ _ _ _ _ _ hr
      split_ifs at h <;> simp only [Option.some.injEq] at h <;> rw [← h] <;>
        refine ⟨hf.2.1, rfl, fun a => ?_⟩ <;> simp only [World.store] <;>
        split_ifs with ha <;> simp [ha, hf.1]
  · split_ifs at h <;> simp only [Option.some.injEq] at h <;> rw [← h] <;>
      refine ⟨rfl, rfl, fun a => ?_⟩ <;> simp only [World.store] <;>
      split_ifs with ha <;> simp [ha]
  · split_ifs at h <;> simp only [Option.some.injEq] at h <;> rw [← h] <;>
      refine ⟨rfl, rfl, fun a => ?_⟩ <;> simp only [World.store] <;>
      split_ifs with ha <;> simp [ha]
  · simp only [Option.some.injEq] at h
    rw [← h]
    exact sameRegistry_refl w

theorem await_sameRegistry (env : Env) (p : Nat) (target : MonitorState) (fuel : Nat) :
    ∀ w : World, w.SameRegistry (await env p target fuel w).2 := by
  induction fuel with
  | zero => intro w; exact sameRegistry_refl w
  | succ n ih =>
    intro w
    rw [await]
    split_ifs with h1 h2
    · exact sameRegistry_refl w
    · cases hth : w.mPimpl.mWorkerThread with
      | none => exact sameRegistry_refl w
      | some t =>
        simp only [if_pos h2]
        exact sameRegistry_refl w
    · cases hth : w.mPimpl.mWorkerThread with
      | none => exact sameRegistry_refl w
      | some t =>
        simp only [if_neg h2]
        cases hq : w.os.packets with
        | nil => exact sameRegistry_refl w
        | cons key rest =>
          simp only []
          split_ifs with hk
          · exact ⟨rfl, rfl, fun _ => rfl⟩
          · cases hd : workerDispatch env key
                { w with os := { w.os with packets := rest } } with
            | none => exact ⟨rfl, rfl, fun _ => rfl⟩
            | some w2 =>
              simp only []
              have h3 := workerDispatch_sameRegistry _ _ _ _ hd
              exact sameRegistry_trans (v := w2) ⟨h3.1, h3.2.1, h3.2.2⟩ (ih w2)

theorem joinWorker_sameRegistry (env : Env) (fuel : Nat) :
    ∀ w : World, w.SameRegistry (joinWorker env fuel w).2 := by
  induction fuel with
  | zero => intro w; exact sameRegistry_refl w
  | succ n ih =>
    intro w
    rw [joinWorker]
    split_ifs with h2
    · exact sameRegistry_refl w
    · cases hq : w.os.packets with
      | nil => exact sameRegistry_refl w
      | cons key rest =>
        simp only []
        split_ifs with hk
        · exact ⟨rfl, rfl, fun _ => rfl⟩
        · cases hd : workerDispatch env key
              { w with os := { w.os with packets := rest } } with
          | none => exact ⟨rfl, rfl, fun _ => rfl⟩
          | some w2 =>
            simp only []
            have h3 := workerDispatch_sameRegistry _ _ _ _ hd
            exact sameRegistry_trans (v := w2) ⟨h3.1, h3.2.1, h3.2.2⟩ (ih w2)

theorem await_sameRegistry_of (env : Env) (p : Nat) (target : MonitorState) (fuel : Nat)
    (w0 w : World) (h : w0.SameRegistry w) :
    w0.SameRegistry (await env p target fuel w).2 :=
  sameRegistry_trans h (await_sameRegistry env p target fuel w)

theorem store_sameRegistry_of (w0 w : World) (h : w0.SameRegistry w) (p : Nat)
    (info : FolderWatchInfo)
    (hinfo : info.mFolderToMonitor = (w.watchInfos p).mFolderToMonitor) :
    w0.SameRegistry (w.store p info) :=
  sameRegistry_trans h (store_sameRegistry w p info hinfo)

theorem os_sameRegistry_of (w0 w : World) (h : w0.SameRegistry w) (os : Win32) :
    w0.SameRegistry { w with os := os } :=
  ⟨h.1, h.2.1, h.2.2⟩

theorem andThen_sameRegistry (w0 : World) (r : Outcome × World)
    (next : World → Outcome × World) (h1 : w0.SameRegistry r.2)
    (h2 : ∀ v, w0.SameRegistry v → w0.SameRegistry (next v).2) :
    w0.SameRegistry (andThen r next).2 := by
  unfold andThen
  split
  · exact h2 _ h1
  · exact h1

theorem entry_startMonitor_sameRegistry (env : Env) (fuel : Nat) (p : Nat)
    (compPortHandle : HANDLE) (w : World) :
    w.SameRegistry (FolderWatchInfo.startMonitor env fuel p compPortHandle w).2 := by
  unfold FolderWatchInfo.startMonitor
  split_ifs with h
  · exact sameRegistry_refl w
  · dsimp only
    apply andThen_sameRegistry
    · apply await_sameRegistry_of
      apply os_sameRegistry_of
      apply store_sameRegistry_of _ _ (sameRegistry_refl w)
      rfl
    · intro v hv
      split_ifs
      · exact store_sameRegistry_of _ _ hv p _ rfl
      · exact hv

theorem entry_stopMonitor_sameRegistry_of (env : Env) (fuel : Nat) (p : Nat)
    (compPortHandle : HANDLE) (w0 w : World) (h0 : w0.SameRegistry w) :
    w0.SameRegistry (FolderWatchInfo.stopMonitor env fuel p compPortHandle w).2 := by
  unfold FolderWatchInfo.stopMonitor
  apply andThen_sameRegistry
  · split_ifs with h
    · dsimp only
      apply await_sameRegistry_of
      apply os_sameRegistry_of
      apply store_sameRegistry_of _ _ h0
      rfl
    · exact h0
  · intro v hv
    split_ifs
    · apply store_sameRegistry_of _ _ (os_sameRegistry_of _ _ hv _)
      rfl
    · exact hv

theorem destructor_sameRegistry_of (env : Env) (fuel : Nat) (p : Nat) (w0 w : World)
    (h0 : w0.SameRegistry w) :
    w0.SameRegistry (FolderWatchInfo.destructor env fuel p w).2 :=
  entry_stopMonitor_sameRegistry_of env fuel p nullptr w0 w h0

theorem stopEach_sameRegistry_of (env : Env) (fuel : Nat) (l : List Nat) :
    ∀ w0 w : World, w0.SameRegistry w → w0.SameRegistry (stopEach env fuel l w).2 := by
  induction l with
  | nil => intro w0 w h; exact h
  | cons p rest ih =>
    intro w0 w h
    rw [stopEach]
    apply andThen_sameRegistry
    · exact entry_stopMonitor_sameRegistry_of _ _ _ _ _ _ h
    · intro v hv
      apply andThen_sameRegistry
      · exact destructor_sameRegistry_of _ _ _ _ _ hv
      · intro u hu
        exact ih _ _ hu

theorem rollbackStart_sameRegistry (env : Env) (fuel : Nat) (p : Nat) (w : World) :
    World.SameRegistry
      { w with mPimpl := { w.mPimpl with
          mFoldersToWatch := w.mPimpl.mFoldersToWatch.dropLast } }
      (rollbackStart env fuel p w).2 := by
  unfold rollbackStart
  dsimp only
  apply andThen_sameRegistry
  · exact destructor_sameRegistry_of _ _ _ _ _ (sameRegistry_refl _)
  · intro v hv
    exact hv

theorem startRegistered_registry (env : Env) (fuel : Nat) (p : Nat) (w : World) :
    World.SameRegistry w (startRegistered env fuel p w).2 ∨
    World.SameRegistry
      { w with mPimpl := { w.mPimpl with
          mFoldersToWatch := w.mPimpl.mFoldersToWatch.dropLast } }
      (startRegistered env fuel p w).2 := by
  unfold startRegistered
  split_ifs with h1
  · exact Or.inr (rollbackStart_sameRegistry env fuel p w)
  · dsimp only
    cases hth : w.mPimpl.mWorkerThread with
    | none =>
      cases hnew : env.newThread with
      | none => exact Or.inr (rollbackStart_sameRegistry env fuel p w)
      | some t =>
        left
        dsimp only
        apply sameRegistry_trans (v := { w with mPimpl := { w.mPimpl with
          mWorkerThread := some t } }) ⟨rfl, rfl, fun _ => rfl⟩
        exact entry_startMonitor_sameRegistry _ _ _ _ _
    | some t =>
      left
      dsimp only
      rw [hth]
      exact entry_startMonitor_sameRegistry _ _ _ _ _

theorem startMonitor_registry (env : Env) (fuel : Nat) (folderPath : Path)
    (subdirectories : Bool) (changeFilter : Nat) (w : World) :
    (startMonitor env fuel folderPath subdirectories changeFilter w).2 = w ∨
    ((startMonitor env fuel folderPath subdirectories changeFilter w).2.nextAddr =
        w.nextAddr + 1 ∧
      (∀ a, a ≠ w.nextAddr →
        ((startMonitor env fuel folderPath subdirectories changeFilter w).2.watchInfos
          a).mFolderToMonitor = (w.watchInfos a).mFolderToMonitor) ∧
      ((startMonitor env fuel folderPath subdirectories changeFilter
          w).2.mPimpl.mFoldersToWatch = w.mPimpl.mFoldersToWatch ∨
        ((startMonitor env fuel folderPath subdirectories changeFilter
            w).2.mPimpl.mFoldersToWatch = w.mPimpl.mFoldersToWatch ++ [w.nextAddr] ∧
          ((startMonitor env fuel folderPath subdirectories changeFilter w).2.watchInfos
            w.nextAddr).mFolderToMonitor = folderPath))) := by
  unfold startMonitor
  by_cases h1 : env.host.isDirectory folderPath = true
  · by_cases h2 : env.CreateFileW = INVALID_HANDLE_VALUE
    · left
      simp [h1, h2]
    · right
      simp only [h1, h2, Bool.not_true, if_false, Bool.false_eq_true]
      rcases startRegistered_registry env fuel w.nextAddr
        ({ ({ w with os := { w.os with
                opened := w.os.opened ++ [env.CreateFileW] } } : World).pushWatch
              (FolderWatchInfo.new folderPath env.CreateFileW subdirectories
                (filterFlags env.folderChange changeFilter)) with
            mPimpl := { (({ w with os := { w.os with
                opened := w.os.opened ++ [env.CreateFileW] } } : World).pushWatch
              (FolderWatchInfo.new folderPath env.CreateFileW subdirectories
                (filterFlags env.folderChange changeFilter))).mPimpl with
              mCompPortHandle := env.CreateIoCompletionPort } } : World) with h | h
      · refine ⟨h.2.1, fun a ha => ?_, Or.inr ⟨h.1, ?_⟩⟩
        · rw [h.2.2 a]
          simp [World.pushWatch, ha]
        · rw [h.2.2 w.nextAddr]
          simp [World.pushWatch, FolderWatchInfo.new]
      · refine ⟨h.2.1, fun a ha => ?_, Or.inl ?_⟩
        · rw [h.2.2 a]
          simp [World.pushWatch, ha]
        · rw [h.1]
          simp [World.pushWatch]
  · left
    simp [h1]

theorem subRegistry_of_same {w0 w v : World} (h0 : w0.SubRegistry w)
    (h : w.SameRegistry v) : w0.SubRegistry v :=
  ⟨h.1 ▸ h0.1, h.2.1.trans h0.2.1, fun a => (h.2.2 a).trans (h0.2.2 a)⟩

theorem andThen_subRegistry (w0 : World) (r : Outcome × World)
    (next : World → Outcome × World) (h1 : w0.SubRegistry r.2)
    (h2 : ∀ v, w0.SubRegistry v → w0.SubRegistry (next v).2) :
    w0.SubRegistry (andThen r next).2 := by
  unfold andThen
  split
  · exact h2 _ h1
  · exact h1

theorem stopMonitorAll_subRegistry_of (env : Env) (fuel : Nat) (w0 w : World)
    (h0 : w0.SubRegistry w) :
    w0.SubRegistry (stopMonitorAll env fuel w).2 := by
  unfold stopMonitorAll
  apply andThen_subRegistry
  · exact subRegistry_of_same h0 (stopEach_sameRegistry_of env fuel _ w w (sameRegistry_refl w))
  · intro v hv
    dsimp only
    have hv1 : w0.SubRegistry
        { v with mPimpl := { v.mPimpl with mFoldersToWatch := [] } } :=
      ⟨List.nil_sublist _, hv.2.1, hv.2.2⟩
    apply andThen_subRegistry
    · cases hth : v.mPimpl.mWorkerThread with
      | none => exact hv1
      | some t =>
        dsimp only
        apply andThen_subRegistry
        · refine subRegistry_of_same ?_ (joinWorker_sameRegistry env fuel _)
          exact ⟨List.nil_sublist _, hv.2.1, hv.2.2⟩
        · intro u hu
          exact ⟨hu.1, hu.2.1, hu.2.2⟩
    · intro u hu
      split_ifs
      · exact ⟨hu.1, hu.2.1, hu.2.2⟩
      · exact hu

theorem stopMonitor_subRegistry (env : Env) (fuel : Nat) (folderPath : Path) (w : World) :
    w.SubRegistry (stopMonitor env fuel folderPath w).2 := by
  have hrefl : w.SubRegistry w := ⟨List.Sublist.refl _, rfl, fun _ => rfl⟩
  unfold stopMonitor
  apply andThen_subRegistry
  · cases hf : findWatch w.watchInfos folderPath w.mPimpl.mFoldersToWatch with
    | none => exact hrefl
    | some i =>
      dsimp only
      apply andThen_subRegistry
      · exact subRegistry_of_same hrefl (entry_stopMonitor_sameRegistry_of _ _ _ _ w w (sameRegistry_refl w))
      · intro v hv
        apply andThen_subRegistry
        · exact subRegistry_of_same hv (destructor_sameRegistry_of _ _ _ v v (sameRegistry_refl v))
        · intro u hu
          exact ⟨(List.eraseIdx_sublist _ _).trans hu.1, hu.2.1, hu.2.2⟩
  · intro v hv
    split_ifs
    · exact stopMonitorAll_subRegistry_of env fuel w v hv
    · exact hv


theorem subRegistry_paths {w v : World} (h : w.SubRegistry v) : v.paths.Sublist w.paths := by
  unfold World.paths
  have hmap : v.mPimpl.mFoldersToWatch.map (fun p => (v.watchInfos p).mFolderToMonitor) =
      v.mPimpl.mFoldersToWatch.map (fun p => (w.watchInfos p).mFolderToMonitor) :=
    List.map_congr_left (fun a _ => h.2.2 a)
  rw [hmap]
  exact h.1.map _

/-- The registry invariant behind C7: no path twice, and every entry was allocated before
`nextAddr`. -/
theorem reachableFresh_invariant (w : World) (h : ReachableFresh w) :
    w.paths.Nodup ∧ ∀ p ∈ w.mPimpl.mFoldersToWatch, p < w.nextAddr := by
  induction h with
  | init => exact ⟨List.nodup_nil, fun p hp => by simp [World.init] at hp⟩
  | start env fuel folderPath subdirectories changeFilter w _ hfresh _ ih =>
    rcases startMonitor_registry env fuel folderPath subdirectories changeFilter w with
      h | ⟨hn, hpaths, hreg⟩
    · rw [h]; exact ih
    · have hold : ∀ p ∈ w.mPimpl.mFoldersToWatch,
          ((startMonitor env fuel folderPath subdirectories changeFilter w).2.watchInfos
            p).mFolderToMonitor = (w.watchInfos p).mFolderToMonitor :=
        fun p hp => hpaths p (Nat.ne_of_lt (ih.2 p hp))
      rcases hreg with hreg | ⟨hreg, hnew⟩
      · constructor
        · unfold World.paths
          rw [hreg, List.map_congr_left hold]
          exact ih.1
        · intro p hp
          rw [hreg] at hp
          rw [hn]
          exact Nat.lt_succ_of_lt (ih.2 p hp)
      · constructor
        · unfold World.paths
          rw [hreg, List.map_append, List.map_congr_left hold]
          simp only [List.map_cons, List.map_nil, hnew]
          refine List.Nodup.append ih.1 (List.nodup_singleton _) ?_
          intro x hx hx2
          rw [List.mem_singleton] at hx2
          exact hfresh (hx2 ▸ hx)
        · intro p hp
          rw [hreg, List.mem_append, List.mem_singleton] at hp
          rw [hn]
          rcases hp with hp | hp
          · exact Nat.lt_succ_of_lt (ih.2 p hp)
          · rw [hp]; exact Nat.lt_succ_self _
  | stop env fuel folderPath w _ _ ih =>
    have hsub := stopMonitor_subRegistry env fuel folderPath w
    refine ⟨(subRegistry_paths hsub).nodup ih.1, fun p hp => ?_⟩
    rw [hsub.2.1]
    exact ih.2 p (hsub.1.subset hp)
  | stopAll env fuel w _ _ ih =>
    have hsub := stopMonitorAll_subRegistry_of env fuel w w
      ⟨List.Sublist.refl _, rfl, fun _ => rfl⟩
    refine ⟨(subRegistry_paths hsub).nodup ih.1, fun p hp => ?_⟩
    rw [hsub.2.1]
    exact ih.2 p (hsub.1.subset hp)

/-- C7 (what the code does): `startMonitor` does not look for an entry with the same
path. Two successful calls with the path `dir/` on a new monitor leave two entries for
`dir/` in the registry. -/
theorem two_starts_same_path_leave_two_entries :
    (startMonitor (sampleEnv 44) 2 "dir/" true 1 World.init).1 = Outcome.returned ∧
    (startMonitor (sampleEnv 45) 2 "dir/" true 1 sampleWatching).1 = Outcome.returned ∧
    (startMonitor (sampleEnv 45) 2 "dir/" true 1 sampleWatching).2.paths = ["dir/", "dir/"] ∧
    ¬ (startMonitor (sampleEnv 45) 2 "dir/" true 1 sampleWatching).2.paths.Nodup := by
  decide

/-- C7 (amended): in every monitor state reachable through `startMonitor`, `stopMonitor`
and `stopMonitorAll` calls in which `startMonitor` is never called with a path that is in
the registry at that moment, the registry holds at most one entry per directory path. -/
theorem registry_paths_nodup (w : World) (h : ReachableFresh w) : w.paths.Nodup :=
  (reachableFresh_invariant w h).1

/-- Witness of C7 (amended): the monitor after successful `startMonitor` calls for `dir/`
and `other/`, the second path being tested against a registry that holds the first; and
the monitor after a following `stopMonitor("dir/")` and a new `startMonitor("dir/")`,
which is allowed because the path has left the registry. Both registries hold two
entries with different paths. -/
theorem registry_paths_nodup_witness :
    sampleTwoWatches.paths = ["dir/", "other/"] ∧ sampleTwoWatches.paths.Nodup ∧
    sampleRestarted.paths = ["other/", "dir/"] ∧ sampleRestarted.paths.Nodup :=
  have h2 : ReachableFresh sampleTwoWatches :=
    ReachableFresh.start (sampleEnv 45) 2 "other/" true 1 sampleWatching
      (ReachableFresh.start (sampleEnv 44) 2 "dir/" true 1 World.init ReachableFresh.init
        (by decide) (Or.inl (by decide)))
      (by decide) (Or.inl (by decide))
  ⟨by decide, registry_paths_nodup sampleTwoWatches h2, by decide,
   registry_paths_nodup sampleRestarted
     (ReachableFresh.start (sampleEnv 46) 2 "dir/" true 1
       (stopMonitor (sampleEnv 44) 4 "dir/" sampleTwoWatches).2
       (ReachableFresh.stop (sampleEnv 44) 4 "dir/" sampleTwoWatches h2 (by decide))
       (by decide) (Or.inl (by decide)))⟩

/-- C8 (what the code does): when `ReadDirectoryChangesW` fails, the worker's dispatch on
an entry in state `Starting` records the error code and leaves the state `Starting`. So
`FolderWatchInfo::startMonitor`, called on an inactive entry of a running monitor with an
empty completion port, never leaves its wait loop `while(mState != Monitoring)`: the call
is blocked, it does not raise, and the entry stays in state `Starting`. -/
theorem failed_first_read_blocks_startMonitor (env : Env) (fuel : Nat) (p : Nat)
    (port : HANDLE) (w : World) (t : Nat)
    (hstate : (w.watchInfos p).mState = MonitorState.Inactive)
    (hthread : w.mPimpl.mWorkerThread = some t)
    (hport : w.mPimpl.mCompPortHandle ≠ nullptr) (hport2 : port ≠ nullptr)
    (hq : w.os.packets = []) (hp : p ≠ nullptr)
    (hread : env.ReadDirectoryChangesW = false) :
    (∀ v : World, (v.watchInfos p).mState = MonitorState.Starting →
      (workerDispatch env p v).map
          (fun v1 => ((v1.watchInfos p).mState, (v1.watchInfos p).mReadError)) =
        some (MonitorState.Starting, env.GetLastError)) ∧
    (FolderWatchInfo.startMonitor env (fuel + 2) p port w).1 = Outcome.blocked ∧
    ((FolderWatchInfo.startMonitor env (fuel + 2) p port w).2.watchInfos p).mState =
      MonitorState.Starting ∧
    ((FolderWatchInfo.startMonitor env (fuel + 2) p port w).2.watchInfos p).mReadError =
      env.GetLastError := by
  refine ⟨fun v hv => ?_, ?_⟩
  · simp [workerDispatch, hv, hread, World.store]
  · simp [FolderWatchInfo.startMonitor, andThen, hstate, await, World.store, hthread, hport,
      hport2, Win32.PostQueuedCompletionStatus, hq, hp, workerDispatch, hread]

/-- Witness of C8: the entry for `dir/` of `sampleRegistered`, with a read that fails
with error 5. -/
theorem failed_first_read_blocks_startMonitor_witness :
    (∀ v : World, (v.watchInfos 1).mState = MonitorState.Starting →
      (workerDispatch sampleEnvReadFails 1 v).map
          (fun v1 => ((v1.watchInfos 1).mState, (v1.watchInfos 1).mReadError)) =
        some (MonitorState.Starting, sampleEnvReadFails.GetLastError)) ∧
    (FolderWatchInfo.startMonitor sampleEnvReadFails (0 + 2) 1 52 sampleRegistered).1 =
      Outcome.blocked ∧
    ((FolderWatchInfo.startMonitor sampleEnvReadFails (0 + 2) 1 52
      sampleRegistered).2.watchInfos 1).mState = MonitorState.Starting ∧
    ((FolderWatchInfo.startMonitor sampleEnvReadFails (0 + 2) 1 52
      sampleRegistered).2.watchInfos 1).mReadError = sampleEnvReadFails.GetLastError :=
  failed_first_read_blocks_startMonitor sampleEnvReadFails 0 1 52 sampleRegistered 7
    rfl rfl (by decide) (by decide) rfl (by decide) rfl

/-- C9: on a monitor with no watch entry, no worker thread and an idle operating system,
when every request succeeds, `startMonitor(d)` returns and so does the following
`stopMonitor(d)`; afterwards the registry is empty, the worker thread and the completion
port are released, and since the first call exactly two handles were closed, the
directory handle opened for `d` and the port, each once. -/
theorem start_then_stop_releases_everything (env1 env2 : Env) (fuel1 fuel2 : Nat) (d : Path)
    (subdirectories : Bool) (changeFilter : Nat) (w : World) (t : Nat)
    (hreg : w.mPimpl.mFoldersToWatch = [])
    (hthr : w.mPimpl.mWorkerThread = none)
    (hq : w.os.packets = []) (hrd : w.os.reading = [])
    (haddr : w.nextAddr ≠ nullptr)
    (hdir : env1.host.isDirectory d = true)
    (hfile : env1.CreateFileW ≠ INVALID_HANDLE_VALUE)
    (hcp : env1.CreateIoCompletionPort ≠ nullptr)
    (hne : env1.CreateIoCompletionPort ≠ env1.CreateFileW)
    (hth : env1.newThread = some t)
    (hr : env1.ReadDirectoryChangesW = true) :
    (startMonitor env1 (fuel1 + 2) d subdirectories changeFilter w).1 = Outcome.returned ∧
    (startMonitor env1 (fuel1 + 2) d subdirectories changeFilter w).2.os.opened =
      w.os.opened ++ [env1.CreateFileW] ∧
    (stopMonitor env2 (fuel2 + 3) d
      (startMonitor env1 (fuel1 + 2) d subdirectories changeFilter w).2).1
        = Outcome.returned ∧
    (stopMonitor env2 (fuel2 + 3) d
      (startMonitor env1 (fuel1 + 2) d subdirectories changeFilter w).2).2.mPimpl.mFoldersToWatch
        = [] ∧
    (stopMonitor env2 (fuel2 + 3) d
      (startMonitor env1 (fuel1 + 2) d subdirectories changeFilter w).2).2.mPimpl.mWorkerThread
        = none ∧
    (stopMonitor env2 (fuel2 + 3) d
      (startMonitor env1 (fuel1 + 2) d subdirectories changeFilter w).2).2.mPimpl.mCompPortHandle
        = nullptr ∧
    (stopMonitor env2 (fuel2 + 3) d
      (startMonitor env1 (fuel1 + 2) d subdirectories changeFilter w).2).2.os.closed
        = w.os.closed ++ [env1.CreateFileW, env1.CreateIoCompletionPort] ∧
    (stopMonitor env2 (fuel2 + 3) d
      (startMonitor env1 (fuel1 + 2) d subdirectories changeFilter w).2).2.os.closed.count
        env1.CreateFileW = w.os.closed.count env1.CreateFileW + 1 := by
  have hstart : startMonitor env1 (fuel1 + 2) d subdirectories changeFilter w =
      (Outcome.returned,
        { mPimpl := { w.mPimpl with mFoldersToWatch := [w.nextAddr],
                                    mCompPortHandle := env1.CreateIoCompletionPort,
                                    mWorkerThread := some t },
          watchInfos := fun a => if a = w.nextAddr then
              { FolderWatchInfo.new d env1.CreateFileW subdirectories
                  (filterFlags env1.folderChange changeFilter) with
                mState := MonitorState.Monitoring }
            else w.watchInfos a,
          nextAddr := w.nextAddr + 1,
          os := { w.os with opened := w.os.opened ++ [env1.CreateFileW],
                            reading := [(env1.CreateFileW, w.nextAddr)] } }) := by
    simp [startMonitor, startRegistered, World.pushWatch, andThen, hdir, hfile, hcp, hthr,
      hth, FolderWatchInfo.startMonitor, World.store, FolderWatchInfo.new, await,
      Win32.PostQueuedCompletionStatus, hq, haddr, workerDispatch, hr, Win32.startRead, hrd,
      hreg, ERROR_SUCCESS]
    funext a
    by_cases h : a = w.nextAddr <;> simp [h]
  rw [hstart]
  have hne2 : ¬ env1.CreateFileW = env1.CreateIoCompletionPort := fun h => hne h.symm
  simp [stopMonitor, andThen, findWatch, FolderWatchInfo.new, FolderWatchInfo.stopMonitor,
    FolderWatchInfo.destructor, World.store, await, Win32.PostQueuedCompletionStatus, hq,
    haddr, workerDispatch, hfile, hcp, Win32.CloseHandle, stopMonitorAll, stopEach,
    joinWorker, Win32.closePort, hne2, hne, List.count_cons]

/-- Witness of C9: `startMonitor("dir/")` then `stopMonitor("dir/")` on a new monitor, the
directory handle being 44 and the port 52. -/
theorem start_then_stop_releases_everything_witness :
    (startMonitor (sampleEnv 44) (0 + 2) "dir/" true 1 World.init).1 = Outcome.returned ∧
    (startMonitor (sampleEnv 44) (0 + 2) "dir/" true 1 World.init).2.os.opened =
      World.init.os.opened ++ [(sampleEnv 44).CreateFileW] ∧
    (stopMonitor (sampleEnv 0) (0 + 3) "dir/"
      (startMonitor (sampleEnv 44) (0 + 2) "dir/" true 1 World.init).2).1
        = Outcome.returned ∧
    (stopMonitor (sampleEnv 0) (0 + 3) "dir/"
      (startMonitor (sampleEnv 44) (0 + 2) "dir/" true 1
        World.init).2).2.mPimpl.mFoldersToWatch = [] ∧
    (stopMonitor (sampleEnv 0) (0 + 3) "dir/"
      (startMonitor (sampleEnv 44) (0 + 2) "dir/" true 1
        World.init).2).2.mPimpl.mWorkerThread = none ∧
    (stopMonitor (sampleEnv 0) (0 + 3) "dir/"
      (startMonitor (sampleEnv 44) (0 + 2) "dir/" true 1
        World.init).2).2.mPimpl.mCompPortHandle = nullptr ∧
    (stopMonitor (sampleEnv 0) (0 + 3) "dir/"
      (startMonitor (sampleEnv 44) (0 + 2) "dir/" true 1 World.init).2).2.os.closed
        = World.init.os.closed ++
          [(sampleEnv 44).CreateFileW, (sampleEnv 44).CreateIoCompletionPort] ∧
    (stopMonitor (sampleEnv 0) (0 + 3) "dir/"
      (startMonitor (sampleEnv 44) (0 + 2) "dir/" true 1 World.init).2).2.os.closed.count
        (sampleEnv 44).CreateFileW = World.init.os.closed.count (sampleEnv 44).CreateFileW + 1 :=
  start_then_stop_releases_everything (sampleEnv 44) (sampleEnv 0) 0 0 "dir/" true 1
    World.init 7 rfl rfl rfl rfl (by decide) rfl (by decide) (by decide) (by decide) rfl rfl

/-- C10 (what the code does): `startMonitor` on an existing directory whose handle was
opened. If the registration with the completion port fails, the call raises with the
registry and the worker thread as before and the new directory handle closed, but
`mCompPortHandle` is now null whatever it was before. If the registration succeeds and
the worker thread, absent before, cannot be created, the call raises with the registry as
before and the new directory handle closed, but `mCompPortHandle` is now the port that
`CreateIoCompletionPort` returned, not what it was before. -/
theorem failed_start_overwrites_port (env : Env) (fuel : Nat) (folderPath : Path)
    (subdirectories : Bool) (changeFilter : Nat) (w : World)
    (hdir : env.host.isDirectory folderPath = true)
    (hfile : env.CreateFileW ≠ INVALID_HANDLE_VALUE) :
    (env.CreateIoCompletionPort = nullptr →
      (startMonitor env fuel folderPath subdirectories changeFilter w).1 = Outcome.raised ∧
      (startMonitor env fuel folderPath subdirectories changeFilter w).2.mPimpl.mFoldersToWatch
        = w.mPimpl.mFoldersToWatch ∧
      (startMonitor env fuel folderPath subdirectories changeFilter w).2.mPimpl.mWorkerThread
        = w.mPimpl.mWorkerThread ∧
      (startMonitor env fuel folderPath subdirectories changeFilter w).2.os.closed
        = w.os.closed ++ [env.CreateFileW] ∧
      (startMonitor env fuel folderPath subdirectories changeFilter w).2.mPimpl.mCompPortHandle
        = nullptr) ∧
    (env.CreateIoCompletionPort ≠ nullptr → w.mPimpl.mWorkerThread = none →
        env.newThread = none →
      (startMonitor env fuel folderPath subdirectories changeFilter w).1 = Outcome.raised ∧
      (startMonitor env fuel folderPath subdirectories changeFilter w).2.mPimpl.mFoldersToWatch
        = w.mPimpl.mFoldersToWatch ∧
      (startMonitor env fuel folderPath subdirectories changeFilter w).2.mPimpl.mWorkerThread
        = none ∧
      (startMonitor env fuel folderPath subdirectories changeFilter w).2.os.closed
        = w.os.closed ++ [env.CreateFileW] ∧
      (startMonitor env fuel folderPath subdirectories changeFilter w).2.mPimpl.mCompPortHandle
        = env.CreateIoCompletionPort) := by
  constructor
  · intro hport
    simp [startMonitor, startRegistered, World.pushWatch, andThen, hdir, hfile, hport,
      rollbackStart, FolderWatchInfo.destructor, FolderWatchInfo.stopMonitor, World.store,
      FolderWatchInfo.new, Win32.CloseHandle]
  · intro hport hthr hnew
    simp [startMonitor, startRegistered, World.pushWatch, andThen, hdir, hfile, hport, hthr,
      hnew, rollbackStart, FolderWatchInfo.destructor, FolderWatchInfo.stopMonitor,
      World.store, FolderWatchInfo.new, Win32.CloseHandle]

/-- Witness of C10: `sampleWatching` watches `dir/` through the port 52; a call
`startMonitor("other/")` during which `CreateIoCompletionPort` fails raises and leaves the
monitor with a null `mCompPortHandle`. -/
theorem failed_start_overwrites_port_witness :
    sampleWatching.mPimpl.mCompPortHandle = 52 ∧
    (startMonitor sampleEnvPortFails 2 "other/" true 1 sampleWatching).1 = Outcome.raised ∧
    (startMonitor sampleEnvPortFails 2 "other/" true 1 sampleWatching).2.mPimpl.mFoldersToWatch
      = sampleWatching.mPimpl.mFoldersToWatch ∧
    (startMonitor sampleEnvPortFails 2 "other/" true 1 sampleWatching).2.mPimpl.mWorkerThread
      = sampleWatching.mPimpl.mWorkerThread ∧
    (startMonitor sampleEnvPortFails 2 "other/" true 1 sampleWatching).2.os.closed
      = sampleWatching.os.closed ++ [sampleEnvPortFails.CreateFileW] ∧
    (startMonitor sampleEnvPortFails 2 "other/" true 1 sampleWatching).2.mPimpl.mCompPortHandle
      = nullptr :=
  ⟨by decide,
    (failed_start_overwrites_port sampleEnvPortFails 2 "other/" true 1 sampleWatching rfl
      (by decide)).1 rfl⟩

/-! ## Theorems: the stack allocator -/

/-- C6 (what the code does): with the block capacity `1024 * 1024` of `MemStack`, three
`alloc(600000)` calls take the blocks 0, 1 and 2, one chunk each. Deallocating the three
pointers in reverse order, the first two calls are applied to the blocks 2 and 1 and
their assertions hold; the second one merges the blocks 1 and 2 into a new block 3 and
makes it current, so the third call, for the chunk of block 0, is applied to block 3 and
its assertion fails, and the destructor's assertion fails afterwards. -/
theorem stack_order_dealloc_hits_wrong_block :
    (MemStackInternal.allocAll (MemStackInternal.new (1024 * 1024))
        [600000, 600000, 600000]).map (fun r => r.2) =
      some [{ block := 2, offset := 4 }, { block := 1, offset := 4 },
            { block := 0, offset := 4 }] ∧
    ((MemStackInternal.allocAll (MemStackInternal.new (1024 * 1024))
        [600000, 600000, 600000]).bind
          (fun r => MemStackInternal.deallocAll r.1 r.2)).map
            (fun r => (r.2, r.1.destructorAssert)) =
      some ([(some 2, true), (some 1, true), (some 3, false)], false) := by
  decide

/-! ## Theorems: the notification parser -/

/-- C11 (what the code does): the range test of `getNext` is
`(DWORD)(offset) > mBufferSize`. When the current record's `NextEntryOffset` `k` is not
zero and leads to an offset `mCurrentRecord + k` that is not below `mBufferSize`, but
whose low 32 bits are at most `mBufferSize` (the offset is `mBufferSize` itself, or it
wraps in the cast), `getNext` returns true and moves to that offset, outside the buffer. -/
theorem getNext_moves_outside_buffer (info : FileNotifyInfo) (k : Nat)
    (hk : (info.mBuffer info.mCurrentRecord).NextEntryOffset = k) (hk0 : k ≠ 0)
    (hcheck : (info.mCurrentRecord + k) % 2 ^ 32 ≤ info.mBufferSize)
    (hout : info.mBufferSize ≤ info.mCurrentRecord + k) :
    info.getNext = (true, { info with mCurrentRecord := info.mCurrentRecord + k }) ∧
    ¬ (info.getNext.2.mCurrentRecord < info.mBufferSize) := by
  have hcheck2 : (info.mCurrentRecord + k) % 4294967296 ≤ info.mBufferSize := by
    simpa using hcheck
  have h : info.getNext = (true, { info with mCurrentRecord := info.mCurrentRecord + k }) := by
    simp [FileNotifyInfo.getNext, hk, hk0, hcheck2]
  refine ⟨h, ?_⟩
  rw [h]
  exact Nat.not_lt.mpr hout

/-- Witness of C11: a buffer of 65536 bytes whose first record has
`NextEntryOffset = 65536`; `getNext` returns true and the current record is at offset
65536. -/
theorem getNext_moves_outside_buffer_witness :
    (FileNotifyInfo.new sampleEndBatch 65536).getNext =
      (true, { FileNotifyInfo.new sampleEndBatch 65536 with mCurrentRecord := 0 + 65536 }) ∧
    ¬ ((FileNotifyInfo.new sampleEndBatch 65536).getNext.2.mCurrentRecord < 65536) :=
  getNext_moves_outside_buffer (FileNotifyInfo.new sampleEndBatch 65536) 65536 rfl
    (by decide) (by decide) (by decide)

/-- C12 (what the code does): on an entry with an empty cached old name, a
RENAMED_NEW_NAME record for the visible file `dir/b.txt` queues one action that is not of
kind `Added` and whose old path is present (the empty string). -/
theorem new_name_without_old_name_not_added :
    (handleNotifications (Host.uniform 10) 1
        (FileNotifyInfo.new (sampleBatch FILE_ACTION_RENAMED_NEW_NAME "b.txt") 65536)
        sampleEntry sampleMonitor).map
      (fun r => r.2.mFileActions.map
        (fun a => (a.newName, a.oldName, decide (a.type = FileActionType.Added)))) =
      some [("dir/b.txt", some "", false)] := by
  decide

/-- C12 (amended): on an entry whose cached old name is empty, a batch of one
RENAMED_NEW_NAME record for the visible path `B` makes `handleNotifications` queue exactly
one action; its new path is `B`, its old path is present and is the empty cached name,
and it is not of kind `Added`. The entry is as before. -/
theorem new_name_without_old_name_queues_rename (host : Host) (fuel : Nat)
    (notifyInfo : FileNotifyInfo) (watchInfo : FolderWatchInfo) (mPimpl : Pimpl)
    (B : WString)
    (hlast : (notifyInfo.mBuffer notifyInfo.mCurrentRecord).NextEntryOffset = 0)
    (hact : notifyInfo.getAction = FILE_ACTION_RENAMED_NEW_NAME)
    (hpath : notifyInfo.getFileNameWithPath host watchInfo.mFolderToMonitor = B)
    (hvis : host.GetFileAttributesW B &&& FILE_ATTRIBUTE_HIDDEN = 0)
    (hcached : watchInfo.mCachedOldFileName = "") :
    ∃ a : FileAction,
      handleNotifications host (fuel + 1) notifyInfo watchInfo mPimpl =
        some (watchInfo, { mPimpl with mFileActions := mPimpl.mFileActions ++ [a] }) ∧
      a.newName = B ∧ a.oldName = some "" ∧ a.type ≠ FileActionType.Added := by
  refine ⟨FileAction.createRenamed "" B, ?_, rfl, rfl, ?_⟩
  · rw [handleNotifications, handleLoop_single host fuel notifyInfo watchInfo [] hlast]
    simp [handleRecord, hpath, hvis, hact, hcached, FILE_ACTION_RENAMED_NEW_NAME,
      FILE_ACTION_RENAMED_OLD_NAME, FILE_ACTION_ADDED, FILE_ACTION_REMOVED,
      FILE_ACTION_MODIFIED]
  · simp [FileAction.createRenamed]

/-- Witness of C12 (amended): a RENAMED_NEW_NAME record for `dir/b.txt` on `sampleEntry`,
whose cached old name is empty. -/
theorem new_name_without_old_name_queues_rename_witness :
    ∃ a : FileAction,
      handleNotifications (Host.uniform 10) (0 + 1)
          (FileNotifyInfo.new (sampleBatch FILE_ACTION_RENAMED_NEW_NAME "b.txt") 65536)
          sampleEntry sampleMonitor =
        some (sampleEntry,
          { sampleMonitor with mFileActions := sampleMonitor.mFileActions ++ [a] }) ∧
      a.newName = "dir/b.txt" ∧ a.oldName = some "" ∧ a.type ≠ FileActionType.Added :=
  new_name_without_old_name_queues_rename (Host.uniform 10) 0
    (FileNotifyInfo.new (sampleBatch FILE_ACTION_RENAMED_NEW_NAME "b.txt") 65536)
    sampleEntry sampleMonitor "dir/b.txt" rfl rfl (by decide) (by decide) rfl

/-- C19 (what the code does): in a buffer of 65536 bytes whose first record has
`NextEntryOffset = 65536`, the chain from offset 0 has two records, of which one lies
within the buffer, and its `NextEntryOffset` leads outside the buffer. The parser loop
visits two records: more than the one record within the bounds, and not fewer than the
chain has; the second record it reads starts where the buffer ends. -/
theorem parser_visits_record_at_buffer_end (fuel : Nat) :
    visitedRecords (fuel + 2) (FileNotifyInfo.new sampleEndBatch 65536) = some 2 ∧
    chainWithin sampleEndBatch 65536 (fuel + 2) 0 = 1 ∧
    chainLength sampleEndBatch (fuel + 2) 0 = 2 ∧
    (FileNotifyInfo.advance 1 (FileNotifyInfo.new sampleEndBatch 65536)).map
      (fun info => info.mCurrentRecord) = some 65536 := by
  refine ⟨?_, ?_, ?_, ?_⟩
  · simp [visitedRecords, FileNotifyInfo.getNext, FileNotifyInfo.new, sampleEndBatch]
  · simp [chainWithin, sampleEndBatch]
  · simp [chainLength, sampleEndBatch]
  · decide

/-- A call of `getNext` that returns true moves the current record to a larger offset. -/
theorem getNext_true_increases (info : FileNotifyInfo) (h : info.getNext.1 = true) :
    info.mCurrentRecord < info.getNext.2.mCurrentRecord := by
  by_cases h0 : (info.mBuffer info.mCurrentRecord).NextEntryOffset = 0
  · simp [FileNotifyInfo.getNext, h0] at h
  · by_cases hr : (info.mCurrentRecord + (info.mBuffer info.mCurrentRecord).NextEntryOffset)
        % 4294967296 ≤ info.mBufferSize
    · simp only [FileNotifyInfo.getNext, bne_iff_ne, ne_eq, h0, not_false_eq_true, if_true]
      have hr2 : ¬ ((info.mCurrentRecord +
          (info.mBuffer info.mCurrentRecord).NextEntryOffset) % 2 ^ 32 > info.mBufferSize) := by
        norm_num
        exact hr
      rw [if_neg hr2]
      omega
    · have hr2 : info.mBufferSize < (info.mCurrentRecord +
          (info.mBuffer info.mCurrentRecord).NextEntryOffset) % 4294967296 := by omega
      simp [FileNotifyInfo.getNext, h0, hr2] at h

/-- A call of `getNext` that returns false leaves the iterator as it is, so every later
call returns false as well. -/
theorem getNext_false_fixed (info : FileNotifyInfo) (h : info.getNext.1 = false) :
    info.getNext.2 = info := by
  by_cases h0 : (info.mBuffer info.mCurrentRecord).NextEntryOffset = 0
  · simp [FileNotifyInfo.getNext, h0]
  · by_cases hr : (info.mCurrentRecord + (info.mBuffer info.mCurrentRecord).NextEntryOffset)
        % 4294967296 ≤ info.mBufferSize
    · simp [FileNotifyInfo.getNext, h0, hr] at h
    · have hr2 : info.mBufferSize < (info.mCurrentRecord +
          (info.mBuffer info.mCurrentRecord).NextEntryOffset) % 4294967296 := by omega
      simp [FileNotifyInfo.getNext, h0, hr2]

/-- In memory that repeats with period `2 ^ 32`, a `DWORD` read depends on the offset
modulo `2 ^ 32` only. -/
theorem readDWORD_periodic (mem : Nat → Nat)
    (hperiod : ∀ off, mem (off + 2 ^ 32) = mem off) (r k : Nat) :
    readDWORD mem (r + 2 ^ 32 * k) = readDWORD mem r := by
  have hmem : ∀ (k r : Nat), mem (r + 2 ^ 32 * k) = mem r := by
    intro k
    induction k with
    | zero => intro r; rfl
    | succ n ih =>
      intro r
      have e : r + 2 ^ 32 * (n + 1) = (r + 2 ^ 32 * n) + 2 ^ 32 := by ring
      rw [e, hperiod, ih]
  have e1 : r + 2 ^ 32 * k + 1 = (r + 1) + 2 ^ 32 * k := by ring
  have e2 : r + 2 ^ 32 * k + 2 = (r + 2) + 2 ^ 32 * k := by ring
  have e3 : r + 2 ^ 32 * k + 3 = (r + 3) + 2 ^ 32 * k := by ring
  unfold readDWORD
  rw [e1, e2, e3, hmem, hmem, hmem, hmem]

theorem readDWORD_lt (mem : Nat → Nat) (off : Nat) : readDWORD mem off < 2 ^ 32 := by
  have h232 : (2 : Nat) ^ 32 = 4294967296 := by norm_num
  rw [h232]
  unfold readDWORD
  omega

/-- A 32-bit address space whose memory has, at the start of the buffer, a record with
`NextEntryOffset = a` and, `a` bytes further, a record with `NextEntryOffset = 2 ^ 32 - a`.
Each call of `getNext` at one of these two records returns true and moves to the
other. -/
theorem getNext_wrap (mem : Nat → Nat) (a n : Nat)
    (hperiod : ∀ off, mem (off + 2 ^ 32) = mem off)
    (ha : 0 < a) (hn : a ≤ n)
    (h0 : readDWORD mem 0 = a) (h1 : readDWORD mem a = 2 ^ 32 - a)
    (info : FileNotifyInfo)
    (hbuf : info.mBuffer = readRecord mem) (hsize : info.mBufferSize = n)
    (hcur : info.mCurrentRecord % 2 ^ 32 = 0 ∨ info.mCurrentRecord % 2 ^ 32 = a) :
    info.getNext.1 = true ∧ info.getNext.2.mBuffer = readRecord mem ∧
    info.getNext.2.mBufferSize = n ∧
    (info.getNext.2.mCurrentRecord % 2 ^ 32 = 0 ∨
      info.getNext.2.mCurrentRecord % 2 ^ 32 = a) ∧
    info.getNext.2.mCurrentRecord =
      info.mCurrentRecord + (if info.mCurrentRecord % 2 ^ 32 = 0 then a else 2 ^ 32 - a) := by
  have h232 : (2 : Nat) ^ 32 = 4294967296 := by norm_num
  have halt : a < 2 ^ 32 := by rw [← h0]; exact readDWORD_lt mem 0
  have hdiv := Nat.mod_add_div info.mCurrentRecord (2 ^ 32)
  have hread : readDWORD mem info.mCurrentRecord =
      readDWORD mem (info.mCurrentRecord % 2 ^ 32) := by
    conv_lhs => rw [← hdiv]
    exact readDWORD_periodic mem hperiod _ _
  rw [h232] at halt hcur hdiv h1
  rcases hcur with hc | hc
  · have hnext : (readRecord mem info.mCurrentRecord).NextEntryOffset = a := by
      show readDWORD mem info.mCurrentRecord = a
      rw [hread, h232, hc, h0]
    have hmod : (info.mCurrentRecord + a) % 4294967296 = a := by omega
    have hgt : ¬ (n < a) := by omega
    have ha0 : ¬ (a = 0) := by omega
    simp [FileNotifyInfo.getNext, hbuf, hnext, hsize, hmod, hc, hgt, ha0]
  · have hca : ¬ (info.mCurrentRecord % 4294967296 = 0) := by omega
    have hnext : (readRecord mem info.mCurrentRecord).NextEntryOffset = 4294967296 - a := by
      show readDWORD mem info.mCurrentRecord = 4294967296 - a
      rw [hread, h232, hc, h1]
    have hmod : (info.mCurrentRecord + (4294967296 - a)) % 4294967296 = 0 := by omega
    have ha0 : ¬ (4294967296 - a = 0) := by omega
    simp [FileNotifyInfo.getNext, hbuf, hnext, hsize, hmod, hca, ha0]

/-- C20 (what the code does): the record sequence need not be finite. In a 32-bit address
space (memory repeating with period `2 ^ 32`), take a buffer of `n` bytes whose record at
offset 0 has `NextEntryOffset = a`, with `0 < a ≤ n`, and whose record at offset `a` has
`NextEntryOffset = 2 ^ 32 - a`. The second `getNext` moves `2 ^ 32` bytes on, which passes
the range test because of the `(DWORD)` cast and is the record at offset 0 again. So
`getNext` returns true any number of times in a row, more than `n` times, and the loop of
`handleNotifications` does not end, whatever the bound on the number of records. -/
theorem parser_loop_never_ends (mem : Nat → Nat) (a n : Nat) (host : Host) (fuel : Nat)
    (watchInfo : FolderWatchInfo) (mActions : List FileAction)
    (hperiod : ∀ off, mem (off + 2 ^ 32) = mem off)
    (ha : 0 < a) (hn : a ≤ n)
    (h0 : readDWORD mem 0 = a) (h1 : readDWORD mem a = 2 ^ 32 - a) :
    (FileNotifyInfo.advance 2 (FileNotifyInfo.new (readRecord mem) n)).map
      (fun info => info.mCurrentRecord) = some (2 ^ 32) ∧
    (FileNotifyInfo.advance fuel (FileNotifyInfo.new (readRecord mem) n)).isSome = true ∧
    visitedRecords fuel (FileNotifyInfo.new (readRecord mem) n) = none ∧
    handleLoop host fuel (FileNotifyInfo.new (readRecord mem) n) watchInfo mActions =
      none := by
  have h232 : (2 : Nat) ^ 32 = 4294967296 := by norm_num
  have halt : a < 2 ^ 32 := by rw [← h0]; exact readDWORD_lt mem 0
  have hstep := getNext_wrap mem a n hperiod ha hn h0 h1
  have hadv : ∀ (k : Nat) (info : FileNotifyInfo), info.mBuffer = readRecord mem →
      info.mBufferSize = n →
      (info.mCurrentRecord % 2 ^ 32 = 0 ∨ info.mCurrentRecord % 2 ^ 32 = a) →
      (FileNotifyInfo.advance k info).isSome = true := by
    intro k
    induction k with
    | zero => intro info _ _ _; rfl
    | succ m ih =>
      intro info hb hs hc
      obtain ⟨g1, g2, g3, g4, _⟩ := hstep info hb hs hc
      rw [FileNotifyInfo.advance, if_pos g1]
      exact ih _ g2 g3 g4
  have hvis : ∀ (k : Nat) (info : FileNotifyInfo), info.mBuffer = readRecord mem →
      info.mBufferSize = n →
      (info.mCurrentRecord % 2 ^ 32 = 0 ∨ info.mCurrentRecord % 2 ^ 32 = a) →
      visitedRecords k info = none := by
    intro k
    induction k with
    | zero => intro info _ _ _; rfl
    | succ m ih =>
      intro info hb hs hc
      obtain ⟨g1, g2, g3, g4, _⟩ := hstep info hb hs hc
      rw [visitedRecords, if_pos g1, ih _ g2 g3 g4]
      rfl
  have hloop : ∀ (k : Nat) (info : FileNotifyInfo) (w : FolderWatchInfo)
      (acts : List FileAction), info.mBuffer = readRecord mem →
      info.mBufferSize = n →
      (info.mCurrentRecord % 2 ^ 32 = 0 ∨ info.mCurrentRecord % 2 ^ 32 = a) →
      handleLoop host k info w acts = none := by
    intro k
    induction k with
    | zero => intro info w acts _ _ _; rfl
    | succ m ih =>
      intro info w acts hb hs hc
      obtain ⟨g1, g2, g3, g4, _⟩ := hstep info hb hs hc
      rw [handleLoop]
      simp only [g1, if_true]
      exact ih _ _ _ g2 g3 g4
  have hstart : (FileNotifyInfo.new (readRecord mem) n).mCurrentRecord % 2 ^ 32 = 0 ∨
      (FileNotifyInfo.new (readRecord mem) n).mCurrentRecord % 2 ^ 32 = a := Or.inl rfl
  refine ⟨?_, hadv fuel _ rfl rfl hstart, hvis fuel _ rfl rfl hstart,
    hloop fuel _ watchInfo mActions rfl rfl hstart⟩
  obtain ⟨g1, g2, g3, g4, g5⟩ := hstep (FileNotifyInfo.new (readRecord mem) n) rfl rfl hstart
  have g5a : (FileNotifyInfo.new (readRecord mem) n).getNext.2.mCurrentRecord = a := by
    rw [g5]
    simp [FileNotifyInfo.new]
  have g4a : (FileNotifyInfo.new (readRecord mem) n).getNext.2.mCurrentRecord % 2 ^ 32 = a := by
    rw [g5a]
    exact Nat.mod_eq_of_lt halt
  obtain ⟨k1, _, _, _, k5⟩ :=
    hstep (FileNotifyInfo.new (readRecord mem) n).getNext.2 g2 g3 (Or.inr g4a)
  have hnz : ¬ ((FileNotifyInfo.new (readRecord mem) n).getNext.2.mCurrentRecord % 2 ^ 32 = 0) := by
    rw [g4a]
    omega
  rw [if_neg hnz, g5a] at k5
  rw [FileNotifyInfo.advance, if_pos g1, FileNotifyInfo.advance, if_pos k1,
    FileNotifyInfo.advance]
  simp only [Option.map_some', k5, Option.some.injEq]
  rw [h232] at halt ⊢
  omega

/-- Witness of C20: the memory `sampleWrapBytes` with its two records of 16 bytes, named
`a` and `b`, in a buffer of 65536 bytes. -/
theorem parser_loop_never_ends_witness :
    (sampleWrapBatch 0).NextEntryOffset = 16 ∧
    (sampleWrapBatch 16).NextEntryOffset = 0xFFFFFFF0 ∧
    (sampleWrapBatch 0).Action = FILE_ACTION_ADDED ∧ (sampleWrapBatch 0).FileName = "a" ∧
    (sampleWrapBatch 16).Action = FILE_ACTION_ADDED ∧ (sampleWrapBatch 16).FileName = "b" ∧
    (FileNotifyInfo.advance 2 (FileNotifyInfo.new (readRecord sampleWrapBytes) 65536)).map
      (fun info => info.mCurrentRecord) = some (2 ^ 32) ∧
    (FileNotifyInfo.advance 65537
      (FileNotifyInfo.new (readRecord sampleWrapBytes) 65536)).isSome = true ∧
    visitedRecords 65537 (FileNotifyInfo.new (readRecord sampleWrapBytes) 65536) = none ∧
    handleLoop (Host.uniform 10) 65537 (FileNotifyInfo.new (readRecord sampleWrapBytes) 65536)
      sampleEntry [] = none :=
  ⟨by decide, by decide, by decide, by decide, by decide, by decide,
   parser_loop_never_ends sampleWrapBytes 16 65536 (Host.uniform 10) 65537 sampleEntry []
     (fun off => by simp [sampleWrapBytes]) (by decide) (by decide) (by decide) (by decide)⟩

/-! ## Theorems: order of the callbacks -/

/-- The actions that stay pending are, in order, the actions that fail a test `c`. -/
theorem filterMap_ite_eq_map_filter {α β : Type} (c : α → Prop) [DecidablePred c]
    (f : α → β) (l : List α) :
    l.filterMap (fun a => if c a then none else some (f a)) =
      (l.filter (fun a => !decide (c a))).map f := by
  induction l with
  | nil => rfl
  | cons a rest ih =>
    by_cases h : c a <;> simp [List.filterMap_cons, List.filter_cons, h, ih]

/-- The callbacks made are, in order, those of the actions that pass a test `c`. -/
theorem flatMap_ite_eq_flatMap_filter {α β : Type} (c : α → Prop) [DecidablePred c]
    (g : α → List β) (l : List α) :
    l.flatMap (fun a => if c a then g a else []) =
      (l.filter (fun a => decide (c a))).flatMap g := by
  induction l with
  | nil => rfl
  | cons a rest ih =>
    by_cases h : c a <;> simp [List.flatMap_cons, List.filter_cons, h, ih]

/-- C13: one `_update` call, with `L` the carried-over pending list followed by the queue
in the order the worker pushed it. The queue is empty afterwards. The calls made are, in
the order of `L`, those of the emitted actions of `L`: for each one the callback of its
type with its paths, when that event has a subscriber; with every event subscribed that
is exactly one call per emitted action. The pending list afterwards holds the other
actions of `L`, in the order of `L`, with their sample updated. And, every event being
subscribed, the calls made and the actions still pending, each taken as the pair of its
type and new path, are together the actions of `L`, each exactly once. -/
theorem update_keeps_order_and_actions (host : Host) (cb : Callbacks) (mPimpl : Pimpl) :
    (_update host cb mPimpl).1.mFileActions = [] ∧
    (_update host cb mPimpl).2 =
      ((mPimpl.mActiveFileActions ++ mPimpl.mFileActions).filter (fun a =>
        decide (host.fileExists a.newName = false ∨
          (a.checkForWriteStarted = true ∧ host.getFileSize a.newName = a.lastSize)))).flatMap
        (fun a =>
          match a.type with
          | FileActionType.Added => if cb.onAdded then [Call.onAdded a.newName] else []
          | FileActionType.Removed => if cb.onRemoved then [Call.onRemoved a.newName] else []
          | FileActionType.Modified =>
            if cb.onModified then [Call.onModified a.newName] else []
          | FileActionType.Renamed =>
            if cb.onRenamed then [Call.onRenamed (a.oldName.getD "") a.newName] else []) ∧
    (_update host Callbacks.all mPimpl).2 =
      ((mPimpl.mActiveFileActions ++ mPimpl.mFileActions).filter (fun a =>
        decide (host.fileExists a.newName = false ∨
          (a.checkForWriteStarted = true ∧ host.getFileSize a.newName = a.lastSize)))).map
        (fun a =>
          match a.type with
          | FileActionType.Added => Call.onAdded a.newName
          | FileActionType.Removed => Call.onRemoved a.newName
          | FileActionType.Modified => Call.onModified a.newName
          | FileActionType.Renamed => Call.onRenamed (a.oldName.getD "") a.newName) ∧
    (_update host cb mPimpl).1.mActiveFileActions =
      ((mPimpl.mActiveFileActions ++ mPimpl.mFileActions).filter (fun a =>
        !decide (host.fileExists a.newName = false ∨
          (a.checkForWriteStarted = true ∧ host.getFileSize a.newName = a.lastSize)))).map
        (fun a => { a with checkForWriteStarted := true,
                           lastSize := host.getFileSize a.newName }) ∧
    (((_update host Callbacks.all mPimpl).2.map (fun c =>
          match c with
          | Call.onAdded path => (FileActionType.Added, path)
          | Call.onRemoved path => (FileActionType.Removed, path)
          | Call.onModified path => (FileActionType.Modified, path)
          | Call.onRenamed _ newPath => (FileActionType.Renamed, newPath))) ++
      (_update host Callbacks.all mPimpl).1.mActiveFileActions.map
        (fun a : FileAction => (a.type, a.newName))).Perm
      ((mPimpl.mActiveFileActions ++ mPimpl.mFileActions).map
        (fun a : FileAction => (a.type, a.newName))) := by
  have hcalls : ∀ cb : Callbacks, (_update host cb mPimpl).2 =
      ((mPimpl.mActiveFileActions ++ mPimpl.mFileActions).filter (fun a =>
        decide (host.fileExists a.newName = false ∨
          (a.checkForWriteStarted = true ∧ host.getFileSize a.newName = a.lastSize)))).flatMap
        (dispatch cb) := by
    intro cb
    unfold _update
    rw [← flatMap_ite_eq_flatMap_filter]
    exact congrArg Prod.snd
      (updateLoop_eq host cb (mPimpl.mActiveFileActions ++ mPimpl.mFileActions))
  have hpending : ∀ cb : Callbacks, (_update host cb mPimpl).1.mActiveFileActions =
      ((mPimpl.mActiveFileActions ++ mPimpl.mFileActions).filter (fun a =>
        !decide (host.fileExists a.newName = false ∨
          (a.checkForWriteStarted = true ∧ host.getFileSize a.newName = a.lastSize)))).map
        (fun a => { a with checkForWriteStarted := true,
                           lastSize := host.getFileSize a.newName }) := by
    intro cb
    unfold _update
    rw [← filterMap_ite_eq_map_filter]
    exact congrArg Prod.fst
      (updateLoop_eq host cb (mPimpl.mActiveFileActions ++ mPimpl.mFileActions))
  have hall : (_update host Callbacks.all mPimpl).2 =
      ((mPimpl.mActiveFileActions ++ mPimpl.mFileActions).filter (fun a =>
        decide (host.fileExists a.newName = false ∨
          (a.checkForWriteStarted = true ∧ host.getFileSize a.newName = a.lastSize)))).map
        (fun a =>
          match a.type with
          | FileActionType.Added => Call.onAdded a.newName
          | FileActionType.Removed => Call.onRemoved a.newName
          | FileActionType.Modified => Call.onModified a.newName
          | FileActionType.Renamed => Call.onRenamed (a.oldName.getD "") a.newName) := by
    rw [hcalls Callbacks.all]
    generalize (mPimpl.mActiveFileActions ++ mPimpl.mFileActions).filter _ = l
    induction l with
    | nil => rfl
    | cons a rest ih =>
      rw [List.flatMap_cons, ih, List.map_cons]
      unfold dispatch
      cases a with
      | mk o n t l c => cases t <;> rfl
  refine ⟨rfl, ?_, hall, hpending cb, ?_⟩
  · rw [hcalls cb]
    refine congrArg (fun f => List.flatMap _ f) (funext fun a => ?_)
    unfold dispatch
    cases a.type <;> rfl
  · rw [hall, hpending Callbacks.all]
    refine List.Perm.trans (List.Perm.of_eq ?_)
      ((List.filter_append_perm (fun a : FileAction =>
        decide (host.fileExists a.newName = false ∨
          (a.checkForWriteStarted = true ∧ host.getFileSize a.newName = a.lastSize)))
        (mPimpl.mActiveFileActions ++ mPimpl.mFileActions)).map
        (fun a : FileAction => (a.type, a.newName)))
    rw [List.map_append, List.map_map, List.map_map]
    congr 1
    refine List.map_congr_left (fun a _ => ?_)
    cases a with
    | mk o n t l c => cases t <;> rfl

/-- Witness of C13: one `_update` call on `samplePending` and `sampleDisk`, every event
subscribed. Three calls are made, in the order of their actions in the working list, and
the two other actions stay pending in their order. -/
theorem update_keeps_order_and_actions_witness :
    (samplePending.mActiveFileActions ++ samplePending.mFileActions).map
        (fun a : FileAction => a.newName) =
      ["dir/a.txt", "dir/grow.txt", "dir/gone.txt", "dir/b.txt", "dir/new.txt"] ∧
    (_update sampleDisk Callbacks.all samplePending).1.mFileActions = [] ∧
    (_update sampleDisk Callbacks.all samplePending).2 =
      [Call.onAdded "dir/a.txt", Call.onRemoved "dir/gone.txt",
       Call.onRenamed "dir/old.txt" "dir/new.txt"] ∧
    (_update sampleDisk Callbacks.all samplePending).1.mActiveFileActions.map
        (fun a : FileAction => a.newName) = ["dir/grow.txt", "dir/b.txt"] :=
  ⟨by decide,
   (update_keeps_order_and_actions sampleDisk Callbacks.all samplePending).1,
   (update_keeps_order_and_actions sampleDisk Callbacks.all samplePending).2.2.1.trans
     (by decide),
   (congrArg (List.map (fun a : FileAction => a.newName))
     (update_keeps_order_and_actions sampleDisk Callbacks.all samplePending).2.2.2.1).trans
     (by decide)⟩

/-! ## Theorems: calls that find nothing to do -/

theorem findWatch_eq_none (watchInfos : Nat → FolderWatchInfo) (folderPath : Path)
    (l : List Nat)
    (h : folderPath ∉ l.map (fun p => (watchInfos p).mFolderToMonitor)) :
    findWatch watchInfos folderPath l = none := by
  induction l with
  | nil => rfl
  | cons p rest ih =>
    simp only [List.map_cons, List.mem_cons, not_or] at h
    rw [findWatch, if_neg (fun e => h.1 e.symm), ih h.2]
    rfl

/-- What `stopMonitorAll` does on a monitor without watch entries and without worker
thread: it returns, and only closes a completion port that is still open. -/
theorem stopMonitorAll_idle (env : Env) (fuel : Nat) (w : World)
    (hreg : w.mPimpl.mFoldersToWatch = []) (hthr : w.mPimpl.mWorkerThread = none) :
    stopMonitorAll env fuel w =
      (Outcome.returned,
        if w.mPimpl.mCompPortHandle ≠ nullptr then
          { w with os := w.os.closePort w.mPimpl.mCompPortHandle,
                   mPimpl := { w.mPimpl with mCompPortHandle := nullptr } }
        else w) := by
  obtain ⟨⟨reg, port, q, act, thr⟩, infos, next, os⟩ := w
  simp only at hreg hthr
  subst hreg hthr
  by_cases hp : port = nullptr <;> simp [stopMonitorAll, stopEach, andThen, hp]

theorem andThen_post (P Q : World → Prop) (r : Outcome × World)
    (next : World → Outcome × World)
    (h1 : r.1 = Outcome.returned → P r.2)
    (h2 : ∀ v, P v → (next v).1 = Outcome.returned → Q (next v).2)
    (h : (andThen r next).1 = Outcome.returned) : Q (andThen r next).2 := by
  unfold andThen at h ⊢
  obtain ⟨o, v⟩ := r
  cases o
  · exact h2 v (h1 rfl) h
  all_goals exact absurd h (by simp)

/-- After a `stopMonitorAll` call that returned, the monitor has no watch entry, no worker
thread and no completion port. -/
theorem stopMonitorAll_released (env : Env) (fuel : Nat) (w : World)
    (h : (stopMonitorAll env fuel w).1 = Outcome.returned) :
    (stopMonitorAll env fuel w).2.mPimpl.mFoldersToWatch = [] ∧
    (stopMonitorAll env fuel w).2.mPimpl.mWorkerThread = none ∧
    (stopMonitorAll env fuel w).2.mPimpl.mCompPortHandle = nullptr := by
  unfold stopMonitorAll at h ⊢
  refine andThen_post (fun _ => True)
    (fun u => u.mPimpl.mFoldersToWatch = [] ∧ u.mPimpl.mWorkerThread = none ∧
      u.mPimpl.mCompPortHandle = nullptr) _ _ (fun _ => trivial) ?_ h
  intro v _ hv
  dsimp only at hv ⊢
  refine andThen_post
    (fun u => u.mPimpl.mFoldersToWatch = [] ∧ u.mPimpl.mWorkerThread = none)
    (fun u => u.mPimpl.mFoldersToWatch = [] ∧ u.mPimpl.mWorkerThread = none ∧
      u.mPimpl.mCompPortHandle = nullptr) _ _ ?_ ?_ hv
  · cases hth : v.mPimpl.mWorkerThread with
    | none => intro _; exact ⟨rfl, rfl⟩
    | some t =>
      dsimp only
      intro hj
      refine andThen_post (fun u => u.mPimpl.mFoldersToWatch = [])
        (fun u => u.mPimpl.mFoldersToWatch = [] ∧ u.mPimpl.mWorkerThread = none)
        _ _ ?_ ?_ hj
      · intro _
        exact (joinWorker_sameRegistry env fuel _).1
      · intro u hu _
        exact ⟨hu, rfl⟩
  · intro u hu _
    split_ifs with hp
    · exact ⟨hu.1, hu.2, rfl⟩
    · exact ⟨hu.1, hu.2, not_not.mp hp⟩

/-- C14 (what the code does): `samplePortLeft` has no watch entry and its completion port
52 is open. `stopMonitor("other/")` finds no entry, then, the registry being empty, runs
`stopMonitorAll`, which closes the port: `mCompPortHandle` is 52 before the call and null
after it. -/
theorem stopMonitor_unwatched_closes_port :
    "other/" ∉ samplePortLeft.paths ∧
    samplePortLeft.mPimpl.mCompPortHandle = 52 ∧
    (stopMonitor (sampleEnv 44) 2 "other/" samplePortLeft).1 = Outcome.returned ∧
    (stopMonitor (sampleEnv 44) 2 "other/" samplePortLeft).2.mPimpl.mCompPortHandle =
      nullptr ∧
    (stopMonitor (sampleEnv 44) 2 "other/" samplePortLeft).2.os.closed =
      samplePortLeft.os.closed ++ [52] := by
  decide

/-- C14 (amended): for a path that equals the path of no registry entry, on a monitor
whose registry is not empty, or that has neither completion port nor worker thread,
`stopMonitor(path)` returns and changes nothing: the registry, every entry, the
completion port, the worker thread and the operating system are as before. -/
theorem stopMonitor_unwatched_path_noop (env : Env) (fuel : Nat) (folderPath : Path)
    (w : World) (hnot : folderPath ∉ w.paths)
    (hstate : w.mPimpl.mFoldersToWatch ≠ [] ∨
      (w.mPimpl.mCompPortHandle = nullptr ∧ w.mPimpl.mWorkerThread = none)) :
    stopMonitor env fuel folderPath w = (Outcome.returned, w) := by
  have hfind := findWatch_eq_none w.watchInfos folderPath w.mPimpl.mFoldersToWatch hnot
  unfold stopMonitor
  rw [hfind]
  by_cases hreg : w.mPimpl.mFoldersToWatch = []
  · rcases hstate with hne | ⟨hport, hthr⟩
    · exact absurd hreg hne
    · simp only [andThen, hreg, List.length_nil, if_true]
      rw [stopMonitorAll_idle env fuel w hreg hthr]
      simp [hport]
  · have hlen : ¬ w.mPimpl.mFoldersToWatch.length = 0 := by
      simpa [List.length_eq_zero] using hreg
    simp [andThen, hlen]

/-- Witness of C14 (amended): `stopMonitor("other/")` on `sampleWatching`, which watches
`dir/` only. -/
theorem stopMonitor_unwatched_path_noop_witness :
    stopMonitor (sampleEnv 44) 2 "other/" sampleWatching = (Outcome.returned, sampleWatching) :=
  stopMonitor_unwatched_path_noop (sampleEnv 44) 2 "other/" sampleWatching (by decide)
    (Or.inl (by decide))

/-- C15 (what the code does): `samplePortLeft` has no watch entry and no worker thread,
and its completion port 52 is open. `stopMonitorAll` returns and closes the port:
`mCompPortHandle` is 52 before the call and null after it. -/
theorem stopMonitorAll_idle_closes_port :
    samplePortLeft.mPimpl.mFoldersToWatch = [] ∧
    samplePortLeft.mPimpl.mWorkerThread = none ∧
    samplePortLeft.mPimpl.mCompPortHandle = 52 ∧
    (stopMonitorAll (sampleEnv 44) 2 samplePortLeft).1 = Outcome.returned ∧
    (stopMonitorAll (sampleEnv 44) 2 samplePortLeft).2.mPimpl.mCompPortHandle = nullptr ∧
    (stopMonitorAll (sampleEnv 44) 2 samplePortLeft).2.os.closed =
      samplePortLeft.os.closed ++ [52] := by
  decide

/-- C15 (amended): `stopMonitorAll` is idempotent: after a call that returned, a second
call returns and leaves the monitor and the operating system as the first call left them.
On a monitor with no watch entry and no worker thread the call returns, creates and joins
no worker thread, and changes nothing except that it closes the completion port when one
is still open; with no completion port either it changes nothing at all. -/
theorem stopMonitorAll_idempotent (env env2 : Env) (fuel fuel2 : Nat) (w : World) :
    ((stopMonitorAll env fuel w).1 = Outcome.returned →
      stopMonitorAll env2 fuel2 (stopMonitorAll env fuel w).2 =
        (Outcome.returned, (stopMonitorAll env fuel w).2)) ∧
    (w.mPimpl.mFoldersToWatch = [] → w.mPimpl.mWorkerThread = none →
      stopMonitorAll env fuel w =
        (Outcome.returned,
          if w.mPimpl.mCompPortHandle ≠ nullptr then
            { w with os := w.os.closePort w.mPimpl.mCompPortHandle,
                     mPimpl := { w.mPimpl with mCompPortHandle := nullptr } }
          else w)) ∧
    (w.mPimpl.mFoldersToWatch = [] → w.mPimpl.mWorkerThread = none →
      w.mPimpl.mCompPortHandle = nullptr →
      stopMonitorAll env fuel w = (Outcome.returned, w)) := by
  refine ⟨fun h => ?_, fun hreg hthr => stopMonitorAll_idle env fuel w hreg hthr,
    fun hreg hthr hport => ?_⟩
  · obtain ⟨h1, h2, h3⟩ := stopMonitorAll_released env fuel w h
    rw [stopMonitorAll_idle env2 fuel2 _ h1 h2]
    simp [h3]
  · rw [stopMonitorAll_idle env fuel w hreg hthr]
    simp [hport]

/-- Witness of C15 (amended): two `stopMonitorAll` calls on `sampleWatching`, which
watches `dir/`: the first call returns and the second leaves everything as it is. -/
theorem stopMonitorAll_idempotent_witness :
    (stopMonitorAll (sampleEnv 44) 3 sampleWatching).1 = Outcome.returned ∧
    stopMonitorAll (sampleEnv 45) 1 (stopMonitorAll (sampleEnv 44) 3 sampleWatching).2 =
      (Outcome.returned, (stopMonitorAll (sampleEnv 44) 3 sampleWatching).2) :=
  ⟨by decide,
    (stopMonitorAll_idempotent (sampleEnv 44) (sampleEnv 45) 3 1 sampleWatching).1
      (by decide)⟩

/-- C16: when the path is not an existing directory, `startMonitor` returns without
raising and the monitor and the operating system are as before: same registry, same
completion port, same worker thread, no handle opened. -/
theorem startMonitor_not_directory_noop (env : Env) (fuel : Nat) (folderPath : Path)
    (subdirectories : Bool) (changeFilter : Nat) (w : World)
    (hdir : env.host.isDirectory folderPath = false) :
    startMonitor env fuel folderPath subdirectories changeFilter w = (Outcome.returned, w) := by
  simp [startMonitor, hdir]

/-- Witness of C16: `startMonitor("dir/")` on a disk where no path exists. -/
theorem startMonitor_not_directory_noop_witness :
    startMonitor { sampleEnv 44 with host := Host.missing } 2 "dir/" true 1 sampleWatching =
      (Outcome.returned, sampleWatching) :=
  startMonitor_not_directory_noop { sampleEnv 44 with host := Host.missing } 2 "dir/" true 1
    sampleWatching rfl


/-! ## Theorems: `MemStackInternal::alloc` -/

theorem findBlock_after (heap : Nat → MemBlock) (blockSize : Nat) (fuel : Nat) :
    ∀ (cur b : Nat), MemStackInternal.findBlock heap blockSize fuel (some cur) = some b →
      MemStackInternal.After heap cur b ∧ blockSize ≤ (heap b).mSize := by
  induction fuel with
  | zero => intro cur b h; simp [MemStackInternal.findBlock] at h
  | succ n ih =>
    intro cur b h
    rw [MemStackInternal.findBlock] at h
    cases hn : (heap cur).mNextBlock with
    | none => simp [hn] at h
    | some nxt =>
      simp only [hn] at h
      split_ifs at h with hs
      · simp only [Option.some.injEq] at h
        subst h
        exact ⟨MemStackInternal.After.next cur nxt hn, hs⟩
      · obtain ⟨h1, h2⟩ := ih nxt b h
        exact ⟨MemStackInternal.After.step cur nxt b hn h1, h2⟩

/-- What `allocBlock` leaves: the block it makes current is empty and large enough,
provided the blocks after the current one were empty. -/
theorem allocBlock_current (s : MemStackInternal) (wantedSize cur : Nat)
    (hcur : s.mFreeBlock = some cur)
    (hafter : ∀ b, MemStackInternal.After s.heap cur b → (s.heap b).mFreePtr = 0) :
    ∃ blk, (s.allocBlock wantedSize).mFreeBlock = some blk ∧
      ((s.allocBlock wantedSize).heap blk).mFreePtr = 0 ∧
      wantedSize ≤ ((s.allocBlock wantedSize).heap blk).mSize := by
  unfold MemStackInternal.allocBlock
  dsimp only
  cases hf : MemStackInternal.findBlock s.heap
      (if wantedSize > s.BlockCapacity then wantedSize else s.BlockCapacity)
      (s.nextAddr + 1) s.mFreeBlock with
  | some b =>
    rw [hcur] at hf
    obtain ⟨h1, h2⟩ := findBlock_after _ _ _ _ _ hf
    refine ⟨b, rfl, hafter b h1, ?_⟩
    dsimp only
    split_ifs at h2 with hw
    · exact h2
    · exact le_trans (Nat.not_lt.mp hw) h2
  | none =>
    dsimp only
    rw [hcur]
    dsimp only
    refine ⟨s.nextAddr, rfl, ?_, ?_⟩
    · cases hn : (s.heap cur).mNextBlock <;>
        simp [MemStackInternal.store, MemBlock.new, hn] <;> split_ifs <;> first | omega | simp
    · cases hn : (s.heap cur).mNextBlock <;>
        simp [MemStackInternal.store, MemBlock.new, hn] <;> split_ifs <;> first | omega | (simp <;> omega)

/-- C17 (what the code does): `amount += sizeof(UINT32)` wraps. On a new stack of block
capacity `1024 * 1024`, `alloc(0xFFFFFFFF)` takes 3 bytes of block 0 (its free offset goes
from 0 to 3), writes the size 3 at offset 0 and returns the address at offset 4. -/
theorem alloc_amount_wraps :
    ((MemStackInternal.new (1024 * 1024)).alloc 0xFFFFFFFF).map
      (fun r => (r.2, (r.1.heap 0).mFreePtr, (r.1.heap 0).mData 0)) =
      some ({ block := 0, offset := 4 }, 3, 3) := by
  decide

/-- C17 (amended): `alloc(amount)` for an amount with `amount + 4` below `2 ^ 32`, on a
stack whose current block has its free offset within its size and whose blocks after the
current one are empty. The call returns the address 4 bytes past a chunk start `off` in a
block `blk`, which is current afterwards; the free offset of `blk` is then
`off + amount + 4` and the size `amount + 4` is stored at `off`. If `amount + 4` is at
most the remaining space of the current block, `blk` is that block and `off` its previous
free offset; otherwise `off` is 0 and the size of `blk` is at least `amount + 4`. -/
theorem alloc_consumes_amount_plus_header (s : MemStackInternal) (amount cur : Nat)
    (hcur : s.mFreeBlock = some cur)
    (hfit : amount + 4 < 2 ^ 32)
    (hsize : (s.heap cur).mSize < 2 ^ 32)
    (hfree : (s.heap cur).mFreePtr ≤ (s.heap cur).mSize)
    (hafter : ∀ b, MemStackInternal.After s.heap cur b → (s.heap b).mFreePtr = 0) :
    ∃ (s1 : MemStackInternal) (blk off : Nat),
      s.alloc amount = some (s1, { block := blk, offset := off + 4 }) ∧
      s1.mFreeBlock = some blk ∧
      (s1.heap blk).mFreePtr = off + (amount + 4) ∧
      (s1.heap blk).mData off = amount + 4 ∧
      (amount + 4 ≤ (s.heap cur).mSize - (s.heap cur).mFreePtr →
        blk = cur ∧ off = (s.heap cur).mFreePtr) ∧
      ((s.heap cur).mSize - (s.heap cur).mFreePtr < amount + 4 →
        off = 0 ∧ amount + 4 ≤ (s1.heap blk).mSize) := by
  have h232 : (2 : Nat) ^ 32 = 4294967296 := by norm_num
  rw [h232] at hfit hsize
  have hamt : (amount + 4) % 2 ^ 32 = amount + 4 := by rw [h232]; omega
  have hfm : ((s.heap cur).mSize + 2 ^ 32 - (s.heap cur).mFreePtr) % 2 ^ 32 =
      (s.heap cur).mSize - (s.heap cur).mFreePtr := by rw [h232]; omega
  unfold MemStackInternal.alloc
  simp only [hcur, hamt, hfm]
  by_cases hle : amount + 4 ≤ (s.heap cur).mSize - (s.heap cur).mFreePtr
  · have hgt : ¬ (amount + 4 > (s.heap cur).mSize - (s.heap cur).mFreePtr) := by omega
    simp only [if_neg hgt, hcur]
    have hsum : ((s.heap cur).mFreePtr + (amount + 4)) % 2 ^ 32 =
        (s.heap cur).mFreePtr + (amount + 4) := by rw [h232]; omega
    refine ⟨_, cur, (s.heap cur).mFreePtr, rfl, ?_, ?_, ?_, fun _ => ⟨rfl, rfl⟩, ?_⟩
    · simp [MemStackInternal.store, hcur]
    · simp [MemStackInternal.store, MemBlock.alloc]
      omega
    · simp [MemStackInternal.store, MemBlock.alloc]
    · intro hlt
      omega
  · have hgt : amount + 4 > (s.heap cur).mSize - (s.heap cur).mFreePtr := by omega
    simp only [if_pos hgt]
    obtain ⟨blk, hb1, hb2, hb3⟩ := allocBlock_current s (amount + 4) cur hcur hafter
    simp only [hb1, MemBlock.alloc, hb2]
    refine ⟨_, blk, 0, rfl, ?_, ?_, ?_, fun h => absurd h hle, fun _ => ⟨rfl, ?_⟩⟩
    · simp [MemStackInternal.store, hb1]
    · simp [MemStackInternal.store]
      omega
    · simp [MemStackInternal.store]
    · simpa [MemStackInternal.store] using hb3

/-- Witness of C17 (amended): `alloc(12)` on `sampleStack`, whose current block 0 is full
and is followed by the empty block 1: the chunk starts at offset 0 of block 1. -/
theorem alloc_consumes_amount_plus_header_witness :
    ∃ (s1 : MemStackInternal) (blk off : Nat),
      sampleStack.alloc 12 = some (s1, { block := blk, offset := off + 4 }) ∧
      s1.mFreeBlock = some blk ∧
      (s1.heap blk).mFreePtr = off + (12 + 4) ∧
      (s1.heap blk).mData off = 12 + 4 ∧
      (12 + 4 ≤ (sampleStack.heap 0).mSize - (sampleStack.heap 0).mFreePtr →
        blk = 0 ∧ off = (sampleStack.heap 0).mFreePtr) ∧
      ((sampleStack.heap 0).mSize - (sampleStack.heap 0).mFreePtr < 12 + 4 →
        off = 0 ∧ 12 + 4 ≤ (s1.heap blk).mSize) :=
  alloc_consumes_amount_plus_header sampleStack 12 0 (by decide) (by decide) (by decide)
    (by decide)
    (fun b h => by
      have h0 : (sampleStack.heap 0).mNextBlock = some 1 := by decide
      have h1 : (sampleStack.heap 1).mNextBlock = none := by decide
      have h2 : (sampleStack.heap 1).mFreePtr = 0 := by decide
      cases h with
      | next _ _ hn =>
        rw [h0] at hn
        simp only [Option.some.injEq] at hn
        rw [← hn]
        exact h2
      | step _ m _ hn hrest =>
        rw [h0] at hn
        simp only [Option.some.injEq] at hn
        subst hn
        cases hrest with
        | next _ _ hm => rw [h1] at hm; exact absurd hm (by simp)
        | step _ _ _ hm _ => rw [h1] at hm; exact absurd hm (by simp))

/-! ## Theorems: `AnimationClip` -/

/-- C18 (what the code does): `setEvents` and `setSampleRate` assign their field and
nothing else, so `getVersion` is the same after them as before, not one more, whatever
the new event list or sample rate. -/
theorem setters_leave_version {Curves Mapping float : Type}
    (clip : AnimationClip Curves Mapping float) (events : List (AnimationEvent float))
    (sampleRate : Nat) :
    (clip.setEvents events).getVersion = clip.getVersion ∧
    (clip.setSampleRate sampleRate).getVersion = clip.getVersion ∧
    (clip.setEvents events).getVersion ≠ clip.getVersion + 1 ∧
    (clip.setSampleRate sampleRate).getVersion ≠ clip.getVersion + 1 := by
  refine ⟨rfl, rfl, ?_, ?_⟩
  · exact (Nat.succ_ne_self _).symm
  · exact (Nat.succ_ne_self _).symm

/-! ## Theorems: the worker's dispatch -/

/-- The records of a batch leave the state and the handle of the entry as they are. -/
theorem handleRecord_entry (host : Host) (notifyInfo : FileNotifyInfo)
    (watchInfo : FolderWatchInfo) (mActions : List FileAction) :
    (handleRecord host notifyInfo watchInfo mActions).1.mState = watchInfo.mState ∧
    (handleRecord host notifyInfo watchInfo mActions).1.mDirHandle = watchInfo.mDirHandle := by
  unfold handleRecord
  simp only []
  split_ifs <;> exact ⟨rfl, rfl⟩

theorem handleLoop_entry (host : Host) (fuel : Nat) :
    ∀ (notifyInfo : FileNotifyInfo) (watchInfo : FolderWatchInfo)
      (mActions : List FileAction) (r : FolderWatchInfo × List FileAction),
      handleLoop host fuel notifyInfo watchInfo mActions = some r →
      r.1.mState = watchInfo.mState ∧ r.1.mDirHandle = watchInfo.mDirHandle := by
  induction fuel with
  | zero => intro _ _ _ r h; simp [handleLoop] at h
  | succ n ih =>
    intro notifyInfo watchInfo mActions r h
    rw [handleLoop] at h
    split_ifs at h with hn
    · have h1 := ih _ _ _ _ h
      have h2 := handleRecord_entry host notifyInfo watchInfo mActions
      exact ⟨h1.1.trans h2.1, h1.2.trans h2.2⟩
    · simp only [Option.some.injEq] at h
      rw [← h]
      exact handleRecord_entry host notifyInfo watchInfo mActions

theorem handleNotifications_entry (host : Host) (fuel : Nat) (notifyInfo : FileNotifyInfo)
    (watchInfo : FolderWatchInfo) (mPimpl : Pimpl) (r : FolderWatchInfo × Pimpl)
    (h : handleNotifications host fuel notifyInfo watchInfo mPimpl = some r) :
    r.1.mState = watchInfo.mState ∧ r.1.mDirHandle = watchInfo.mDirHandle := by
  unfold handleNotifications at h
  cases hl : handleLoop host fuel notifyInfo watchInfo [] with
  | none => simp [hl] at h
  | some q =>
    simp only [hl, Option.some.injEq] at h
    rw [← h]
    exact handleLoop_entry host fuel _ _ _ _ hl

/-- What one dispatch does to the state and the handle of the entry it is tagged with,
state by state. -/
theorem workerDispatch_entry (env : Env) (p : Nat) (w w1 : World)
    (h : workerDispatch env p w = some w1) :
    ((w.watchInfos p).mState = MonitorState.Starting →
      (w1.watchInfos p).mDirHandle = (w.watchInfos p).mDirHandle ∧
      ((w1.watchInfos p).mState = MonitorState.Starting ∨
       (w1.watchInfos p).mState = MonitorState.Monitoring)) ∧
    ((w.watchInfos p).mState = MonitorState.Monitoring →
      (w1.watchInfos p).mDirHandle = (w.watchInfos p).mDirHandle ∧
      (w1.watchInfos p).mState = MonitorState.Monitoring) ∧
    ((w.watchInfos p).mState = MonitorState.Shutdown ∨
     (w.watchInfos p).mState = MonitorState.Shutdown2 →
      ((w1.watchInfos p).mState = MonitorState.Shutdown2 ∨
       (w1.watchInfos p).mState = MonitorState.Inactive) ∧
      (w1.watchInfos p).mDirHandle = INVALID_HANDLE_VALUE) ∧
    ((w.watchInfos p).mState = MonitorState.Inactive → w1 = w) := by
  unfold workerDispatch at h
  cases hs : (w.watchInfos p).mState <;> simp only [hs] at h
  · simp at h; subst h; simp
  · by_cases hr : env.ReadDirectoryChangesW = true
    · simp [hr] at h; subst h; simp [World.store]
    · simp [hr] at h; subst h; simp [World.store, hs]
  · cases hn : handleNotifications env.host env.records
        (FileNotifyInfo.new (w.watchInfos p).mBuffer FolderWatchInfo.READ_BUFFER_SIZE)
        (w.watchInfos p) w.mPimpl with
    | none => simp [hn] at h
    | some r =>
      have he := handleNotifications_entry _ _ _ _ _ _ hn
      rw [hs] at he
      by_cases hr : env.ReadDirectoryChangesW = true
      · simp [hn, hr] at h; subst h; simp [World.store, he.1, he.2]
      · simp [hn, hr] at h; subst h; simp [World.store, he.1, he.2]
  · by_cases hh : (w.watchInfos p).mDirHandle = INVALID_HANDLE_VALUE
    · simp [hh] at h; subst h; simp [World.store, hh]
    · simp [hh] at h; subst h; simp [World.store]
  · by_cases hh : (w.watchInfos p).mDirHandle = INVALID_HANDLE_VALUE
    · simp [hh] at h; subst h; simp [World.store, hh]
    · simp [hh] at h; subst h; simp [World.store]

/-- A dispatch changes no entry but the one it is tagged with, and not the registry. -/
theorem workerDispatch_others (env : Env) (p : Nat) (w w1 : World)
    (h : workerDispatch env p w = some w1) :
    w1.mPimpl.mFoldersToWatch = w.mPimpl.mFoldersToWatch ∧
    ∀ a : Nat, a ≠ p → w1.watchInfos a = w.watchInfos a := by
  unfold workerDispatch at h
  cases hs : (w.watchInfos p).mState <;> simp only [hs] at h
  · simp at h; subst h; simp
  · by_cases hr : env.ReadDirectoryChangesW = true
    · simp [hr] at h; subst h
      exact ⟨rfl, fun a ha => by simp [World.store, ha]⟩
    · simp [hr] at h; subst h
      exact ⟨rfl, fun a ha => by simp [World.store, ha]⟩
  · cases hn : handleNotifications env.host env.records
        (FileNotifyInfo.new (w.watchInfos p).mBuffer FolderWatchInfo.READ_BUFFER_SIZE)
        (w.watchInfos p) w.mPimpl with
    | none => simp [hn] at h
    | some r =>
      have hf := handleNotifications_frame _ _ _ _ _ _ hn
      by_cases hr : env.ReadDirectoryChangesW = true
      · simp [hn, hr] at h; subst h
        exact ⟨hf.2.1, fun a ha => by simp [World.store, ha]⟩
      · simp [hn, hr] at h; subst h
        exact ⟨hf.2.1, fun a ha => by simp [World.store, ha]⟩
  · by_cases hh : (w.watchInfos p).mDirHandle = INVALID_HANDLE_VALUE
    · simp [hh] at h; subst h
      exact ⟨rfl, fun a ha => by simp [World.store, ha]⟩
    · simp [hh] at h; subst h
      exact ⟨rfl, fun a ha => by simp [World.store, ha]⟩
  · by_cases hh : (w.watchInfos p).mDirHandle = INVALID_HANDLE_VALUE
    · simp [hh] at h; subst h
      exact ⟨rfl, fun a ha => by simp [World.store, ha]⟩
    · simp [hh] at h; subst h
      exact ⟨rfl, fun a ha => by simp [World.store, ha]⟩

/-- C21: the two-phase close. On an entry in state `Shutdown` with an open handle, one
dispatch closes the handle (once), invalidates it and sets `Shutdown2`, and the next
dispatch sets `Inactive` and leaves the operating system as it is. A dispatch in
`Shutdown2` with the handle already invalid returns, sets `Inactive` and closes nothing.
And whenever a dispatch takes an entry from another state to `Inactive`, the handle of
that entry is invalid afterwards. -/
theorem dispatch_two_phase_close (env1 env2 : Env) (p : Nat) (w : World) :
    ((w.watchInfos p).mState = MonitorState.Shutdown →
      (w.watchInfos p).mDirHandle ≠ INVALID_HANDLE_VALUE →
      ∃ w1 w2 : World,
        workerDispatch env1 p w = some w1 ∧
        (w1.watchInfos p).mState = MonitorState.Shutdown2 ∧
        (w1.watchInfos p).mDirHandle = INVALID_HANDLE_VALUE ∧
        w1.os.closed = w.os.closed ++ [(w.watchInfos p).mDirHandle] ∧
        workerDispatch env2 p w1 = some w2 ∧
        (w2.watchInfos p).mState = MonitorState.Inactive ∧
        (w2.watchInfos p).mDirHandle = INVALID_HANDLE_VALUE ∧
        w2.os = w1.os) ∧
    ((w.watchInfos p).mState = MonitorState.Shutdown2 →
      (w.watchInfos p).mDirHandle = INVALID_HANDLE_VALUE →
      ∃ w1 : World,
        workerDispatch env1 p w = some w1 ∧
        (w1.watchInfos p).mState = MonitorState.Inactive ∧
        w1.os = w.os) ∧
    (∀ (w1 : World) (a : Nat), workerDispatch env1 p w = some w1 →
      (w.watchInfos a).mState ≠ MonitorState.Inactive →
      (w1.watchInfos a).mState = MonitorState.Inactive →
      (w1.watchInfos a).mDirHandle = INVALID_HANDLE_VALUE) := by
  refine ⟨fun hs hh => ?_, fun hs hh => ?_, fun w1 a hd hbefore hafter => ?_⟩
  · refine ⟨{ w with os := w.os.CloseHandle (w.watchInfos p).mDirHandle }.store p
        { w.watchInfos p with mDirHandle := INVALID_HANDLE_VALUE,
                              mState := MonitorState.Shutdown2 },
      ({ w with os := w.os.CloseHandle (w.watchInfos p).mDirHandle }.store p
        { w.watchInfos p with mDirHandle := INVALID_HANDLE_VALUE,
                              mState := MonitorState.Shutdown2 }).store p
        { w.watchInfos p with mDirHandle := INVALID_HANDLE_VALUE,
                              mState := MonitorState.Inactive }, ?_, ?_, ?_, ?_, ?_, ?_, ?_, ?_⟩
    · simp [workerDispatch, hs, hh]
    · simp [World.store]
    · simp [World.store]
    · simp [World.store, Win32.CloseHandle]
    · simp [workerDispatch, World.store]
    · simp [World.store]
    · simp [World.store]
    · simp [World.store]
  · have h1 : workerDispatch env1 p w =
        some (w.store p { w.watchInfos p with mState := MonitorState.Inactive }) := by
      simp [workerDispatch, hs, hh]
    exact ⟨_, h1, by simp [World.store], by simp [World.store]⟩
  · by_cases ha : a = p
    · subst ha
      have he := workerDispatch_entry env1 a w w1 hd
      cases hs : (w.watchInfos a).mState with
      | Inactive => exact absurd hs hbefore
      | Starting =>
        rcases (he.1 hs).2 with h | h <;> rw [h] at hafter <;> cases hafter
      | Monitoring =>
        have h := (he.2.1 hs).2
        rw [h] at hafter; cases hafter
      | Shutdown => exact (he.2.2.1 (Or.inl hs)).2
      | Shutdown2 => exact (he.2.2.1 (Or.inr hs)).2
    · have ho := (workerDispatch_others env1 p w w1 hd).2 a ha
      rw [ho] at hafter
      exact absurd hafter hbefore

theorem dispatch_two_phase_close_witness :
    (sampleStopping.watchInfos 1).mState = MonitorState.Shutdown ∧
    (sampleStopping.watchInfos 1).mDirHandle = 44 ∧
    ∃ w1 w2 : World,
      workerDispatch (sampleEnv 44) 1 sampleStopping = some w1 ∧
      (w1.watchInfos 1).mState = MonitorState.Shutdown2 ∧
      (w1.watchInfos 1).mDirHandle = INVALID_HANDLE_VALUE ∧
      w1.os.closed = sampleStopping.os.closed ++ [(sampleStopping.watchInfos 1).mDirHandle] ∧
      workerDispatch sampleEnvReadFails 1 w1 = some w2 ∧
      (w2.watchInfos 1).mState = MonitorState.Inactive ∧
      (w2.watchInfos 1).mDirHandle = INVALID_HANDLE_VALUE ∧
      w2.os = w1.os :=
  ⟨by decide, by decide,
   (dispatch_two_phase_close (sampleEnv 44) sampleEnvReadFails 1 sampleStopping).1
     (by decide) (by decide)⟩

/-- C22, as stated: an entry as `startMonitor` constructs it is `Inactive` with a valid
handle, and after the first dispatch of a shutdown it is `Shutdown2`, not `Inactive`, with
an invalid handle. -/
theorem handle_valid_iff_not_inactive_fails :
    EntryLife (FolderWatchInfo.new "dir/" 44 true 1) ∧
    sampleRegistered.watchInfos 1 = FolderWatchInfo.new "dir/" 44 true 1 ∧
    (sampleRegistered.watchInfos 1).mState = MonitorState.Inactive ∧
    (sampleRegistered.watchInfos 1).mDirHandle ≠ INVALID_HANDLE_VALUE ∧
    (sampleStopping.watchInfos 1).mState = MonitorState.Shutdown ∧
    (workerDispatch (sampleEnv 44) 1 sampleStopping).map
        (fun w1 => ((w1.watchInfos 1).mState, (w1.watchInfos 1).mDirHandle)) =
      some (MonitorState.Shutdown2, INVALID_HANDLE_VALUE) :=
  ⟨EntryLife.constructed "dir/" 44 true 1 (by decide), rfl, by decide, by decide, by decide,
   by decide⟩

/-- C22, amended: in every state of its life a watch entry has a valid handle while it is
`Starting` or `Monitoring`, and an invalid one while it is `Shutdown2`. -/
theorem entry_handle_by_state (e : FolderWatchInfo) (h : EntryLife e) :
    (e.mState = MonitorState.Starting ∨ e.mState = MonitorState.Monitoring →
      e.mDirHandle ≠ INVALID_HANDLE_VALUE) ∧
    (e.mState = MonitorState.Shutdown2 → e.mDirHandle = INVALID_HANDLE_VALUE) := by
  induction h with
  | constructed f d s m hd => simp [FolderWatchInfo.new]
  | started f d s m hd => simpa [FolderWatchInfo.new] using hd
  | dispatched env p w w1 _ hd ih =>
    have he := workerDispatch_entry env p w w1 hd
    cases hs : (w.watchInfos p).mState with
    | Inactive => rw [he.2.2.2 hs]; exact ih
    | Starting =>
      have h1 := he.1 hs
      refine ⟨fun _ => ?_, fun h2 => ?_⟩
      · rw [h1.1]; exact ih.1 (Or.inl hs)
      · rcases h1.2 with h | h <;> rw [h] at h2 <;> cases h2
    | Monitoring =>
      have h1 := he.2.1 hs
      refine ⟨fun _ => ?_, fun h2 => ?_⟩
      · rw [h1.1]; exact ih.1 (Or.inr hs)
      · rw [h1.2] at h2; cases h2
    | Shutdown =>
      have h1 := he.2.2.1 (Or.inl hs)
      refine ⟨fun h2 => ?_, fun _ => h1.2⟩
      rcases h1.1 with h | h <;> rw [h] at h2 <;> rcases h2 with h2 | h2 <;> cases h2
    | Shutdown2 =>
      have h1 := he.2.2.1 (Or.inr hs)
      refine ⟨fun h2 => ?_, fun _ => h1.2⟩
      rcases h1.1 with h | h <;> rw [h] at h2 <;> rcases h2 with h2 | h2 <;> cases h2
  | startFailed e _ _ _ _ => simp
  | stopRequested e _ _ _ => simp
  | handleClosed e _ hs _ _ => simp [hs]

theorem entry_handle_by_state_witness :
    (sampleStarted.watchInfos 1).mState = MonitorState.Monitoring ∧
    (sampleStarted.watchInfos 1).mDirHandle ≠ INVALID_HANDLE_VALUE :=
  ⟨by decide,
   (entry_handle_by_state (sampleStarted.watchInfos 1)
      (EntryLife.dispatched (sampleEnv 44) 1 sampleStarting sampleStarted
        (EntryLife.started "dir/" 44 true 1 (by decide)) rfl)).1 (Or.inr (by decide))⟩

/-- C23: a worker dispatch on a completion tagged with entry `p`, in whichever state that
entry is, leaves every other entry (state, handle, read error, cached old name and all
other fields) and the registry as they were; and the dispatch returns, unless the entry
is `Monitoring` and the parser does not come to an end of the buffer. -/
theorem dispatch_leaves_other_entries (env : Env) (p : Nat) (w : World) :
    (∀ w1 : World, workerDispatch env p w = some w1 →
      w1.mPimpl.mFoldersToWatch = w.mPimpl.mFoldersToWatch ∧
      ∀ a : Nat, a ≠ p → w1.watchInfos a = w.watchInfos a) ∧
    ((workerDispatch env p w).isSome = true ↔
      ((w.watchInfos p).mState = MonitorState.Monitoring →
        (handleLoop env.host env.records
          (FileNotifyInfo.new (w.watchInfos p).mBuffer FolderWatchInfo.READ_BUFFER_SIZE)
          (w.watchInfos p) []).isSome = true)) := by
  refine ⟨fun w1 h => workerDispatch_others env p w w1 h, ?_⟩
  unfold workerDispatch
  cases hs : (w.watchInfos p).mState <;> simp only [hs]
  · simp
  · by_cases hr : env.ReadDirectoryChangesW = true <;> simp [hr]
  · simp only [forall_const, handleNotifications]
    cases hl : handleLoop env.host env.records
        (FileNotifyInfo.new (w.watchInfos p).mBuffer FolderWatchInfo.READ_BUFFER_SIZE)
        (w.watchInfos p) [] with
    | none => simp
    | some r => by_cases hr : env.ReadDirectoryChangesW = true <;> simp [hr]
  · by_cases hh : (w.watchInfos p).mDirHandle = INVALID_HANDLE_VALUE <;> simp [hh]
  · by_cases hh : (w.watchInfos p).mDirHandle = INVALID_HANDLE_VALUE <;> simp [hh]

theorem dispatch_leaves_other_entries_witness :
    sampleTwoWatches.mPimpl.mFoldersToWatch = [1, 2] ∧
    (sampleTwoWatches.watchInfos 1).mState = MonitorState.Monitoring ∧
    (sampleTwoWatches.watchInfos 2).mState = MonitorState.Monitoring ∧
    workerDispatch (sampleEnv 44) 1 sampleTwoWatches = some sampleDispatched ∧
    sampleDispatched.mPimpl.mFoldersToWatch = sampleTwoWatches.mPimpl.mFoldersToWatch ∧
    sampleDispatched.watchInfos 2 = sampleTwoWatches.watchInfos 2 :=
  ⟨by decide, by decide, by decide, rfl,
   ((dispatch_leaves_other_entries (sampleEnv 44) 1 sampleTwoWatches).1
      sampleDispatched rfl).1,
   ((dispatch_leaves_other_entries (sampleEnv 44) 1 sampleTwoWatches).1
      sampleDispatched rfl).2 2 (by decide)⟩

/-! ## Theorems: runs of `alloc` calls -/

/-- The constructor leaves a stack of the shape `AllocOnly`. -/
theorem new_allocOnly (cap : Nat) (hcap : cap < 2 ^ 32) :
    (MemStackInternal.new cap).AllocOnly := by
  refine ⟨hcap, ⟨0, rfl, ?_, ?_, ?_⟩, fun a => ?_⟩
  · simp [MemStackInternal.new, MemStackInternal.allocBlock, MemStackInternal.findBlock,
      MemStackInternal.store]
  · simp [MemStackInternal.new, MemStackInternal.allocBlock, MemStackInternal.findBlock,
      MemStackInternal.store]
  · simp [MemStackInternal.new, MemStackInternal.allocBlock, MemStackInternal.findBlock,
      MemStackInternal.store, MemBlock.new]
  · by_cases ha : a = 0
    · simp [MemStackInternal.new, MemStackInternal.allocBlock, MemStackInternal.findBlock,
        MemStackInternal.store, MemBlock.new, ha]
      simpa using hcap
    · simp [MemStackInternal.new, MemStackInternal.allocBlock, MemStackInternal.findBlock,
        MemStackInternal.store, MemBlock.new, ha]

/-- What `allocBlock` does when the current block is the last of the chain: it appends a
new empty block of the wanted size, at least the capacity, and makes it current. -/
theorem allocBlock_last (s : MemStackInternal) (wantedSize cur : Nat)
    (hcur : s.mFreeBlock = some cur) (hlt : cur < s.nextAddr)
    (hnext : (s.heap cur).mNextBlock = none) :
    (s.allocBlock wantedSize).mFreeBlock = some s.nextAddr ∧
    (s.allocBlock wantedSize).nextAddr = s.nextAddr + 1 ∧
    (s.allocBlock wantedSize).BlockCapacity = s.BlockCapacity ∧
    (∀ a, (s.allocBlock wantedSize).alive a = if a = s.nextAddr then true else s.alive a) ∧
    ((s.allocBlock wantedSize).heap s.nextAddr).mFreePtr = 0 ∧
    ((s.allocBlock wantedSize).heap s.nextAddr).mSize =
      (if wantedSize > s.BlockCapacity then wantedSize else s.BlockCapacity) ∧
    ((s.allocBlock wantedSize).heap s.nextAddr).mNextBlock = none ∧
    (∀ a, a ≠ s.nextAddr →
      ((s.allocBlock wantedSize).heap a).mFreePtr = (s.heap a).mFreePtr ∧
      ((s.allocBlock wantedSize).heap a).mSize = (s.heap a).mSize) := by
  have hne : cur ≠ s.nextAddr := by omega
  have hf : MemStackInternal.findBlock s.heap
      (if wantedSize > s.BlockCapacity then wantedSize else s.BlockCapacity)
      (s.nextAddr + 1) (some cur) = none := by
    rw [MemStackInternal.findBlock, hnext]
  unfold MemStackInternal.allocBlock
  simp only [hcur, hf, hnext]
  refine ⟨?_, ?_, ?_, fun a => ?_, ?_, ?_, ?_, fun a ha => ?_⟩
  · trivial
  · trivial
  · trivial
  · trivial
  · simp [MemStackInternal.store, MemBlock.new, hne.symm]
  · simp [MemStackInternal.store, MemBlock.new, hne.symm]
  · simp [MemStackInternal.store, MemBlock.new, hne.symm, hnext]
  · by_cases hac : a = cur
    · subst hac
      simp [MemStackInternal.store, ha]
    · simp [MemStackInternal.store, ha, hac]

/-- One `alloc` call on a stack of the shape `AllocOnly`, for an amount with `amount + 4`
below `2 ^ 32`: the call returns, the shape is kept, no block is released and no free
offset goes down, and the returned region lies in a live block, behind its header, below
the new free offset of that block and above the old one. -/
theorem alloc_allocOnly (s : MemStackInternal) (amount : Nat) (hinv : s.AllocOnly)
    (hfit : amount + 4 < 2 ^ 32) :
    ∃ (s1 : MemStackInternal) (p : DataPtr),
      s.alloc amount = some (s1, p) ∧ s1.AllocOnly ∧
      s.nextAddr ≤ s1.nextAddr ∧
      (∀ a, s.alive a = true → s1.alive a = true) ∧
      (∀ a, a < s.nextAddr → (s.heap a).mFreePtr ≤ (s1.heap a).mFreePtr) ∧
      p.block < s1.nextAddr ∧ s1.alive p.block = true ∧ 4 ≤ p.offset ∧
      p.offset + amount = (s1.heap p.block).mFreePtr ∧
      (p.block < s.nextAddr → (s.heap p.block).mFreePtr + 4 ≤ p.offset) := by
  obtain ⟨hcap, ⟨cur, hcur, hlt, halive, hnext⟩, hall⟩ := hinv
  have h232 : (2 : Nat) ^ 32 = 4294967296 := by norm_num
  have hc1 := (hall cur).1
  have hc2 := (hall cur).2
  rw [h232] at hfit hc2 hcap
  have hamt : (amount + 4) % 2 ^ 32 = amount + 4 := by rw [h232]; omega
  have hfm : ((s.heap cur).mSize + 2 ^ 32 - (s.heap cur).mFreePtr) % 2 ^ 32 =
      (s.heap cur).mSize - (s.heap cur).mFreePtr := by rw [h232]; omega
  unfold MemStackInternal.alloc
  simp only [hcur, hamt, hfm]
  by_cases hle : amount + 4 ≤ (s.heap cur).mSize - (s.heap cur).mFreePtr
  · have hgt : ¬ (amount + 4 > (s.heap cur).mSize - (s.heap cur).mFreePtr) := by omega
    simp only [if_neg hgt, hcur]
    have hsum : ((s.heap cur).mFreePtr + (amount + 4)) % 2 ^ 32 =
        (s.heap cur).mFreePtr + (amount + 4) := by rw [h232]; omega
    refine ⟨_, _, rfl, ⟨?_, ⟨cur, ?_, ?_, ?_, ?_⟩, fun a => ?_⟩, ?_, fun a ha => ?_,
      fun a hal => ?_, ?_, ?_, ?_, ?_, fun hpl => ?_⟩
    · simpa [MemStackInternal.store] using hcap
    · simp [MemStackInternal.store, hcur]
    · simpa [MemStackInternal.store] using hlt
    · simpa [MemStackInternal.store] using halive
    · simp [MemStackInternal.store, MemBlock.alloc, hnext]
    · by_cases hac : a = cur
      · subst hac
        simp only [MemStackInternal.store, MemBlock.alloc, if_true, hsum]
        rw [h232]
        omega
      · simp only [MemStackInternal.store, hac, if_false]
        exact hall a
    · simp [MemStackInternal.store]
    · simpa [MemStackInternal.store] using ha
    · by_cases hac : a = cur
      · subst hac
        simp only [MemStackInternal.store, MemBlock.alloc, if_true, hsum]
        omega
      · simp [MemStackInternal.store, hac]
    · simpa [MemStackInternal.store] using hlt
    · simpa [MemStackInternal.store] using halive
    · simp [MemBlock.alloc]
    · simp only [MemStackInternal.store, MemBlock.alloc, if_true, hsum]
      omega
    · simp [MemBlock.alloc]
  · have hgt : amount + 4 > (s.heap cur).mSize - (s.heap cur).mFreePtr := by omega
    simp only [if_pos hgt]
    obtain ⟨hb1, hb2, hb3, hb4, hb5, hb6, hb7, hb8⟩ :=
      allocBlock_last s (amount + 4) cur hcur hlt hnext
    have hsz : amount + 4 ≤ ((s.allocBlock (amount + 4)).heap s.nextAddr).mSize ∧
        ((s.allocBlock (amount + 4)).heap s.nextAddr).mSize < 4294967296 := by
      rw [hb6]
      split_ifs <;> omega
    simp only [hb1, MemBlock.alloc, hb5, Nat.zero_add, hamt]
    refine ⟨_, _, rfl, ⟨?_, ⟨s.nextAddr, ?_, ?_, ?_, ?_⟩, fun a => ?_⟩, ?_, fun a ha => ?_,
      fun a hal => ?_, ?_, ?_, ?_, ?_, fun hpl => ?_⟩
    · simp only [MemStackInternal.store, hb3, h232]
      exact hcap
    · simp [MemStackInternal.store, hb1]
    · simp [MemStackInternal.store, hb2]
    · simp [MemStackInternal.store, hb4]
    · simp [MemStackInternal.store, hb7]
    · by_cases hac : a = s.nextAddr
      · subst hac
        simp only [MemStackInternal.store, if_true, h232]
        omega
      · simp only [MemStackInternal.store, hac, if_false]
        rw [(hb8 a hac).1, (hb8 a hac).2]
        exact hall a
    · simp [MemStackInternal.store, hb2]
    · simp only [MemStackInternal.store, hb4]
      split_ifs
      · rfl
      · exact ha
    · have hac : a ≠ s.nextAddr := by omega
      simp only [MemStackInternal.store, hac, if_false]
      rw [(hb8 a hac).1]
    · simp [MemStackInternal.store, hb2]
    · simp [MemStackInternal.store, hb4]
    · simp
    · simp [MemStackInternal.store]
      omega
    · simp at hpl

/-- A run of `alloc` calls on a stack of the shape `AllocOnly`, every amount with
`amount + 4` below `2 ^ 32`: the run returns, the shape is kept, and every returned
region lies in a live block behind its header, below the final free offset of its block
and above the free offset the block had before the run; the regions are pairwise
disjoint. -/
theorem allocRegions_allocOnly (amounts : List Nat) :
    ∀ (s : MemStackInternal), s.AllocOnly → (∀ a ∈ amounts, a + 4 < 2 ^ 32) →
    ∃ (s1 : MemStackInternal) (rs : List (DataPtr × Nat)),
      s.allocRegions amounts = some (s1, rs) ∧ s1.AllocOnly ∧
      rs.map Prod.snd = amounts ∧
      s.nextAddr ≤ s1.nextAddr ∧
      (∀ a, s.alive a = true → s1.alive a = true) ∧
      (∀ a, a < s.nextAddr → (s.heap a).mFreePtr ≤ (s1.heap a).mFreePtr) ∧
      (∀ r ∈ rs, r.1.block < s1.nextAddr ∧ s1.alive r.1.block = true ∧ 4 ≤ r.1.offset ∧
        r.1.offset + r.2 ≤ (s1.heap r.1.block).mFreePtr ∧
        (r.1.block < s.nextAddr → (s.heap r.1.block).mFreePtr + 4 ≤ r.1.offset)) ∧
      rs.Pairwise regionsDisjoint := by
  induction amounts with
  | nil =>
    intro s hinv _
    exact ⟨s, [], rfl, hinv, rfl, le_refl _, fun _ h => h, fun _ _ => le_refl _,
      fun r hr => absurd hr (List.not_mem_nil r), List.Pairwise.nil⟩
  | cons amount rest ih =>
    intro s hinv hfit
    obtain ⟨s1, p, h1, hinv1, hn1, hal1, hmono1, hp1, hp2, hp3, hp4, hp5⟩ :=
      alloc_allocOnly s amount hinv (hfit amount (List.mem_cons_self _ _))
    obtain ⟨s2, rs, h2, hinv2, hmap2, hn2, hal2, hmono2, hrs, hpw⟩ :=
      ih s1 hinv1 (fun a ha => hfit a (List.mem_cons_of_mem _ ha))
    refine ⟨s2, (p, amount) :: rs, ?_, hinv2, ?_, le_trans hn1 hn2,
      fun a ha => hal2 a (hal1 a ha),
      fun a ha => le_trans (hmono1 a ha) (hmono2 a (lt_of_lt_of_le ha hn1)), ?_, ?_⟩
    · simp only [MemStackInternal.allocRegions, h1, h2]
    · simp only [List.map_cons, hmap2]
    · intro r hr
      rcases List.mem_cons.mp hr with h | h
      · subst h
        refine ⟨lt_of_lt_of_le hp1 hn2, hal2 _ hp2, hp3, ?_, hp5⟩
        have := hmono2 p.block hp1
        show p.offset + amount ≤ (s2.heap p.block).mFreePtr
        omega
      · obtain ⟨hr1, hr2, hr3, hr4, hr5⟩ := hrs r h
        refine ⟨hr1, hr2, hr3, hr4, fun hlt => ?_⟩
        have h5 := hr5 (lt_of_lt_of_le hlt hn1)
        have h6 := hmono1 r.1.block hlt
        omega
    · refine List.Pairwise.cons (fun r hr => ?_) hpw
      obtain ⟨hr1, hr2, hr3, hr4, hr5⟩ := hrs r hr
      by_cases hb : p.block = r.1.block
      · right; left
        have h5 := hr5 (hb ▸ hp1)
        rw [← hb] at h5
        show p.offset + amount + 4 ≤ r.1.offset
        omega
      · left
        exact hb

/-- C24: on a new stack of any block capacity (a `UINT32` value), every run of `alloc`
calls with no `dealloc` in between, every amount with `amount + 4` below `2 ^ 32`,
returns; afterwards the free offset of every block is within the size of the block;
every returned region `[start, start + amount)` lies in a live block, behind its 4-byte
header and within the size of that block; and the regions of any two calls, with their
headers, are disjoint. -/
theorem alloc_regions_within_block_and_disjoint (BlockCapacity : Nat) (amounts : List Nat)
    (hcap : BlockCapacity < 2 ^ 32) (hfit : ∀ a ∈ amounts, a + 4 < 2 ^ 32) :
    ∃ (s1 : MemStackInternal) (rs : List (DataPtr × Nat)),
      (MemStackInternal.new BlockCapacity).allocRegions amounts = some (s1, rs) ∧
      rs.map Prod.snd = amounts ∧
      (∀ a, (s1.heap a).mFreePtr ≤ (s1.heap a).mSize) ∧
      (∀ r ∈ rs, s1.alive r.1.block = true ∧ 4 ≤ r.1.offset ∧
        r.1.offset + r.2 ≤ (s1.heap r.1.block).mSize) ∧
      rs.Pairwise regionsDisjoint := by
  obtain ⟨s1, rs, h1, hinv, hmap, _, _, _, hrs, hpw⟩ :=
    allocRegions_allocOnly amounts (MemStackInternal.new BlockCapacity)
      (new_allocOnly BlockCapacity hcap) hfit
  refine ⟨s1, rs, h1, hmap, fun a => (hinv.2.2 a).1, fun r hr => ?_, hpw⟩
  obtain ⟨_, hr2, hr3, hr4, _⟩ := hrs r hr
  exact ⟨hr2, hr3, le_trans hr4 (hinv.2.2 r.1.block).1⟩

theorem alloc_regions_within_block_and_disjoint_witness :
    (16 < 2 ^ 32 ∧ ∀ a ∈ [4, 4, 20], a + 4 < 2 ^ 32) ∧
    ∃ (s1 : MemStackInternal) (rs : List (DataPtr × Nat)),
      (MemStackInternal.new 16).allocRegions [4, 4, 20] = some (s1, rs) ∧
      rs.map Prod.snd = [4, 4, 20] ∧
      (∀ a, (s1.heap a).mFreePtr ≤ (s1.heap a).mSize) ∧
      (∀ r ∈ rs, s1.alive r.1.block = true ∧ 4 ≤ r.1.offset ∧
        r.1.offset + r.2 ≤ (s1.heap r.1.block).mSize) ∧
      rs.Pairwise regionsDisjoint :=
  ⟨⟨by decide, by decide⟩,
   alloc_regions_within_block_and_disjoint 16 [4, 4, 20] (by decide) (by decide)⟩

end BansheeEngine
